import Mathlib

/-!
Micronova pellet stove controller: embedding and verified properties.

A shallow embedding of `src/Config.h`, `src/IStoveComm.h`,
`src/StoveController.{h,cpp}`, `src/StoveComm.{h,cpp}` and
`src/Scheduler.{h,cpp}`.

Modelling conventions

* `uint8_t` / `uint32_t` values are natural numbers; 32-bit arithmetic that can
  wrap is written with `add32`, `sub32`, `mul32` (explicit `% 2^32`).
* The environment of the controller is a `World`: the millisecond clock read by
  `millis()` and the state of the device behind the `IStoveComm` pointer.
  `vTaskDelay` advances the clock; device transactions are given the clock value
  and do not advance it.
* A read transaction `int readRAM(addr, buffer)` is the list of bytes the device
  stored into the buffer; the returned `int` is the length of that list.
* `float _ambientTemp` only ever holds `0.0f` or `(float)b / 2.0f` for a byte
  `b`; these are exact in binary32, so the field is a rational number.
* The state mutex is taken with `portMAX_DELAY`, so it is always acquired; the
  embedding is sequential and logging calls are dropped.
* A mutex taken with a bounded wait (transport, scheduler) succeeds or not
  according to a flag `lockAvailable` supplied by the environment.
* A callback passed as a function pointer acts on a state of the caller.
-/

namespace Micronova

/-! ## Config.h -/

def RAM_ADDR_STATE : Nat := 0x21
def RAM_ADDR_AMBIENT_TEMP : Nat := 0x01
def RAM_ADDR_POWER_FEEDBACK : Nat := 0xB9
def RAM_ADDR_COMMAND : Nat := 0x58
def COMMAND_POWER_PLUS : Nat := 0x54
def COMMAND_POWER_MINUS : Nat := 0x50
def COMMAND_SHUTDOWN_STEP : Nat := 0x5A
def STOVE_STATE_OFF_BYTE : Nat := 0x21
def SAFETY_MIN_ON_TIME_MS : Nat := 10 * 60 * 1000
def ENFORCE_MIN_ON_TIME : Nat := 1
def AUTO_SHUTDOWN_MAX_MIN : Nat := 480
def REPEAT_TIMES_FOR_POWER_OFF : Nat := 22
def MS_FOR_POWER_OFF : Nat := 100

/-! ## 32-bit unsigned arithmetic -/

/-- Sum of two `uint32_t` values. -/
def add32 (a b : Nat) : Nat := (a + b) % 4294967296

/-- Difference of two `uint32_t` values (wraps below zero). -/
def sub32 (a b : Nat) : Nat := (a % 4294967296 + (4294967296 - b % 4294967296)) % 4294967296

/-- Product of two `uint32_t` values. -/
def mul32 (a b : Nat) : Nat := (a * b) % 4294967296

/-! ## StoveController.h: data model -/

/-- Operating states of the stove (`enum StoveRunState : uint8_t`). -/
inductive StoveRunState where
  | STOVE_OFF
  | STOVE_STARTING
  | STOVE_LOADING_PELLET
  | STOVE_FIRE_PRESENT
  | STOVE_WORKING
  | STOVE_FINAL_CLEAN
  | STOVE_UNDEFINED
  deriving DecidableEq, Repr

open StoveRunState

/-- The enumerator values of `StoveRunState`. -/
def StoveRunState.toByte : StoveRunState → Nat
  | STOVE_OFF => 0
  | STOVE_STARTING => 1
  | STOVE_LOADING_PELLET => 2
  | STOVE_FIRE_PRESENT => 3
  | STOVE_WORKING => 4
  | STOVE_FINAL_CLEAN => 6
  | STOVE_UNDEFINED => 255

/-- Snapshot of the stove status (`struct StoveStatus`). -/
structure StoveStatus where
  state : StoveRunState
  rawStateValue : Nat
  powerLevel : Nat
  ambientTemp : ℚ
  canShutdown : Bool
  msSinceOn : Nat
  msRemainingToAllowShutdown : Nat
  deriving DecidableEq

/-- The private fields of `class StoveController`. `_comm` records whether the
`IStoveComm*` pointer is non-null; the device it points to lives in the `World`. -/
structure StoveController where
  _comm : Bool
  _isOn : Bool
  _currentState : StoveRunState
  _onStartMillis : Nat
  _lastStateChangeMillis : Nat
  _ambientTemp : ℚ
  _physicalPower : Nat
  _powerAdjustInProgress : Bool
  _autoShutdownEnabled : Bool
  _autoShutdownMinutes : Nat
  _autoShutdownDeadlineMs : Nat
  _shutdownInProgress : Bool
  deriving DecidableEq

/-! ## IStoveComm.h and the environment -/

/-- The clock and the device the controller talks to. -/
structure World (δ : Type) where
  now : Nat
  dev : δ

/-- The two `IStoveComm` methods the controller calls, over a device state `δ`.
`readRAM address now dev` gives the bytes stored in the buffer (their number is
the returned `int`) and the next device state. -/
structure IStoveComm (δ : Type) where
  readRAM : Nat → Nat → δ → List Nat × δ
  writeRAM : Nat → Nat → Nat → δ → δ

/-- The clock read, `millis()`. -/
def millis {δ : Type} (w : World δ) : Nat := w.now

/-- The delay `vTaskDelay(pdMS_TO_TICKS(ms))`: the clock advances by `ms`. -/
def vTaskDelay {δ : Type} (ms : Nat) (w : World δ) : World δ :=
  { w with now := add32 w.now ms }

/-- A device given by a script: the responses of its future reads, in order
(a read past the end of the script times out with zero bytes), and the log of
every `writeRAM (address, data)` it has received. -/
structure TraceDev where
  pending : List (List Nat)
  writes : List (Nat × Nat)
  deriving DecidableEq

/-- The `IStoveComm` of a scripted device. -/
def traceComm : IStoveComm TraceDev where
  readRAM := fun _ _ d =>
    match d.pending with
    | [] => ([], d)
    | r :: rs => (r, { d with pending := rs })
  writeRAM := fun address data _ d => { d with writes := d.writes ++ [(address, data)] }

/-- The buffer a read filled, as the byte at each index. -/
def bufOf (bytes : List Nat) : Nat → Nat := fun i => bytes.getD i 0

/-! ## StoveController.cpp -/

namespace StoveController

/-- The constructor `StoveController::StoveController()`. -/
def ctor : StoveController :=
  { _comm := false
    _isOn := false
    _currentState := STOVE_OFF
    _onStartMillis := 0
    _lastStateChangeMillis := 0
    _ambientTemp := 0
    _physicalPower := 1
    _powerAdjustInProgress := false
    _autoShutdownEnabled := false
    _autoShutdownMinutes := 0
    _autoShutdownDeadlineMs := 0
    _shutdownInProgress := false }

/-- Method `StoveController::begin(comm)` with a non-null `comm`. -/
def begin (c : StoveController) : StoveController :=
  { c with _comm := true }

/-- Method `StoveController::decodeState(data, len)`. -/
def decodeState (data : Nat → Nat) (len : Int) : StoveRunState :=
  if len ≤ 0 then STOVE_UNDEFINED
  else if len = 1 then
    if data 0 = STOVE_STATE_OFF_BYTE then STOVE_OFF else STOVE_UNDEFINED
  else
    match data (len - 1).toNat with
    | 0x00 => STOVE_OFF
    | 0x01 => STOVE_STARTING
    | 0x02 => STOVE_LOADING_PELLET
    | 0x03 => STOVE_FIRE_PRESENT
    | 0x04 => STOVE_WORKING
    | 0x06 => STOVE_FINAL_CLEAN
    | _ => STOVE_UNDEFINED

/-- Method `StoveController::internalUpdateShutdown(s)`. -/
def internalUpdateShutdown (c : StoveController) (s : StoveStatus) : StoveStatus :=
  if !c._isOn then
    { s with canShutdown := false, msRemainingToAllowShutdown := 0 }
  else if ENFORCE_MIN_ON_TIME = 0 then
    { s with canShutdown := true }
  else if s.msSinceOn ≥ SAFETY_MIN_ON_TIME_MS then
    { s with canShutdown := true }
  else
    { s with canShutdown := false
             msRemainingToAllowShutdown := SAFETY_MIN_ON_TIME_MS - s.msSinceOn }

/-- Method `StoveController::getStatusSnapshot()` at clock value `now`. -/
def getStatusSnapshot (c : StoveController) (now : Nat) : StoveStatus :=
  let s : StoveStatus :=
    { state := c._currentState
      rawStateValue := c._currentState.toByte
      powerLevel := c._physicalPower
      ambientTemp := c._ambientTemp
      msSinceOn := if c._isOn then sub32 now c._onStartMillis else 0
      msRemainingToAllowShutdown := 0
      canShutdown := false }
  internalUpdateShutdown c s

/-- Method `StoveController::isOn()`. -/
def isOn (c : StoveController) : Bool := c._isOn

/-- Method `StoveController::getPowerLevel()`. -/
def getPowerLevel (c : StoveController) : Nat := c._physicalPower

/-- Method `StoveController::isPowerAdjustInProgress()`. -/
def isPowerAdjustInProgress (c : StoveController) : Bool := c._powerAdjustInProgress

/-- Method `StoveController::isAutoShutdownEnabled()`. -/
def isAutoShutdownEnabled (c : StoveController) : Bool := c._autoShutdownEnabled

/-- Method `StoveController::getAutoShutdownRemainingMs()` at clock value `now`. -/
def getAutoShutdownRemainingMs (c : StoveController) (now : Nat) : Nat :=
  if !c._autoShutdownEnabled then 0
  else if now ≥ c._autoShutdownDeadlineMs then 0
  else c._autoShutdownDeadlineMs - now

/-- Method `StoveController::scheduleEarliestSafeShutdown(remainingMs)` at clock value `now`. -/
def scheduleEarliestSafeShutdown (c : StoveController) (now remainingMs : Nat) :
    Bool × StoveController :=
  if !c._isOn then (false, c)
  else if remainingMs = 0 then (false, c)
  else
    let newDeadline := add32 now remainingMs
    let armed : StoveController :=
      { c with _autoShutdownEnabled := true
               _autoShutdownDeadlineMs := newDeadline
               _autoShutdownMinutes := add32 remainingMs 59999 / 60000 }
    if c._autoShutdownEnabled then
      if newDeadline ≥ c._autoShutdownDeadlineMs then (true, c) else (true, armed)
    else (true, armed)

/-- The loop `for (i = 0; i < n; i++) { _comm->writeRAM(address, data); vTaskDelay(ms); }`. -/
def pulseTrain {δ : Type} (comm : IStoveComm δ) (address data ms : Nat) :
    Nat → World δ → World δ
  | 0, w => w
  | n + 1, w =>
    pulseTrain comm address data ms n
      (vTaskDelay ms { w with dev := comm.writeRAM address data w.now w.dev })

/-- Method `StoveController::requestShutdown()`. The source dereferences `_comm`
without a test, and so does the model. -/
def requestShutdown {δ : Type} (comm : IStoveComm δ) (c : StoveController) (w : World δ) :
    Bool × StoveController × World δ :=
  let snap := getStatusSnapshot c (millis w)
  if !snap.canShutdown then
    if snap.msRemainingToAllowShutdown > 0 then
      (false, (scheduleEarliestSafeShutdown c (millis w) snap.msRemainingToAllowShutdown).2, w)
    else
      (false, c, w)
  else
    let c1 := { c with _shutdownInProgress := true }
    let w1 := pulseTrain comm RAM_ADDR_COMMAND COMMAND_SHUTDOWN_STEP MS_FOR_POWER_OFF
      REPEAT_TIMES_FOR_POWER_OFF w
    (true, { c1 with _shutdownInProgress := false }, w1)

/-- Method `StoveController::syncPhysicalPower()`. -/
def syncPhysicalPower {δ : Type} (comm : IStoveComm δ) (c : StoveController) (w : World δ) :
    StoveController × World δ :=
  if c._comm then
    let r := comm.readRAM RAM_ADDR_POWER_FEEDBACK w.now w.dev
    let w1 := { w with dev := r.2 }
    if r.1.length ≥ 2 then
      let p := bufOf r.1 1
      let p := if p < 1 then 1 else p
      let p := if p > 5 then 5 else p
      ({ c with _physicalPower := p }, w1)
    else (c, w1)
  else (c, w)

/-- Method `StoveController::readAmbientTemperature()`. -/
def readAmbientTemperature {δ : Type} (comm : IStoveComm δ) (c : StoveController)
    (w : World δ) : ℚ × World δ :=
  if c._comm then
    let r := comm.readRAM RAM_ADDR_AMBIENT_TEMP w.now w.dev
    let w1 := { w with dev := r.2 }
    if r.1.length ≥ 1 then ((bufOf r.1 0 : ℚ) / 2, w1) else (c._ambientTemp, w1)
  else (c._ambientTemp, w)

/-- Method `StoveController::updateAmbientTemp()`. -/
def updateAmbientTemp {δ : Type} (comm : IStoveComm δ) (c : StoveController) (w : World δ) :
    StoveController × World δ :=
  let r := readAmbientTemperature comm c w
  ({ c with _ambientTemp := r.1 }, r.2)

/-- Method `StoveController::evaluateAutoShutdown()`. -/
def evaluateAutoShutdown {δ : Type} (comm : IStoveComm δ) (c : StoveController)
    (w : World δ) : StoveController × World δ :=
  if !c._autoShutdownEnabled then (c, w)
  else if millis w ≥ c._autoShutdownDeadlineMs then
    let r := requestShutdown comm c w
    ({ r.2.1 with _autoShutdownEnabled := false }, r.2.2)
  else (c, w)

/-- The state bookkeeping `poll()` does under the mutex once the state is decoded. -/
def pollUpdateState (c : StoveController) (newState : StoveRunState) (now : Nat) :
    StoveController :=
  if newState ≠ c._currentState then
    let c1 := { c with _currentState := newState, _lastStateChangeMillis := now }
    if c1._currentState = STOVE_OFF then
      { c1 with _isOn := false
                _onStartMillis := 0
                _shutdownInProgress := false
                _autoShutdownEnabled := false
                _autoShutdownMinutes := 0
                _autoShutdownDeadlineMs := 0 }
    else if !c1._isOn && decide (c1._currentState ≠ STOVE_UNDEFINED)
        && decide (c1._currentState ≠ STOVE_OFF) then
      { c1 with _isOn := true, _onStartMillis := now }
    else c1
  else c

/-- Method `StoveController::poll()`. -/
def poll {δ : Type} (comm : IStoveComm δ) (c : StoveController) (w : World δ) :
    StoveController × World δ :=
  if !c._comm then (c, w)
  else if c._powerAdjustInProgress || c._shutdownInProgress then (c, w)
  else
    let r := comm.readRAM RAM_ADDR_STATE w.now w.dev
    let w1 := { w with dev := r.2 }
    let newState := decodeState (bufOf r.1) r.1.length
    let c1 := pollUpdateState c newState (millis w1)
    let s2 := syncPhysicalPower comm c1 w1
    let s3 := updateAmbientTemp comm s2.1 s2.2
    evaluateAutoShutdown comm s3.1 s3.2

/-- Method `StoveController::applyTargetPower(target)`. -/
def applyTargetPower {δ : Type} (comm : IStoveComm δ) (c : StoveController) (w : World δ)
    (target : Nat) : StoveController × World δ :=
  if c._shutdownInProgress then (c, w)
  else if c._powerAdjustInProgress then (c, w)
  else
    let s1 := syncPhysicalPower comm c w
    if target = s1.1._physicalPower then s1
    else
      let c2 := { s1.1 with _powerAdjustInProgress := true }
      let s3 :=
        if c2._comm then
          let w2 :=
            if target > c2._physicalPower then
              let steps := ((target - c2._physicalPower) + 1) % 256
              pulseTrain comm RAM_ADDR_COMMAND COMMAND_POWER_MINUS 600 steps s1.2
            else
              let steps := ((c2._physicalPower - target) + 1) % 256
              pulseTrain comm RAM_ADDR_COMMAND COMMAND_POWER_PLUS 600 steps s1.2
          syncPhysicalPower comm c2 (vTaskDelay 4000 w2)
        else (c2, s1.2)
      ({ s3.1 with _powerAdjustInProgress := false }, s3.2)

/-- Method `StoveController::setPowerLevel(level)`. -/
def setPowerLevel {δ : Type} (comm : IStoveComm δ) (c : StoveController) (w : World δ)
    (level : Nat) : StoveController × World δ :=
  let level := if level < 1 then 1 else level
  let level := if level > 5 then 5 else level
  applyTargetPower comm c w level

/-- Method `StoveController::setAutoShutdown(minutes)` at clock value `now`: the
returned minutes and the next controller state. -/
def setAutoShutdown (c : StoveController) (now minutes : Nat) : Nat × StoveController :=
  if !c._isOn then (0, c)
  else if minutes = 0 then (0, c)
  else
    let elapsedMs := sub32 now c._onStartMillis
    let safetyRemainingMs :=
      if elapsedMs < SAFETY_MIN_ON_TIME_MS then SAFETY_MIN_ON_TIME_MS - elapsedMs else 0
    let requestedMs := mul32 minutes 60000
    let adj : Nat × Nat :=
      if requestedMs < safetyRemainingMs then
        (safetyRemainingMs, add32 safetyRemainingMs 59999 / 60000)
      else (requestedMs, minutes)
    let requestedMs := adj.1
    let minutes := adj.2
    let cap : Nat × Nat :=
      if minutes > AUTO_SHUTDOWN_MAX_MIN then
        (mul32 AUTO_SHUTDOWN_MAX_MIN 60000, AUTO_SHUTDOWN_MAX_MIN)
      else (requestedMs, minutes)
    let requestedMs := cap.1
    let minutes := cap.2
    (minutes, { c with _autoShutdownEnabled := true
                       _autoShutdownMinutes := minutes
                       _autoShutdownDeadlineMs := add32 now requestedMs })

/-- Method `StoveController::disableAutoShutdown()`. -/
def disableAutoShutdown (c : StoveController) : StoveController :=
  { c with _autoShutdownEnabled := false
           _autoShutdownMinutes := 0
           _autoShutdownDeadlineMs := 0 }

end StoveController

open StoveController

/-- Controller states reachable from construction and `begin` by the public
operations, each run to completion against any clock value and device state. -/
inductive Reachable {δ : Type} (comm : IStoveComm δ) : StoveController → Prop
  | init : Reachable comm (begin ctor)
  | poll (c : StoveController) (w : World δ) :
      Reachable comm c → Reachable comm (poll comm c w).1
  | requestShutdown (c : StoveController) (w : World δ) :
      Reachable comm c → Reachable comm (requestShutdown comm c w).2.1
  | setPowerLevel (c : StoveController) (w : World δ) (level : Nat) :
      Reachable comm c → Reachable comm (setPowerLevel comm c w level).1
  | setAutoShutdown (c : StoveController) (now minutes : Nat) :
      Reachable comm c → Reachable comm (setAutoShutdown c now minutes).2
  | disableAutoShutdown (c : StoveController) :
      Reachable comm c → Reachable comm (disableAutoShutdown c)

/-- A controller that saw the device enter `STOVE_WORKING` at clock value 0:
the state after `begin` and one `poll` whose state read returned `[0x00, 0x04]`. -/
def workingAt0 : StoveController :=
  (poll traceComm (begin ctor) ⟨0, ⟨[[0x00, 0x04]], []⟩⟩).1

/-- Controller states reachable from construction by `begin` and the public
operations in any order, each run to completion against any clock value and
device state. `startStove()` writes to the device and changes no field of the
controller, so it adds no state. -/
inductive ReachableFromCtor {δ : Type} (comm : IStoveComm δ) : StoveController → Prop
  | ctor : ReachableFromCtor comm ctor
  | begin (c : StoveController) :
      ReachableFromCtor comm c → ReachableFromCtor comm (begin c)
  | poll (c : StoveController) (w : World δ) :
      ReachableFromCtor comm c → ReachableFromCtor comm (poll comm c w).1
  | requestShutdown (c : StoveController) (w : World δ) :
      ReachableFromCtor comm c → ReachableFromCtor comm (requestShutdown comm c w).2.1
  | setPowerLevel (c : StoveController) (w : World δ) (level : Nat) :
      ReachableFromCtor comm c → ReachableFromCtor comm (setPowerLevel comm c w level).1
  | setAutoShutdown (c : StoveController) (now minutes : Nat) :
      ReachableFromCtor comm c → ReachableFromCtor comm (setAutoShutdown c now minutes).2
  | disableAutoShutdown (c : StoveController) :
      ReachableFromCtor comm c → ReachableFromCtor comm (disableAutoShutdown c)

/-- The controller and the world at the point where `poll()` calls
`evaluateAutoShutdown()`: after the state read, the bookkeeping under the mutex,
`syncPhysicalPower()` and `updateAmbientTemp()`. -/
def pollBeforeAutoShutdown {δ : Type} (comm : IStoveComm δ) (c : StoveController)
    (w : World δ) : StoveController × World δ :=
  let r := comm.readRAM RAM_ADDR_STATE w.now w.dev
  let w1 := { w with dev := r.2 }
  let newState := decodeState (bufOf r.1) r.1.length
  let c1 := pollUpdateState c newState (millis w1)
  let s2 := syncPhysicalPower comm c1 w1
  updateAmbientTemp comm s2.1 s2.2

/-- A controller on since clock value 0 whose timer was armed for 10 minutes at
clock value 0 (deadline 600000). -/
def timerArmedAt0 : StoveController :=
  (setAutoShutdown workingAt0 0 10).2

/-! ## StoveComm.cpp: the serial transport

The serial link is a log of the bytes written and the list of the bytes that
arrive in the receive window of the next read. `delay` calls only pace the link
and are dropped. -/

def STOVE_OFFSET_RAM_READ : Nat := 0x00
def STOVE_OFFSET_EEPROM_READ : Nat := 0x20
def STOVE_OFFSET_RAM_WRITE : Nat := 0x80
def STOVE_OFFSET_EEPROM_WRITE : Nat := 0xA0

/-- The fields of `class StoveComm` together with the link behind `_serial`:
`_serialMutex` records whether the handle is non-null, `lockAvailable` whether
`xSemaphoreTake(_serialMutex, 300 ms)` succeeds, `tx` the bytes written so far
(oldest first), `rx` the bytes available to `_serial->read()` in arrival order,
`enPinHigh` the level of the direction pin. -/
structure StoveComm where
  _serialMutex : Bool
  lockAvailable : Bool
  tx : List Nat
  rx : List Nat
  enPinHigh : Bool

namespace StoveComm

/-- Method `StoveComm::enableRx()`. -/
def enableRx (s : StoveComm) : StoveComm := { s with enPinHigh := false }

/-- Method `StoveComm::disableRx()`. -/
def disableRx (s : StoveComm) : StoveComm := { s with enPinHigh := true }

/-- The call `_serial->write(b)`. -/
def serialWrite (b : Nat) (s : StoveComm) : StoveComm := { s with tx := s.tx ++ [b] }

/-- Method `StoveComm::calculate_checksum(dest, addr, val)`; `checksum` is a
`uint8_t`, so the sum is truncated when it is stored. -/
def calculate_checksum (dest addr val : Nat) : Nat :=
  let checksum := (dest + addr + val) % 256
  let checksum := if checksum ≥ 256 then (checksum - 256) % 256 else checksum
  checksum % 256

/-- The loop `while (_serial->available()) { b = read(); if (n < 64) buffer[n++] = b; }`
of `readFromStove`, over the bytes available: the count `n` and the buffer. -/
def receiveLoop : List Nat → Nat → (Nat → Nat) → Nat × (Nat → Nat)
  | [], n, buffer => (n, buffer)
  | b :: rest, n, buffer =>
    if n < 64 then receiveLoop rest (n + 1) (Function.update buffer n b)
    else receiveLoop rest n buffer

/-- Method `StoveComm::readFromStove(cmdBase, addr, buffer)`: the returned count,
the buffer afterwards and the next transport state. -/
def readFromStove (s : StoveComm) (cmdBase addr : Nat) (buffer : Nat → Nat) :
    Nat × (Nat → Nat) × StoveComm :=
  if !s._serialMutex then (0, buffer, s)
  else if !s.lockAvailable then (0, buffer, s)
  else
    let s1 := serialWrite cmdBase s
    let s2 := serialWrite addr s1
    let s3 := enableRx s2
    let r := receiveLoop s3.rx 0 buffer
    let s4 := disableRx { s3 with rx := [] }
    (r.1, r.2, s4)

/-- Method `StoveComm::readRAM(address, buffer)`. -/
def readRAM (s : StoveComm) (address : Nat) (buffer : Nat → Nat) :
    Nat × (Nat → Nat) × StoveComm :=
  readFromStove s STOVE_OFFSET_RAM_READ address buffer

/-- Method `StoveComm::readEEPROM(address, buffer)`. -/
def readEEPROM (s : StoveComm) (address : Nat) (buffer : Nat → Nat) :
    Nat × (Nat → Nat) × StoveComm :=
  readFromStove s STOVE_OFFSET_EEPROM_READ address buffer

/-- Method `StoveComm::writeToStove(location, command, data)`. -/
def writeToStove (s : StoveComm) (location command data : Nat) : StoveComm :=
  if !s._serialMutex then s
  else if !s.lockAvailable then s
  else
    let chk := calculate_checksum location command data
    let data_to_write := [location, command, data, chk]
    data_to_write.foldl (fun st b => serialWrite b st) s

/-- Method `StoveComm::writeRAM(address, data)`. -/
def writeRAM (s : StoveComm) (address data : Nat) : StoveComm :=
  writeToStove s STOVE_OFFSET_RAM_WRITE address data

/-- Method `StoveComm::writeEEPROM(address, data)`. -/
def writeEEPROM (s : StoveComm) (address data : Nat) : StoveComm :=
  writeToStove s STOVE_OFFSET_EEPROM_WRITE address data

end StoveComm

/-! ## Scheduler.h and Scheduler.cpp -/

abbrev MAX_SCHEDULE_ENTRIES : Nat := 8
def WD_MON : Nat := 1

/-- One schedule entry (`struct ScheduleEntry`); `day` is the `Weekday` value. -/
structure ScheduleEntry where
  active : Bool
  day : Nat
  hour : Nat
  minute : Nat
  targetPower : Nat
  deriving DecidableEq, Repr

/-- The fields of `class Scheduler`; `_mutex` records whether the handle is
non-null. -/
structure Scheduler where
  _entries : Fin MAX_SCHEDULE_ENTRIES → ScheduleEntry
  _globalEnabled : Bool
  _mutex : Bool

namespace Scheduler

/-- Method `Scheduler::begin()`. -/
def begin (_s : Scheduler) : Scheduler :=
  { _globalEnabled := true
    _mutex := true
    _entries := fun _ =>
      { active := false, day := WD_MON, hour := 0, minute := 0, targetPower := 1 } }

/-- Method `Scheduler::updateEntry(idx, active, day, hour, minute, power)`;
`lockAvailable` tells whether `xSemaphoreTake(_mutex, 200 ms)` succeeds. -/
def updateEntry (s : Scheduler) (lockAvailable : Bool) (idx : Int) (active : Bool)
    (day hour minute power : Nat) : Bool × Scheduler :=
  if h : idx < 0 ∨ idx ≥ (MAX_SCHEDULE_ENTRIES : Int) then (false, s)
  else if day < 1 ∨ day > 7 then (false, s)
  else if hour > 23 ∨ minute > 59 then (false, s)
  else
    let power := if power < 1 then 1 else power
    let power := if power > 5 then 5 else power
    if !s._mutex then (false, s)
    else if !lockAvailable then (false, s)
    else
      let i : Fin MAX_SCHEDULE_ENTRIES := ⟨idx.toNat, by omega⟩
      let e : ScheduleEntry :=
        { active := active, day := day, hour := hour, minute := minute, targetPower := power }
      (true, { s with _entries := Function.update s._entries i e })

/-- Method `Scheduler::getEntry(idx)`. -/
def getEntry (s : Scheduler) (lockAvailable : Bool) (idx : Nat) : ScheduleEntry :=
  let i : Fin MAX_SCHEDULE_ENTRIES :=
    if h : idx ≥ MAX_SCHEDULE_ENTRIES then ⟨MAX_SCHEDULE_ENTRIES - 1, by decide⟩
    else ⟨idx, by omega⟩
  let e := s._entries i
  if !s._mutex then e
  else if !lockAvailable then e
  else s._entries i

/-- Method `Scheduler::setGlobalEnabled(en)`. -/
def setGlobalEnabled (s : Scheduler) (en : Bool) : Scheduler :=
  { s with _globalEnabled := en }

/-- Method `Scheduler::isGlobalEnabled()`. -/
def isGlobalEnabled (s : Scheduler) : Bool := s._globalEnabled

/-- The loop of `Scheduler::evaluate` over the indices still to visit; the
callback `startAndPower` acts on the caller's state `σ`. -/
def evaluateLoop {σ : Type} (s : Scheduler) (day hour minute : Nat)
    (startAndPower : Nat → σ → σ) : List (Fin MAX_SCHEDULE_ENTRIES) → σ → σ
  | [], out => out
  | i :: rest, out =>
    let e := s._entries i
    if !e.active then evaluateLoop s day hour minute startAndPower rest out
    else if e.day ≠ day then evaluateLoop s day hour minute startAndPower rest out
    else if e.hour = hour ∧ e.minute = minute then
      evaluateLoop s day hour minute startAndPower rest (startAndPower e.targetPower out)
    else evaluateLoop s day hour minute startAndPower rest out

/-- Method `Scheduler::evaluate(day, hour, minute, stoveOn, startAndPower)`: the
scheduler afterwards and the caller's state after the callback invocations. -/
def evaluate {σ : Type} (s : Scheduler) (lockAvailable : Bool) (day hour minute : Nat)
    (_stoveOn : Bool) (startAndPower : Nat → σ → σ) (out : σ) : Scheduler × σ :=
  if !s._globalEnabled then (s, out)
  else if !s._mutex then (s, out)
  else if !lockAvailable then (s, out)
  else (s, evaluateLoop s day hour minute startAndPower (List.finRange MAX_SCHEDULE_ENTRIES) out)

/-- A callback that records the power it is called with. -/
def recordTrigger (power : Nat) (log : List Nat) : List Nat := log ++ [power]

end Scheduler

/-- The trigger sequence in the words of the specification: the `targetPower`
values, in increasing index order, of the entries that are active and whose day,
hour and minute all equal the arguments. -/
def matchingPowers (s : Scheduler) (day hour minute : Nat) : List Nat :=
  ((List.finRange MAX_SCHEDULE_ENTRIES).filter fun i =>
      (s._entries i).active && decide ((s._entries i).day = day)
        && decide ((s._entries i).hour = hour) && decide ((s._entries i).minute = minute)).map
    fun i => (s._entries i).targetPower

/-- The field-range invariant of the schedule table. -/
def EntriesInRange (s : Scheduler) : Prop :=
  ∀ i : Fin MAX_SCHEDULE_ENTRIES,
    (1 ≤ (s._entries i).day ∧ (s._entries i).day ≤ 7)
      ∧ (s._entries i).hour ≤ 23
      ∧ (s._entries i).minute ≤ 59
      ∧ (1 ≤ (s._entries i).targetPower ∧ (s._entries i).targetPower ≤ 5)

/-- Scheduler states reachable from `begin()` by `updateEntry`,
`setGlobalEnabled` and `evaluate` calls with any arguments. -/
inductive SchedReachable : Scheduler → Prop
  | begin (s : Scheduler) : SchedReachable (Scheduler.begin s)
  | updateEntry (s : Scheduler) (lockAvailable : Bool) (idx : Int) (active : Bool)
      (day hour minute power : Nat) :
      SchedReachable s →
        SchedReachable (Scheduler.updateEntry s lockAvailable idx active day hour minute power).2
  | setGlobalEnabled (s : Scheduler) (en : Bool) :
      SchedReachable s → SchedReachable (Scheduler.setGlobalEnabled s en)
  | evaluate (s : Scheduler) (lockAvailable : Bool) (day hour minute : Nat) (stoveOn : Bool)
      (log : List Nat) :
      SchedReachable s →
        SchedReachable
          (Scheduler.evaluate s lockAvailable day hour minute stoveOn
            Scheduler.recordTrigger log).1

/-! ### Scheduler::buildSummary and reading a summary back

The Arduino `String` is a Lean `String`; `String + number` appends the decimal
digits of the number, as `toString` does. -/

/-- The text one iteration of the loop of `buildSummary` appends for the entry
at index `i`. -/
def Scheduler.summaryLine (i : Nat) (e : ScheduleEntry) : String :=
  "#" ++ toString i ++ " act=" ++ (if e.active then "1" else "0") ++ " day=" ++ toString e.day
    ++ " " ++ (if e.hour < 10 then "0" else "") ++ toString e.hour
    ++ ":" ++ (if e.minute < 10 then "0" else "") ++ toString e.minute
    ++ " power=" ++ toString e.targetPower ++ "\n"

/-- Method `Scheduler::buildSummary()`. -/
def Scheduler.buildSummary (s : Scheduler) (lockAvailable : Bool) : String :=
  let out := ""
  if !s._mutex then out
  else if !lockAvailable then out
  else
    let out := out ++ ("Global: " ++ (if s._globalEnabled then "ENABLED" else "DISABLED") ++ "\n")
    (List.finRange MAX_SCHEDULE_ENTRIES).foldl
      (fun out i => out ++ Scheduler.summaryLine i.val (s._entries i)) out

/-- A decimal digit character. -/
def isDigitChar (c : Char) : Bool := decide (48 ≤ c.toNat) && decide (c.toNat ≤ 57)

/-- The number a list of decimal digits denotes. -/
def digitsValue (ds : List Char) : Nat :=
  ds.foldl (fun acc d => 10 * acc + (d.toNat - 48)) 0

/-- Reads a non-empty run of decimal digits: its value and the remaining text. -/
def parseNat (cs : List Char) : Option (Nat × List Char) :=
  let ds := cs.takeWhile isDigitChar
  if ds.isEmpty then none else some (digitsValue ds, cs.dropWhile isDigitChar)

/-- Strips a literal from the front of the text. -/
def expectLit : List Char → List Char → Option (List Char)
  | [], cs => some cs
  | _ :: _, [] => none
  | c :: lit, d :: cs => if c = d then expectLit lit cs else none

/-- Reads a literal and then a number. -/
def parseField (lit : String) (cs : List Char) : Option (Nat × List Char) :=
  (expectLit lit.toList cs).bind parseNat

/-- Reads one entry line back in its field order (index, act, day, HH:MM,
power): the index, the entry and the remaining text. -/
def parseEntryLine (cs : List Char) : Option ((Nat × ScheduleEntry) × List Char) :=
  match parseField "#" cs with
  | none => none
  | some ri =>
  match parseField " act=" ri.2 with
  | none => none
  | some ra =>
  match parseField " day=" ra.2 with
  | none => none
  | some rd =>
  match parseField " " rd.2 with
  | none => none
  | some rh =>
  match parseField ":" rh.2 with
  | none => none
  | some rm =>
  match parseField " power=" rm.2 with
  | none => none
  | some rp =>
  match expectLit "\n".toList rp.2 with
  | none => none
  | some cs =>
    some ((ri.1, { active := decide (ra.1 = 1), day := rd.1, hour := rh.1, minute := rm.1,
                   targetPower := rp.1 }), cs)

/-- Reads `n` entry lines. -/
def parseEntryLines : Nat → List Char → Option (List (Nat × ScheduleEntry) × List Char)
  | 0, cs => some ([], cs)
  | n + 1, cs =>
    match parseEntryLine cs with
    | none => none
    | some r =>
      match parseEntryLines n r.2 with
      | none => none
      | some rs => some (r.1 :: rs.1, rs.2)

/-- Reads the header line: the global flag and the remaining text. -/
def parseHeader (cs : List Char) : Option (Bool × List Char) :=
  match expectLit "Global: ".toList cs with
  | none => none
  | some cs =>
    match expectLit "ENABLED\n".toList cs with
    | some r => some (true, r)
    | none =>
      match expectLit "DISABLED\n".toList cs with
      | some r => some (false, r)
      | none => none

/-- Reads a whole summary back: the header line for the global flag, then
exactly `MAX_SCHEDULE_ENTRIES` entry lines, then the end of the text. -/
def parseSummary (text : String) : Option (Bool × List (Nat × ScheduleEntry)) :=
  match parseHeader text.toList with
  | none => none
  | some g =>
    match parseEntryLines MAX_SCHEDULE_ENTRIES g.2 with
    | none => none
    | some rs => if rs.2.isEmpty then some (g.1, rs.1) else none

/-- The scheduler right after `begin()`. -/
def freshScheduler : Scheduler :=
  Scheduler.begin ⟨fun _ => ⟨true, 0, 0, 0, 0⟩, false, false⟩

/-- The scheduler after `begin()`, `updateEntry(3, true, 5, 7, 5, 4)` with the
lock available and `setGlobalEnabled(false)`. -/
def editedScheduler : Scheduler :=
  Scheduler.setGlobalEnabled (Scheduler.updateEntry freshScheduler true 3 true 5 7 5 4).2 false

/-! ## A clock that does not wrap -/

/-- The clock value `now` and every deadline armed from it (at most
`AUTO_SHUTDOWN_MAX_MIN` minutes ahead) fit in 32 bits. -/
def NoWrapAt (now : Nat) : Prop := now + 28800000 < 4294967296

/-- Controller states reachable from construction while the clock does not wrap:
`ReachableNoWrap comm c t` says `c` is reached by operations whose clock values
never decrease, the last of which ran at clock value `t`. `startStove()`
changes no field of the controller. -/
inductive ReachableNoWrap {δ : Type} (comm : IStoveComm δ) : StoveController → Nat → Prop
  | ctor : ReachableNoWrap comm ctor 0
  | begin (c : StoveController) (t : Nat) :
      ReachableNoWrap comm c t → ReachableNoWrap comm (begin c) t
  | poll (c : StoveController) (t : Nat) (w : World δ) :
      ReachableNoWrap comm c t → t ≤ w.now → NoWrapAt w.now →
        ReachableNoWrap comm (poll comm c w).1 w.now
  | requestShutdown (c : StoveController) (t : Nat) (w : World δ) :
      ReachableNoWrap comm c t → t ≤ w.now → NoWrapAt w.now →
        ReachableNoWrap comm (requestShutdown comm c w).2.1 w.now
  | setPowerLevel (c : StoveController) (t : Nat) (w : World δ) (level : Nat) :
      ReachableNoWrap comm c t → t ≤ w.now → NoWrapAt w.now →
        ReachableNoWrap comm (setPowerLevel comm c w level).1 w.now
  | setAutoShutdown (c : StoveController) (t now minutes : Nat) :
      ReachableNoWrap comm c t → t ≤ now → NoWrapAt now →
        ReachableNoWrap comm (setAutoShutdown c now minutes).2 now
  | disableAutoShutdown (c : StoveController) (t : Nat) :
      ReachableNoWrap comm c t → ReachableNoWrap comm (disableAutoShutdown c) t

/-- A controller switched on by a poll at clock value 4294965296, 2000 ms before
the 32-bit clock would wrap. -/
def workingLate : StoveController :=
  (poll traceComm (begin ctor) ⟨4294965296, ⟨[[0x00, 0x04]], []⟩⟩).1

/-- The controller `workingLate` after `setAutoShutdown(10)` at clock value
4294966296, 1000 ms before the clock would wrap. -/
def timerArmedLate : StoveController :=
  (setAutoShutdown workingLate 4294966296 10).2

/-- The timer invariant: an on device was switched on no later than the clock
value `t`, and an armed timer belongs to an on device with a deadline at least
`SAFETY_MIN_ON_TIME_MS` after the on-time origin. -/
def TimerInv (c : StoveController) (t : Nat) : Prop :=
  (c._isOn = true → c._onStartMillis ≤ t)
    ∧ (c._autoShutdownEnabled = true →
        c._isOn = true ∧ c._onStartMillis + SAFETY_MIN_ON_TIME_MS ≤ c._autoShutdownDeadlineMs)

/-! ## SimStoveComm.cpp: the simulated device

The simulator reads the clock (`millis()`), draws from `random(0,255)` and computes
a sine for the ambient temperature. The clock value is passed to each method; the
random draws and the float computation belong to the environment `SimEnv`. -/

/-- The enumeration `SimInternalState`. -/
inductive SimInternalState
  | SIM_OFF
  | SIM_STARTING
  | SIM_LOADING
  | SIM_FIRE
  | SIM_WORKING
  | SIM_CLEANING
  | SIM_UNDEFINED
  deriving DecidableEq, Repr

open SimInternalState

/-- The `uint8_t` value of a `SimInternalState`. -/
def SimInternalState.toByte : SimInternalState → Nat
  | SIM_OFF => 0
  | SIM_STARTING => 1
  | SIM_LOADING => 2
  | SIM_FIRE => 3
  | SIM_WORKING => 4
  | SIM_CLEANING => 6
  | SIM_UNDEFINED => 255

/-- The private fields of `SimStoveComm`. The float `_ambientBase` only ever holds
whole numbers: 20 from the constructor and `(float)t` for an `int` `t`, which is
`t` rounded to a 24-bit significand (`floatOfInt`). -/
structure SimStoveComm where
  _lastStateChangeMs : Nat
  _startMs : Nat
  _state : SimInternalState
  _power : Nat
  _ambientBase : Int
  _inShutdown : Bool
  _failureMode : Bool
  _tStarting : Nat
  _tLoading : Nat
  _tFire : Nat
  deriving DecidableEq

/-- What the simulator takes from outside: the values the next calls of
`random(0,255)` return, and the value of `(int)(ambientTempCalc()*2.0f)` for each
`_ambientBase` and clock value. -/
structure SimEnv where
  randoms : List Nat
  ambientTimes2 : Int → Nat → Int

/-- One call of `random(0,255)`: a value in [0,254]. -/
def SimEnv.random (env : SimEnv) : Nat × SimEnv :=
  (env.randoms.headD 0 % 255, { env with randoms := env.randoms.tail })

/-- The Arduino macro `constrain(amt, low, high)`. -/
def constrain (amt low high : Int) : Int :=
  if amt < low then low else if amt > high then high else amt

/-- The conversion `(float)t` of an `int`: `t` itself while it fits in 24 bits,
else the nearest multiple of the power of two that leaves 24 significant bits,
a tie going to the even significand. -/
def floatOfInt (t : Int) : Int :=
  let a := t.natAbs
  let bits := Nat.log2 a + 1
  if bits ≤ 24 then t
  else
    let sh := bits - 24
    let q := a / 2 ^ sh
    let r := a % 2 ^ sh
    let half := 2 ^ (sh - 1)
    let q := if r > half ∨ (r = half ∧ q % 2 = 1) then q + 1 else q
    if t < 0 then - ((q * 2 ^ sh : Nat) : Int) else ((q * 2 ^ sh : Nat) : Int)

namespace SimStoveComm

/-- The constructor `SimStoveComm::SimStoveComm()`. -/
def ctor : SimStoveComm :=
  { _lastStateChangeMs := 0
    _startMs := 0
    _state := SIM_OFF
    _power := 1
    _ambientBase := 20
    _inShutdown := false
    _failureMode := false
    _tStarting := 10000
    _tLoading := 10000
    _tFire := 15000 }

/-- Method `SimStoveComm::advance()` at clock value `now`. -/
def advance (s : SimStoveComm) (now : Nat) : SimStoveComm :=
  let elapsed := sub32 now s._startMs
  if s._state = SIM_STARTING ∧ elapsed ≥ s._tStarting then
    { s with _state := SIM_LOADING, _lastStateChangeMs := now }
  else if s._state = SIM_LOADING ∧ elapsed ≥ add32 s._tStarting s._tLoading then
    { s with _state := SIM_FIRE, _lastStateChangeMs := now }
  else if s._state = SIM_FIRE
      ∧ elapsed ≥ add32 (add32 s._tStarting s._tLoading) s._tFire then
    { s with _state := SIM_WORKING, _lastStateChangeMs := now }
  else s

/-- Method `SimStoveComm::simulateLoop()` at clock value `now`. -/
def simulateLoop (s : SimStoveComm) (now : Nat) : SimStoveComm :=
  if s._failureMode then { s with _state := SIM_UNDEFINED }
  else if s._state = SIM_OFF ∨ s._state = SIM_UNDEFINED then s
  else if s._state = SIM_CLEANING then
    if sub32 now s._lastStateChangeMs ≥ 10000 then
      { s with _state := SIM_OFF, _inShutdown := false, _lastStateChangeMs := now }
    else s
  else advance s now

/-- Method `SimStoveComm::readRAM(address, buffer)` at clock value `now`: the bytes
stored in the buffer (their number is the returned `int`) and the environment
after the draws. -/
def readRAM (s : SimStoveComm) (address now : Nat) (env : SimEnv) : List Nat × SimEnv :=
  if s._failureMode then ([0xFF, 0xFF], env)
  else if address = RAM_ADDR_STATE then
    if s._state = SIM_OFF then ([STOVE_STATE_OFF_BYTE], env)
    else
      let r := env.random
      ([r.1 % 256, s._state.toByte], r.2)
  else if address = RAM_ADDR_AMBIENT_TEMP then
    ([(constrain (env.ambientTimes2 s._ambientBase now) 0 255).toNat % 256], env)
  else if address = RAM_ADDR_POWER_FEEDBACK then
    let r := env.random
    ([r.1 % 256, s._power], r.2)
  else ([0x11, 0x22], env)

/-- Method `SimStoveComm::readEEPROM(address, buffer)`: the bytes stored in the
buffer. -/
def readEEPROM (_s : SimStoveComm) (address : Nat) : List Nat :=
  [address, 0xEE]

/-- Method `SimStoveComm::writeRAM(address, data)` at clock value `now`. -/
def writeRAM (s : SimStoveComm) (address data now : Nat) : SimStoveComm :=
  if s._failureMode then s
  else if address = RAM_ADDR_STATE ∧ data = 0x01 then
    if s._state = SIM_OFF then
      { s with _state := SIM_STARTING, _startMs := now, _lastStateChangeMs := now }
    else s
  else if address = RAM_ADDR_COMMAND then
    if data = COMMAND_POWER_PLUS ∧ s._power < 5 then
      { s with _power := (s._power + 1) % 256 }
    else if data = COMMAND_POWER_MINUS ∧ s._power > 1 then
      { s with _power := (s._power - 1) % 256 }
    else if data = COMMAND_SHUTDOWN_STEP then
      if !s._inShutdown then
        { s with _inShutdown := true, _state := SIM_CLEANING, _lastStateChangeMs := now }
      else s
    else s
  else s

/-- Method `SimStoveComm::writeEEPROM(address, data)`: no effect. -/
def writeEEPROM (s : SimStoveComm) (_address _data : Nat) : SimStoveComm := s

/-- Method `SimStoveComm::forceState(st)` at clock value `now`. -/
def forceState (s : SimStoveComm) (st now : Nat) : SimStoveComm :=
  let s1 : SimStoveComm :=
    match st with
    | 0 => { s with _state := SIM_OFF }
    | 1 => { s with _state := SIM_STARTING, _startMs := now }
    | 2 => { s with _state := SIM_LOADING }
    | 3 => { s with _state := SIM_FIRE }
    | 4 => { s with _state := SIM_WORKING }
    | 6 => { s with _state := SIM_CLEANING }
    | _ => { s with _state := SIM_UNDEFINED }
  { s1 with _lastStateChangeMs := now }

/-- Method `SimStoveComm::forcePower(p)`. -/
def forcePower (s : SimStoveComm) (p : Nat) : SimStoveComm :=
  let p := if p < 1 then 1 else p
  let p := if p > 5 then 5 else p
  { s with _power := p }

/-- Method `SimStoveComm::forceTempBase(t)`. -/
def forceTempBase (s : SimStoveComm) (t : Int) : SimStoveComm :=
  { s with _ambientBase := floatOfInt t }

/-- Method `SimStoveComm::enableFailureMode(en)`. -/
def enableFailureMode (s : SimStoveComm) (en : Bool) : SimStoveComm :=
  { s with _failureMode := en }

end SimStoveComm

/-- The simulator together with its environment, as the device of a `World`. -/
structure SimDev where
  sim : SimStoveComm
  env : SimEnv

/-- The `IStoveComm` of the simulated device. -/
def simComm : IStoveComm SimDev where
  readRAM := fun address now d =>
    ((SimStoveComm.readRAM d.sim address now d.env).1,
      { d with env := (SimStoveComm.readRAM d.sim address now d.env).2 })
  writeRAM := fun address data now d =>
    { d with sim := SimStoveComm.writeRAM d.sim address data now }

/-- An environment whose draws are all 0 and whose ambient reading is 40 (20 °C). -/
def quietEnv : SimEnv :=
  { randoms := [], ambientTimes2 := fun _ _ => 40 }

/-- Simulator states reachable from construction by its public methods, at any
clock values and with any arguments. The two reads change no field. -/
inductive SimReachable : SimStoveComm → Prop
  | ctor : SimReachable SimStoveComm.ctor
  | simulateLoop (s : SimStoveComm) (now : Nat) :
      SimReachable s → SimReachable (SimStoveComm.simulateLoop s now)
  | writeRAM (s : SimStoveComm) (address data now : Nat) :
      SimReachable s → SimReachable (SimStoveComm.writeRAM s address data now)
  | writeEEPROM (s : SimStoveComm) (address data : Nat) :
      SimReachable s → SimReachable (SimStoveComm.writeEEPROM s address data)
  | forceState (s : SimStoveComm) (st now : Nat) :
      SimReachable s → SimReachable (SimStoveComm.forceState s st now)
  | forcePower (s : SimStoveComm) (p : Nat) :
      SimReachable s → SimReachable (SimStoveComm.forcePower s p)
  | forceTempBase (s : SimStoveComm) (t : Int) :
      SimReachable s → SimReachable (SimStoveComm.forceTempBase s t)
  | enableFailureMode (s : SimStoveComm) (en : Bool) :
      SimReachable s → SimReachable (SimStoveComm.enableFailureMode s en)

/-! ## AppGlobals.h, UIGating.h, BlynkHandlers.cpp, StatusPublisher.cpp

The dashboard callbacks and the status tick act on the globals `uiGate`,
`uiForceSwitchOn` and `gCommandQueue`. The queue is the list of the commands
waiting in it (`none` for a null handle); `xQueueSend` with `portMAX_DELAY`
appends. Calls on `gBlynk` and `publishIfChanged` write to the dashboard and to
the publisher's own snapshot, not to these globals, and are left out. -/

def STOVE_START_CONFIRM_TIMEOUT_MS : Nat := 15000
def STOVE_SHUTDOWN_CONFIRM_TIMEOUT_MS : Nat := 20000
def UI_REENABLE_FAILSAFE_MS : Nat := 30000
def POWER_ADJUST_TIMEOUT_MS : Nat := 8000

/-- The enumeration `Command::Type`. -/
inductive CommandType
  | START
  | SHUTDOWN
  | SET_POWER
  | SET_TIMER
  | SCHED_APPLY
  deriving DecidableEq, Repr

/-- The struct `Command`. -/
structure Command where
  type : CommandType
  power : Nat
  minutes : Nat
  schedIndex : Nat
  schedActive : Bool
  schedDay : Nat
  schedHour : Nat
  schedMinute : Nat
  schedPower : Nat
  deriving DecidableEq, Repr

/-- The struct `UIGating`. -/
structure UIGating where
  onOffLocked : Bool
  onOffLockStart : Nat
  reqOnOffDisable : Bool
  powerLocked : Bool
  powerLockStart : Nat
  reqPowerDisable : Bool
  timerLocked : Bool
  timerLockStart : Nat
  reqTimerDisable : Bool
  schedLocked : Bool
  schedLockStart : Nat
  reqSchedDisable : Bool
  deriving DecidableEq, Repr

/-- The globals `uiGate` and `uiForceSwitchOn`. -/
structure UiGlobals where
  uiGate : UIGating
  uiForceSwitchOn : Bool
  deriving DecidableEq, Repr

/-- Function `initUIGating()`. -/
def initUIGating : UiGlobals :=
  { uiGate :=
      { onOffLocked := false, onOffLockStart := 0, reqOnOffDisable := false
        powerLocked := false, powerLockStart := 0, reqPowerDisable := false
        timerLocked := false, timerLockStart := 0, reqTimerDisable := false
        schedLocked := false, schedLockStart := 0, reqSchedDisable := false }
    uiForceSwitchOn := false }

/-- The on/off callback installed by `setupBlynkCallbacks()`, run at clock value
`now`. -/
def onOffCallback (u : UiGlobals) (gCommandQueue : Option (List Command)) (now : Nat)
    (turnOn : Bool) : UiGlobals × Option (List Command) :=
  let g := { u.uiGate with onOffLocked := true, onOffLockStart := now, reqOnOffDisable := true }
  let q :=
    match gCommandQueue with
    | some q =>
      some (q ++ [{ type := if turnOn then CommandType.START else CommandType.SHUTDOWN
                    power := 0, minutes := 0, schedIndex := 0, schedActive := false
                    schedDay := 0, schedHour := 0, schedMinute := 0, schedPower := 0 }])
    | none => none
  ({ u with uiGate := g }, q)

/-- The fields of `Terminal` that `isUserTyping()` reads. -/
structure Terminal where
  _quietMode : Bool
  _line : String
  _lastKeypressMs : Nat

/-- Method `Terminal::isUserTyping()` at clock value `now`. -/
def Terminal.isUserTyping (t : Terminal) (now : Nat) : Bool :=
  if t._quietMode then true
  else if t._line.length = 0 then false
  else decide (sub32 now t._lastKeypressMs < 2500)

/-- The four `req...Disable` tests of `pushStatus()`. -/
def tickRequests (g : UIGating) : UIGating :=
  let g := if g.reqOnOffDisable then { g with reqOnOffDisable := false } else g
  let g := if g.reqPowerDisable then { g with reqPowerDisable := false } else g
  let g := if g.reqTimerDisable then { g with reqTimerDisable := false } else g
  if g.reqSchedDisable then { g with reqSchedDisable := false } else g

/-- The block `if (uiGate.onOffLocked) { ... }` of `pushStatus()`. -/
def tickOnOff (c : StoveController) (s : StoveStatus) (now : Nat) (g : UIGating) :
    UIGating :=
  if g.onOffLocked then
    let stoveOn := isOn c
    let g1 :=
      if stoveOn then
        if s.canShutdown = true
            ∨ sub32 now g.onOffLockStart > STOVE_START_CONFIRM_TIMEOUT_MS then
          { g with onOffLocked := false }
        else g
      else
        if s.state = STOVE_OFF
            ∨ sub32 now g.onOffLockStart > STOVE_SHUTDOWN_CONFIRM_TIMEOUT_MS then
          { g with onOffLocked := false }
        else g
    if g1.onOffLocked = true ∧ sub32 now g1.onOffLockStart > UI_REENABLE_FAILSAFE_MS then
      { g1 with onOffLocked := false }
    else g1
  else g

/-- The block `if (uiGate.powerLocked) { ... }` of `pushStatus()`. -/
def tickPower (c : StoveController) (now : Nat) (g : UIGating) : UIGating :=
  if g.powerLocked then
    let g1 :=
      if !isPowerAdjustInProgress c then { g with powerLocked := false }
      else if sub32 now g.powerLockStart > POWER_ADJUST_TIMEOUT_MS then
        { g with powerLocked := false }
      else g
    if g1.powerLocked = true ∧ sub32 now g1.powerLockStart > UI_REENABLE_FAILSAFE_MS then
      { g1 with powerLocked := false }
    else g1
  else g

/-- The block `if (uiGate.timerLocked) { ... }` of `pushStatus()`. -/
def tickTimer (now : Nat) (g : UIGating) : UIGating :=
  if g.timerLocked then
    let g1 := if sub32 now g.timerLockStart > 1500 then { g with timerLocked := false } else g
    if g1.timerLocked = true ∧ sub32 now g1.timerLockStart > UI_REENABLE_FAILSAFE_MS then
      { g1 with timerLocked := false }
    else g1
  else g

/-- The block `if (uiGate.schedLocked) { ... }` of `pushStatus()`. -/
def tickSched (now : Nat) (g : UIGating) : UIGating :=
  if g.schedLocked then
    let g1 := if sub32 now g.schedLockStart > 1000 then { g with schedLocked := false } else g
    if g1.schedLocked = true ∧ sub32 now g1.schedLockStart > UI_REENABLE_FAILSAFE_MS then
      { g1 with schedLocked := false }
    else g1
  else g

/-- Method `StatusPublisher::pushStatus()` at clock value `now`, as it acts on
`uiGate` and `uiForceSwitchOn`. -/
def pushStatus (term : Terminal) (c : StoveController) (now : Nat) (u : UiGlobals) :
    UiGlobals :=
  if term.isUserTyping now then u
  else
    let s := getStatusSnapshot c now
    let g := tickRequests u.uiGate
    let g := tickOnOff c s now g
    let g := tickPower c now g
    let g := tickTimer now g
    let g := tickSched now g
    { uiGate := g, uiForceSwitchOn := if u.uiForceSwitchOn then false else u.uiForceSwitchOn }

/-- A terminal with an empty input line and quiet mode off. -/
def idleTerminal : Terminal := { _quietMode := false, _line := "", _lastKeypressMs := 0 }

/-- A terminal in quiet mode. -/
def quietTerminal : Terminal := { _quietMode := true, _line := "", _lastKeypressMs := 0 }

/-! ## Terminal.cpp: the console commands

The handlers act on the globals the terminal was given in `begin`: the
controller, the device behind it, the scheduler; and the command queue is the
global `gCommandQueue`. Text is a list of characters; `isSpaceChar`, `trim`,
`toLowerChar`, `toInt` and `startsWith` stand for `isspace`, `String::trim`,
`String::toLowerCase`, `String::toInt` (within the range of `long`) and
`String::startsWith`. Output on the serial port is left out. -/

/-- The C function `isspace` on ASCII. -/
def isSpaceChar (c : Char) : Bool :=
  decide (c.toNat = 32) || (decide (9 ≤ c.toNat) && decide (c.toNat ≤ 13))

/-- Method `String::trim()`. -/
def trim (cs : List Char) : List Char :=
  ((cs.dropWhile isSpaceChar).reverse.dropWhile isSpaceChar).reverse

/-- Method `String::toInt()`: leading blanks, an optional sign, then digits. -/
def toInt (cs : List Char) : Int :=
  match cs.dropWhile isSpaceChar with
  | '-' :: ds => - (digitsValue (ds.takeWhile isDigitChar) : Int)
  | '+' :: ds => (digitsValue (ds.takeWhile isDigitChar) : Int)
  | ds => (digitsValue (ds.takeWhile isDigitChar) : Int)

/-- The text before the first space (all of it when there is none):
`(sp<0) ? s : s.substring(0,sp)` with `sp = s.indexOf(' ')`. -/
def beforeSpace (cs : List Char) : List Char := cs.takeWhile (fun c => c ≠ ' ')

/-- The text after the first space: `s.substring(sp+1)`. -/
def afterSpace (cs : List Char) : List Char := (cs.dropWhile (fun c => c ≠ ' ')).drop 1

namespace Terminal

/-- The loop of `Terminal::parseSixInts`: `out` holds the values stored so far.
Every turn shortens `tmp`, so `tmp.length + 1` turns are enough. -/
def parseSixIntsLoop : Nat → List Char → List Int → List Int
  | 0, _, out => out
  | fuel + 1, tmp, out =>
    if tmp.length ≠ 0 ∧ out.length < 6 then
      let tok := trim (beforeSpace tmp)
      let out := if tok.length ≠ 0 then out ++ [toInt tok] else out
      if ¬ ' ' ∈ tmp then out
      else parseSixIntsLoop fuel (trim (afterSpace tmp)) out
    else out

end Terminal

theorem pulseTrain_writes (address data ms : Nat) (n : Nat) (w : World TraceDev) :
    (pulseTrain traceComm address data ms n w).dev.writes
      = w.dev.writes ++ List.replicate n (address, data) := by
  induction n generalizing w with
  | zero => simp [pulseTrain]
  | succ n ih =>
    rw [pulseTrain, ih]
    simp [vTaskDelay, traceComm, List.replicate_succ]

theorem pulseTrain_pending (address data ms : Nat) (n : Nat) (w : World TraceDev) :
    (pulseTrain traceComm address data ms n w).dev.pending = w.dev.pending := by
  induction n generalizing w with
  | zero => simp [pulseTrain]
  | succ n ih =>
    rw [pulseTrain, ih]
    simp [vTaskDelay, traceComm]

theorem snapshot_canShutdown_iff (c : StoveController) (now : Nat) :
    (getStatusSnapshot c now).canShutdown = true
      ↔ (c._isOn = true ∧ SAFETY_MIN_ON_TIME_MS ≤ sub32 now c._onStartMillis) := by
  unfold getStatusSnapshot internalUpdateShutdown
  cases h : c._isOn <;> simp [ENFORCE_MIN_ON_TIME]
  split <;> simp_all

theorem snapshot_remaining (c : StoveController) (now : Nat) :
    (getStatusSnapshot c now).msRemainingToAllowShutdown
      = if c._isOn = true ∧ sub32 now c._onStartMillis < 600000
        then 600000 - sub32 now c._onStartMillis else 0 := by
  unfold getStatusSnapshot internalUpdateShutdown
  cases h : c._isOn
  · simp
  · simp only [ENFORCE_MIN_ON_TIME, SAFETY_MIN_ON_TIME_MS]
    by_cases hge : 600000 ≤ sub32 now c._onStartMillis
    · simp [hge]
    · have hlt : sub32 now c._onStartMillis < 600000 := by omega
      simp [hge, hlt]

theorem requestShutdown_allowed {δ : Type} (comm : IStoveComm δ) (c : StoveController)
    (w : World δ) (h : (getStatusSnapshot c w.now).canShutdown = true) :
    requestShutdown comm c w
      = (true, { c with _shutdownInProgress := false },
          pulseTrain comm RAM_ADDR_COMMAND COMMAND_SHUTDOWN_STEP MS_FOR_POWER_OFF
            REPEAT_TIMES_FOR_POWER_OFF w) := by
  simp [requestShutdown, millis, h]

theorem requestShutdown_denied {δ : Type} (comm : IStoveComm δ) (c : StoveController)
    (w : World δ) (h : (getStatusSnapshot c w.now).canShutdown = false) :
    (requestShutdown comm c w).1 = false ∧ (requestShutdown comm c w).2.2 = w := by
  simp only [requestShutdown, millis, h]
  by_cases hr : (getStatusSnapshot c w.now).msRemainingToAllowShutdown > 0 <;> simp [hr]

theorem syncPhysicalPower_reported (c : StoveController) (w : World TraceDev)
    (b0 p : Nat) (bs : List Nat) (rest : List (List Nat)) (hcomm : c._comm = true)
    (hpend : w.dev.pending = (b0 :: p :: bs) :: rest) (hp1 : 1 ≤ p) (hp5 : p ≤ 5) :
    syncPhysicalPower traceComm c w
      = ({ c with _physicalPower := p },
         { w with dev := { pending := rest, writes := w.dev.writes } }) := by
  have h1 : ¬ p < 1 := by omega
  have h5 : ¬ 5 < p := by omega
  simp [syncPhysicalPower, hcomm, traceComm, hpend, bufOf, h1, h5]

theorem syncPhysicalPower_writes (c : StoveController) (w : World TraceDev) :
    (syncPhysicalPower traceComm c w).2.dev.writes = w.dev.writes := by
  unfold syncPhysicalPower
  cases c._comm
  · simp
  · simp only [if_true, traceComm]
    cases w.dev.pending with
    | nil => simp
    | cons r rs => by_cases hr : 2 ≤ r.length <;> simp [hr]

theorem syncPhysicalPower_eq {δ : Type} (comm : IStoveComm δ) (c : StoveController)
    (w : World δ) :
    (syncPhysicalPower comm c w).1
      = { c with _physicalPower := (syncPhysicalPower comm c w).1._physicalPower } := by
  unfold syncPhysicalPower
  split
  · dsimp only
    split <;> rfl
  · rfl

theorem evaluateAutoShutdown_disabled {δ : Type} (comm : IStoveComm δ) (c : StoveController)
    (w : World δ) (h : c._autoShutdownEnabled = false) :
    evaluateAutoShutdown comm c w = (c, w) := by
  simp [evaluateAutoShutdown, h]

/-- The part of `poll()` after the early returns. -/
theorem poll_run {δ : Type} (comm : IStoveComm δ) (c : StoveController) (w : World δ)
    (hcomm : c._comm = true) (hs : c._shutdownInProgress = false)
    (ha : c._powerAdjustInProgress = false) :
    poll comm c w
      = evaluateAutoShutdown comm
          (updateAmbientTemp comm
            (syncPhysicalPower comm
              (pollUpdateState c
                (decodeState (bufOf (comm.readRAM RAM_ADDR_STATE w.now w.dev).1)
                  (comm.readRAM RAM_ADDR_STATE w.now w.dev).1.length) w.now)
              { w with dev := (comm.readRAM RAM_ADDR_STATE w.now w.dev).2 }).1
            (syncPhysicalPower comm
              (pollUpdateState c
                (decodeState (bufOf (comm.readRAM RAM_ADDR_STATE w.now w.dev).1)
                  (comm.readRAM RAM_ADDR_STATE w.now w.dev).1.length) w.now)
              { w with dev := (comm.readRAM RAM_ADDR_STATE w.now w.dev).2 }).2).1
          (updateAmbientTemp comm
            (syncPhysicalPower comm
              (pollUpdateState c
                (decodeState (bufOf (comm.readRAM RAM_ADDR_STATE w.now w.dev).1)
                  (comm.readRAM RAM_ADDR_STATE w.now w.dev).1.length) w.now)
              { w with dev := (comm.readRAM RAM_ADDR_STATE w.now w.dev).2 }).1
            (syncPhysicalPower comm
              (pollUpdateState c
                (decodeState (bufOf (comm.readRAM RAM_ADDR_STATE w.now w.dev).1)
                  (comm.readRAM RAM_ADDR_STATE w.now w.dev).1.length) w.now)
              { w with dev := (comm.readRAM RAM_ADDR_STATE w.now w.dev).2 }).2).2 := by
  simp [poll, hcomm, hs, ha, millis]

theorem scheduleEarliestSafeShutdown_frame (c : StoveController) (now remainingMs : Nat) :
    (scheduleEarliestSafeShutdown c now remainingMs).2._comm = c._comm
      ∧ (scheduleEarliestSafeShutdown c now remainingMs).2._isOn = c._isOn
      ∧ (scheduleEarliestSafeShutdown c now remainingMs).2._currentState = c._currentState
      ∧ (scheduleEarliestSafeShutdown c now remainingMs).2._onStartMillis = c._onStartMillis
      ∧ (scheduleEarliestSafeShutdown c now remainingMs).2._powerAdjustInProgress
          = c._powerAdjustInProgress
      ∧ (scheduleEarliestSafeShutdown c now remainingMs).2._shutdownInProgress
          = c._shutdownInProgress
      ∧ (scheduleEarliestSafeShutdown c now remainingMs).2._physicalPower = c._physicalPower
      ∧ (scheduleEarliestSafeShutdown c now remainingMs).2._ambientTemp = c._ambientTemp := by
  simp only [scheduleEarliestSafeShutdown]
  split_ifs <;> simp

theorem requestShutdown_frame {δ : Type} (comm : IStoveComm δ) (c : StoveController)
    (w : World δ) :
    (requestShutdown comm c w).2.1._comm = c._comm
      ∧ (requestShutdown comm c w).2.1._isOn = c._isOn
      ∧ (requestShutdown comm c w).2.1._currentState = c._currentState
      ∧ (requestShutdown comm c w).2.1._onStartMillis = c._onStartMillis
      ∧ (requestShutdown comm c w).2.1._powerAdjustInProgress = c._powerAdjustInProgress
      ∧ (c._shutdownInProgress = false →
          (requestShutdown comm c w).2.1._shutdownInProgress = false)
      ∧ (requestShutdown comm c w).2.1._physicalPower = c._physicalPower
      ∧ (requestShutdown comm c w).2.1._ambientTemp = c._ambientTemp := by
  cases hcan : (getStatusSnapshot c w.now).canShutdown
  · simp only [requestShutdown, millis, hcan]
    have hf := scheduleEarliestSafeShutdown_frame c w.now
      (getStatusSnapshot c w.now).msRemainingToAllowShutdown
    obtain ⟨h1, h2, h3, h4, h5, h6, h7, h8⟩ := hf
    by_cases hr : (getStatusSnapshot c w.now).msRemainingToAllowShutdown > 0
    · simp [hr, h1, h2, h3, h4, h5, h6, h7, h8]
    · simp [hr]
  · rw [requestShutdown_allowed comm c w hcan]
    simp

theorem evaluateAutoShutdown_frame {δ : Type} (comm : IStoveComm δ) (c : StoveController)
    (w : World δ) :
    (evaluateAutoShutdown comm c w).1._comm = c._comm
      ∧ (evaluateAutoShutdown comm c w).1._isOn = c._isOn
      ∧ (evaluateAutoShutdown comm c w).1._currentState = c._currentState
      ∧ (evaluateAutoShutdown comm c w).1._onStartMillis = c._onStartMillis
      ∧ (evaluateAutoShutdown comm c w).1._powerAdjustInProgress = c._powerAdjustInProgress
      ∧ (c._shutdownInProgress = false →
          (evaluateAutoShutdown comm c w).1._shutdownInProgress = false)
      ∧ (evaluateAutoShutdown comm c w).1._physicalPower = c._physicalPower
      ∧ (evaluateAutoShutdown comm c w).1._ambientTemp = c._ambientTemp := by
  unfold evaluateAutoShutdown
  split_ifs
  · simp
  · simpa using requestShutdown_frame comm c w
  · simp

theorem pollUpdateState_frame (c : StoveController) (s : StoveRunState) (now : Nat) :
    (pollUpdateState c s now)._comm = c._comm
      ∧ (pollUpdateState c s now)._powerAdjustInProgress = c._powerAdjustInProgress
      ∧ (c._shutdownInProgress = false → (pollUpdateState c s now)._shutdownInProgress = false)
      ∧ (pollUpdateState c s now)._physicalPower = c._physicalPower
      ∧ (pollUpdateState c s now)._ambientTemp = c._ambientTemp
      ∧ ((c._currentState = STOVE_OFF → c._isOn = false) →
          (pollUpdateState c s now)._currentState = STOVE_OFF →
            (pollUpdateState c s now)._isOn = false) := by
  simp only [pollUpdateState]
  split_ifs <;> simp_all

theorem applyTargetPower_frame {δ : Type} (comm : IStoveComm δ) (c : StoveController)
    (w : World δ) (target : Nat) :
    (applyTargetPower comm c w target).1._comm = c._comm
      ∧ (applyTargetPower comm c w target).1._isOn = c._isOn
      ∧ (applyTargetPower comm c w target).1._currentState = c._currentState
      ∧ (applyTargetPower comm c w target).1._onStartMillis = c._onStartMillis
      ∧ (applyTargetPower comm c w target).1._shutdownInProgress = c._shutdownInProgress
      ∧ (c._powerAdjustInProgress = false →
          (applyTargetPower comm c w target).1._powerAdjustInProgress = false) := by
  unfold applyTargetPower
  cases hs : c._shutdownInProgress
  swap
  · simp [hs]
  cases ha : c._powerAdjustInProgress
  swap
  · simp [hs]
  simp only [Bool.false_eq_true, if_false]
  have e1 := syncPhysicalPower_eq comm c w
  generalize syncPhysicalPower comm c w = s1 at *
  have f1 : s1.1._comm = c._comm := by rw [e1]
  have f2 : s1.1._isOn = c._isOn := by rw [e1]
  have f3 : s1.1._currentState = c._currentState := by rw [e1]
  have f4 : s1.1._onStartMillis = c._onStartMillis := by rw [e1]
  have f5 : s1.1._shutdownInProgress = false := by rw [e1]; exact hs
  have f6 : s1.1._powerAdjustInProgress = false := by rw [e1]; exact ha
  by_cases ht : target = s1.1._physicalPower
  · simp only [ht, if_true]
    exact ⟨f1, f2, f3, f4, f5, fun _ => f6⟩
  · simp only [ht, if_false]
    cases hc : s1.1._comm
    · simp only [Bool.false_eq_true, if_false]
      exact ⟨hc.symm ▸ f1, f2, f3, f4, f5, fun _ => trivial⟩
    · simp only [if_true]
      generalize vTaskDelay 4000 _ = w2
      rw [syncPhysicalPower_eq]
      exact ⟨hc.symm ▸ f1, f2, f3, f4, f5, fun _ => trivial⟩

/-- In every reachable state the device pointer is set, no sequence is in
progress, and a controller whose run-state is Off is not on. -/
theorem reachable_inv {δ : Type} (comm : IStoveComm δ) (c : StoveController)
    (h : Reachable comm c) :
    c._comm = true ∧ c._powerAdjustInProgress = false ∧ c._shutdownInProgress = false
      ∧ (c._currentState = STOVE_OFF → c._isOn = false) := by
  induction h with
  | init => simp [begin, ctor]
  | poll c w _ ih =>
    obtain ⟨h1, h2, h3, h4⟩ := ih
    rw [poll_run comm c w h1 h3 h2]
    generalize decodeState _ _ = s
    obtain ⟨p1, p2, p3, _, _, p6⟩ := pollUpdateState_frame c s w.now
    generalize pollUpdateState c s w.now = c1 at *
    generalize ({ w with dev := (comm.readRAM RAM_ADDR_STATE w.now w.dev).2 } : World δ) = w1
    have hs := syncPhysicalPower_eq comm c1 w1
    generalize syncPhysicalPower comm c1 w1 = s2 at *
    obtain ⟨e1, e2, e3, _, e5, e6, _, _⟩ := evaluateAutoShutdown_frame comm
      (updateAmbientTemp comm s2.1 s2.2).1 (updateAmbientTemp comm s2.1 s2.2).2
    rw [e1, e2, e3, e5]
    simp only [updateAmbientTemp] at e6 ⊢
    rw [hs] at e6 ⊢
    simp only [] at e6 ⊢
    exact ⟨p1.trans h1, p2.trans h2, e6 (p3 h3), p6 h4⟩
  | requestShutdown c w _ ih =>
    obtain ⟨h1, h2, h3, h4⟩ := ih
    obtain ⟨e1, e2, e3, _, e5, e6, _, _⟩ := requestShutdown_frame comm c w
    rw [e1, e2, e3, e5]
    exact ⟨h1, h2, e6 h3, h4⟩
  | setPowerLevel c w level _ ih =>
    obtain ⟨h1, h2, h3, h4⟩ := ih
    unfold setPowerLevel
    dsimp only
    generalize (if (if level < 1 then 1 else level) > 5 then 5
      else if level < 1 then 1 else level) = t
    obtain ⟨e1, e2, e3, _, e5, e6⟩ := applyTargetPower_frame comm c w t
    rw [e1, e2, e3, e5]
    exact ⟨h1, e6 h2, h3, h4⟩
  | setAutoShutdown c now minutes _ ih =>
    obtain ⟨h1, h2, h3, h4⟩ := ih
    unfold setAutoShutdown
    split_ifs <;> simp_all
  | disableAutoShutdown c _ ih =>
    simpa [disableAutoShutdown] using ih

/-- The example state `workingAt0` is reachable, on since clock value 0, in
`STOVE_WORKING`, at physical power 1, with no timer armed. -/
theorem workingAt0_fields :
    Reachable traceComm workingAt0
      ∧ workingAt0._isOn = true
      ∧ workingAt0._currentState = STOVE_WORKING
      ∧ workingAt0._onStartMillis = 0
      ∧ workingAt0._physicalPower = 1
      ∧ workingAt0._autoShutdownEnabled = false :=
  ⟨Reachable.poll _ _ Reachable.init, by decide, by decide, by decide, by decide, by decide⟩

/-! ## Claims -/

/-- C1: after `begin()`, `requestShutdown()` returns true exactly when the
device is on and its on-time is at least `SAFETY_MIN_ON_TIME_MS`; when it
returns true the device receives exactly `REPEAT_TIMES_FOR_POWER_OFF` writes of
`COMMAND_SHUTDOWN_STEP` to `RAM_ADDR_COMMAND` and nothing else, and when it
returns false the device receives no write. -/
theorem requestShutdown_contract (c : StoveController) (w : World TraceDev)
    (_hcomm : c._comm = true) :
    ((requestShutdown traceComm c w).1 = true
        ↔ (isOn c = true ∧ 600000 ≤ sub32 w.now c._onStartMillis))
      ∧ ((requestShutdown traceComm c w).1 = true →
          (requestShutdown traceComm c w).2.2.dev.writes
            = w.dev.writes ++ List.replicate 22 (0x58, 0x5A))
      ∧ ((requestShutdown traceComm c w).1 = false →
          (requestShutdown traceComm c w).2.2.dev.writes = w.dev.writes) := by
  have hsnap := snapshot_canShutdown_iff c w.now
  simp only [SAFETY_MIN_ON_TIME_MS, Nat.reduceMul] at hsnap
  cases hcan : (getStatusSnapshot c w.now).canShutdown
  · obtain ⟨h1, h2⟩ := requestShutdown_denied traceComm c w hcan
    rw [hcan] at hsnap
    simp only [isOn, h1, h2]
    simpa using hsnap
  · rw [requestShutdown_allowed traceComm c w hcan]
    rw [hcan] at hsnap
    simp only [isOn, pulseTrain_writes, RAM_ADDR_COMMAND, COMMAND_SHUTDOWN_STEP,
      REPEAT_TIMES_FOR_POWER_OFF]
    simpa using hsnap

theorem requestShutdown_contract_witness :
    workingAt0._comm = true
      ∧ ((requestShutdown traceComm workingAt0 ⟨599000, ⟨[], []⟩⟩).1 = false →
          (requestShutdown traceComm workingAt0 ⟨599000, ⟨[], []⟩⟩).2.2.dev.writes = []) :=
  ⟨by decide, (requestShutdown_contract workingAt0 ⟨599000, ⟨[], []⟩⟩ (by decide)).2.2⟩

/-- C2: the snapshot has `canShutdown` exactly when `msSinceOn` is at least
`SAFETY_MIN_ON_TIME_MS`, and `msRemainingToAllowShutdown` is
`SAFETY_MIN_ON_TIME_MS - msSinceOn` when the device is on and below the minimum
and 0 otherwise. -/
theorem getStatusSnapshot_shutdown_fields (c : StoveController) (now : Nat) :
    ((getStatusSnapshot c now).canShutdown = true
        ↔ 600000 ≤ (getStatusSnapshot c now).msSinceOn)
      ∧ (getStatusSnapshot c now).msRemainingToAllowShutdown
          = if isOn c = true ∧ (getStatusSnapshot c now).msSinceOn < 600000
            then 600000 - (getStatusSnapshot c now).msSinceOn else 0 := by
  unfold getStatusSnapshot internalUpdateShutdown isOn
  cases h : c._isOn
  · simp
  · simp only [ENFORCE_MIN_ON_TIME, SAFETY_MIN_ON_TIME_MS]
    by_cases hge : 600000 ≤ sub32 now c._onStartMillis
    · simp [hge]
    · have hlt : sub32 now c._onStartMillis < 600000 := by omega
      simp [hge, hlt]

/-- C3 (the code at the failing input): on a device that has just been switched
on (elapsed on-time 0) at clock value 0, `setAutoShutdown(71583)` computes
`71583 * 60000` modulo 2^32, which is 12704 ms; that is below the safety
window, so the deadline is armed 600000 ms (10 minutes) away, whereas the
clamped duration of the claim is 28800000 ms (480 minutes). -/
theorem setAutoShutdown_large_request_wraps :
    isOn workingAt0 = true
      ∧ sub32 0 workingAt0._onStartMillis = 0
      ∧ mul32 71583 60000 = 12704
      ∧ (setAutoShutdown workingAt0 0 71583).1 = 10
      ∧ sub32 (setAutoShutdown workingAt0 0 71583).2._autoShutdownDeadlineMs 0 = 600000
      ∧ min (max (71583 * 60000) (max 0 (600000 - 0))) 28800000 = 28800000 := by
  decide

/-- Where the product `minutes * 60000` fits in 32 bits, `setAutoShutdown` arms
the deadline at the requested duration clamped upward to the remaining safety
window and downward to `AUTO_SHUTDOWN_MAX_MIN` minutes. -/
theorem setAutoShutdown_deadline_in_range (c : StoveController) (now minutes : Nat)
    (hon : c._isOn = true) (hpos : 0 < minutes) (hnow : now < 4294967296)
    (hfit : minutes * 60000 < 4294967296) :
    (setAutoShutdown c now minutes).2._autoShutdownEnabled = true
      ∧ sub32 (setAutoShutdown c now minutes).2._autoShutdownDeadlineMs now
          = min (max (minutes * 60000) (max 0 (600000 - sub32 now c._onStartMillis)))
              28800000 := by
  have hm : minutes ≠ 0 := by omega
  simp only [setAutoShutdown, hon, hm, SAFETY_MIN_ON_TIME_MS, AUTO_SHUTDOWN_MAX_MIN, mul32,
    add32, Nat.reduceMul, Nat.reduceMod]
  simp only [Bool.not_true, Bool.false_eq_true, if_false, true_and]
  generalize sub32 now c._onStartMillis = e
  simp only [Nat.mod_eq_of_lt hfit]
  unfold sub32
  split_ifs <;> simp only [] <;> omega

/-- C4: when `requestShutdown()` is denied while the device is on (on-time below
the safety minimum, remaining time `r > 0`) at clock value `now`, it returns
false and leaves the auto-shutdown timer enabled; the deadline is the 32-bit sum
`now + r` if no timer was armed and the smaller of the previous deadline and
`now + r` if one was armed, so an armed deadline is never moved later. -/
theorem requestShutdown_denied_schedules {δ : Type} (comm : IStoveComm δ)
    (c : StoveController) (w : World δ) (hon : isOn c = true)
    (hlt : sub32 w.now c._onStartMillis < 600000) :
    (requestShutdown comm c w).1 = false
      ∧ isAutoShutdownEnabled (requestShutdown comm c w).2.1 = true
      ∧ (requestShutdown comm c w).2.1._autoShutdownDeadlineMs
          = (if c._autoShutdownEnabled = true
              then min c._autoShutdownDeadlineMs
                (add32 w.now (600000 - sub32 w.now c._onStartMillis))
              else add32 w.now (600000 - sub32 w.now c._onStartMillis))
      ∧ (c._autoShutdownEnabled = true →
          (requestShutdown comm c w).2.1._autoShutdownDeadlineMs
            ≤ c._autoShutdownDeadlineMs) := by
  simp only [isOn] at hon
  have hcan : (getStatusSnapshot c w.now).canShutdown = false := by
    cases h : (getStatusSnapshot c w.now).canShutdown
    · rfl
    · have := (snapshot_canShutdown_iff c w.now).mp h
      simp only [SAFETY_MIN_ON_TIME_MS] at this
      omega
  have hrem : (getStatusSnapshot c w.now).msRemainingToAllowShutdown
      = 600000 - sub32 w.now c._onStartMillis := by
    simp [snapshot_remaining, hon, hlt]
  have hpos : 0 < 600000 - sub32 w.now c._onStartMillis := by omega
  have hne : 600000 - sub32 w.now c._onStartMillis ≠ 0 := by omega
  simp only [requestShutdown, millis, hcan, hrem, isAutoShutdownEnabled,
    scheduleEarliestSafeShutdown, hon, hne]
  simp only [Bool.not_false, Bool.not_true, Bool.false_eq_true, if_true, if_false, gt_iff_lt,
    hpos, ge_iff_le]
  cases hen : c._autoShutdownEnabled
  · simp
  · by_cases hd : c._autoShutdownDeadlineMs
        ≤ add32 w.now (600000 - sub32 w.now c._onStartMillis)
    · simp [hd, hen]
    · simp [hd]; omega

theorem requestShutdown_denied_schedules_witness :
    isOn workingAt0 = true
      ∧ sub32 599000 workingAt0._onStartMillis < 600000
      ∧ (requestShutdown traceComm workingAt0 ⟨599000, ⟨[], []⟩⟩).1 = false
      ∧ isAutoShutdownEnabled (requestShutdown traceComm workingAt0 ⟨599000, ⟨[], []⟩⟩).2.1
          = true :=
  ⟨by decide, by decide,
    (requestShutdown_denied_schedules traceComm workingAt0 ⟨599000, ⟨[], []⟩⟩
      (by decide) (by decide)).1,
    (requestShutdown_denied_schedules traceComm workingAt0 ⟨599000, ⟨[], []⟩⟩
      (by decide) (by decide)).2.1⟩

/-- The pulses `applyTargetPower(t)` writes once the device has reported the
physical power `p`: none when `t = p`, otherwise `|t - p| + 1` writes to
`RAM_ADDR_COMMAND`, of `COMMAND_POWER_MINUS` when `t > p` and of
`COMMAND_POWER_PLUS` when `t < p`. -/
theorem applyTargetPower_writes (c : StoveController) (w : World TraceDev)
    (t p b0 : Nat) (bs : List Nat) (rest : List (List Nat))
    (hcomm : c._comm = true) (hs : c._shutdownInProgress = false)
    (ha : c._powerAdjustInProgress = false)
    (hpend : w.dev.pending = (b0 :: p :: bs) :: rest)
    (ht1 : 1 ≤ t) (ht5 : t ≤ 5) (hp1 : 1 ≤ p) (hp5 : p ≤ 5) :
    (applyTargetPower traceComm c w t).2.dev.writes
      = w.dev.writes ++
          (if t = p then []
           else if t > p then List.replicate (t - p + 1) (RAM_ADDR_COMMAND, COMMAND_POWER_MINUS)
           else List.replicate (p - t + 1) (RAM_ADDR_COMMAND, COMMAND_POWER_PLUS)) := by
  unfold applyTargetPower
  simp only [hs, ha, Bool.false_eq_true, if_false]
  rw [syncPhysicalPower_reported c w b0 p bs rest hcomm hpend hp1 hp5]
  by_cases htp : t = p
  · simp [htp]
  · simp only [htp, if_false, hcomm, if_true]
    rw [syncPhysicalPower_writes]
    by_cases hgt : t > p
    · have hsteps : (t - p + 1) % 256 = t - p + 1 := by omega
      simp [hgt, vTaskDelay, pulseTrain_writes, hsteps]
    · have hsteps : (p - t + 1) % 256 = p - t + 1 := by omega
      simp [hgt, vTaskDelay, pulseTrain_writes, hsteps]

/-- C5: for a target `t` in [1,5] and a physical power `p` in [1,5] reported by
the device at the start of the call, with no shutdown or power adjustment in
progress, `setPowerLevel(t)` is `applyTargetPower(t)` and the device receives
exactly `|t - p| + 1` writes, all to `RAM_ADDR_COMMAND`, when `t ≠ p`, and no
write when `t = p`. -/
theorem setPowerLevel_pulse_count (c : StoveController) (w : World TraceDev)
    (t p b0 : Nat) (bs : List Nat) (rest : List (List Nat))
    (hcomm : c._comm = true) (hs : c._shutdownInProgress = false)
    (ha : c._powerAdjustInProgress = false)
    (hpend : w.dev.pending = (b0 :: p :: bs) :: rest)
    (ht1 : 1 ≤ t) (ht5 : t ≤ 5) (hp1 : 1 ≤ p) (hp5 : p ≤ 5) :
    setPowerLevel traceComm c w t = applyTargetPower traceComm c w t
      ∧ ∃ issued : List (Nat × Nat),
          (setPowerLevel traceComm c w t).2.dev.writes = w.dev.writes ++ issued
            ∧ (∀ x ∈ issued, x.1 = RAM_ADDR_COMMAND)
            ∧ issued.length = if t = p then 0 else Int.natAbs ((t : Int) - (p : Int)) + 1 := by
  have hset : setPowerLevel traceComm c w t = applyTargetPower traceComm c w t := by
    have h1 : ¬ t < 1 := by omega
    have h5 : ¬ t > 5 := by omega
    simp [setPowerLevel, h1, h5]
  refine ⟨hset, ?_⟩
  rw [hset, applyTargetPower_writes c w t p b0 bs rest hcomm hs ha hpend ht1 ht5 hp1 hp5]
  refine ⟨_, rfl, ?_, ?_⟩
  · intro x hx
    split_ifs at hx
    · simp at hx
    · rw [List.eq_of_mem_replicate hx]
    · rw [List.eq_of_mem_replicate hx]
  · split_ifs with h1 h2
    · rfl
    · simp only [List.length_replicate]; omega
    · simp only [List.length_replicate]; omega

theorem setPowerLevel_pulse_count_witness :
    workingAt0._comm = true
      ∧ (setPowerLevel traceComm workingAt0 ⟨0, ⟨[[0x00, 0x02]], []⟩⟩ 4).2.dev.writes.length
          = 3 := by
  refine ⟨by decide, ?_⟩
  obtain ⟨_, issued, hw, _, hlen⟩ :=
    setPowerLevel_pulse_count workingAt0 ⟨0, ⟨[[0x00, 0x02]], []⟩⟩ 4 2 0 [] [] (by decide)
      (by decide) (by decide) rfl (by decide) (by decide) (by decide) (by decide)
  rw [hw]
  simpa using hlen

/-- C6 (the code at the failing input): with the device reporting physical power
1, `setPowerLevel(5)` writes five pulses to `RAM_ADDR_COMMAND`, each of them
`COMMAND_POWER_MINUS` (0x50), the decrease-power command, and none of them
`COMMAND_POWER_PLUS` (0x54). -/
theorem setPowerLevel_raise_sends_minus :
    (setPowerLevel traceComm workingAt0 ⟨0, ⟨[[0x00, 0x01]], []⟩⟩ 5).2.dev.writes
        = List.replicate 5 (RAM_ADDR_COMMAND, COMMAND_POWER_MINUS)
      ∧ COMMAND_POWER_MINUS = 0x50 ∧ COMMAND_POWER_PLUS = 0x54 := by
  decide

/-- C7: for a controller whose run-state is not Off, with no sequence in
progress, a `poll()` whose state read decodes to Off leaves the controller with
`isOn` false, on-time cleared (`msSinceOn = 0` at every later clock value), the
shutdown-in-progress and power-adjust-in-progress flags both false, and the
auto-shutdown timer disabled with remaining time 0. -/
theorem poll_entering_off {δ : Type} (comm : IStoveComm δ) (c : StoveController)
    (w : World δ) (hcomm : c._comm = true) (hs : c._shutdownInProgress = false)
    (ha : c._powerAdjustInProgress = false) (hne : c._currentState ≠ STOVE_OFF)
    (hdec : decodeState (bufOf (comm.readRAM RAM_ADDR_STATE w.now w.dev).1)
      (comm.readRAM RAM_ADDR_STATE w.now w.dev).1.length = STOVE_OFF) :
    (poll comm c w).1._currentState = STOVE_OFF
      ∧ isOn (poll comm c w).1 = false
      ∧ (∀ t, (getStatusSnapshot (poll comm c w).1 t).msSinceOn = 0)
      ∧ (poll comm c w).1._shutdownInProgress = false
      ∧ isPowerAdjustInProgress (poll comm c w).1 = false
      ∧ isAutoShutdownEnabled (poll comm c w).1 = false
      ∧ (∀ t, getAutoShutdownRemainingMs (poll comm c w).1 t = 0) := by
  rw [poll_run comm c w hcomm hs ha, hdec]
  have hupd : pollUpdateState c STOVE_OFF w.now
      = { c with _currentState := STOVE_OFF
                 _lastStateChangeMillis := w.now
                 _isOn := false
                 _onStartMillis := 0
                 _shutdownInProgress := false
                 _autoShutdownEnabled := false
                 _autoShutdownMinutes := 0
                 _autoShutdownDeadlineMs := 0 } := by
    have hne2 : ¬ STOVE_OFF = c._currentState := fun h => hne h.symm
    simp [pollUpdateState, hne2]
  rw [hupd, evaluateAutoShutdown_disabled]
  · simp only [updateAmbientTemp]
    rw [syncPhysicalPower_eq]
    simp [isOn, isPowerAdjustInProgress, isAutoShutdownEnabled, getAutoShutdownRemainingMs,
      getStatusSnapshot, internalUpdateShutdown, ha]
  · simp only [updateAmbientTemp]
    rw [syncPhysicalPower_eq]

theorem poll_entering_off_witness :
    workingAt0._currentState ≠ STOVE_OFF
      ∧ decodeState (bufOf [0x21]) 1 = STOVE_OFF
      ∧ isOn (poll traceComm workingAt0 ⟨1000, ⟨[[0x21]], []⟩⟩).1 = false
      ∧ isAutoShutdownEnabled (poll traceComm workingAt0 ⟨1000, ⟨[[0x21]], []⟩⟩).1 = false :=
  ⟨by decide, by decide,
    (poll_entering_off traceComm workingAt0 ⟨1000, ⟨[[0x21]], []⟩⟩ (by decide) (by decide)
      (by decide) (by decide) (by decide)).2.1,
    (poll_entering_off traceComm workingAt0 ⟨1000, ⟨[[0x21]], []⟩⟩ (by decide) (by decide)
      (by decide) (by decide) (by decide)).2.2.2.2.2.1⟩

/-- C8 as stated fails for Undefined: from the freshly begun controller
(run-state Off), a `poll()` at clock value 1000 whose state read `[0x00, 0x09]`
decodes to `STOVE_UNDEFINED` changes the run-state to Undefined and leaves
`isOn()` false. -/
theorem poll_off_to_undefined_not_on :
    Reachable traceComm (begin ctor)
      ∧ (begin ctor)._currentState = STOVE_OFF
      ∧ decodeState (bufOf [0x00, 0x09]) 2 = STOVE_UNDEFINED
      ∧ (poll traceComm (begin ctor) ⟨1000, ⟨[[0x00, 0x09]], []⟩⟩).1._currentState
          = STOVE_UNDEFINED
      ∧ isOn (poll traceComm (begin ctor) ⟨1000, ⟨[[0x00, 0x09]], []⟩⟩).1 = false :=
  ⟨Reachable.init, by decide, by decide, by decide, by decide⟩

/-- C8 (amended): for a reachable controller whose run-state is Off, a `poll()`
at clock value `t` whose state read decodes to a run-state other than Off and
Undefined (Starting, LoadingFuel, FirePresent, Working or FinalClean) starts the
on-time clock: afterwards `isOn()` is true, the on-time origin is `t`, and
`msSinceOn` at `t` is 0. -/
theorem poll_leaving_off {δ : Type} (comm : IStoveComm δ) (c : StoveController)
    (w : World δ) (hr : Reachable comm c) (hoff : c._currentState = STOVE_OFF)
    (hs1 : decodeState (bufOf (comm.readRAM RAM_ADDR_STATE w.now w.dev).1)
      (comm.readRAM RAM_ADDR_STATE w.now w.dev).1.length ≠ STOVE_OFF)
    (hs2 : decodeState (bufOf (comm.readRAM RAM_ADDR_STATE w.now w.dev).1)
      (comm.readRAM RAM_ADDR_STATE w.now w.dev).1.length ≠ STOVE_UNDEFINED) :
    (poll comm c w).1._currentState
        = decodeState (bufOf (comm.readRAM RAM_ADDR_STATE w.now w.dev).1)
            (comm.readRAM RAM_ADDR_STATE w.now w.dev).1.length
      ∧ isOn (poll comm c w).1 = true
      ∧ (poll comm c w).1._onStartMillis = w.now
      ∧ (getStatusSnapshot (poll comm c w).1 w.now).msSinceOn = 0 := by
  obtain ⟨hcomm, ha, hs, hoffon⟩ := reachable_inv comm c hr
  have hon : c._isOn = false := hoffon hoff
  rw [poll_run comm c w hcomm hs ha]
  generalize decodeState _ _ = s at hs1 hs2 ⊢
  have hupd : pollUpdateState c s w.now
      = { c with _currentState := s
                 _lastStateChangeMillis := w.now
                 _isOn := true
                 _onStartMillis := w.now } := by
    have hne : s ≠ c._currentState := by rw [hoff]; exact hs1
    simp [pollUpdateState, hne, hs1, hs2, hon]
  rw [hupd]
  generalize ({ w with dev := (comm.readRAM RAM_ADDR_STATE w.now w.dev).2 } : World δ) = w1
  have hsync := syncPhysicalPower_eq comm
    { c with _currentState := s
             _lastStateChangeMillis := w.now
             _isOn := true
             _onStartMillis := w.now } w1
  generalize syncPhysicalPower comm _ w1 = s2 at hsync ⊢
  obtain ⟨_, e2, e3, e4, _⟩ := evaluateAutoShutdown_frame comm
    (updateAmbientTemp comm s2.1 s2.2).1 (updateAmbientTemp comm s2.1 s2.2).2
  have g2 : (updateAmbientTemp comm s2.1 s2.2).1._isOn = true := by
    simp only [updateAmbientTemp]; rw [hsync]
  have g3 : (updateAmbientTemp comm s2.1 s2.2).1._currentState = s := by
    simp only [updateAmbientTemp]; rw [hsync]
  have g4 : (updateAmbientTemp comm s2.1 s2.2).1._onStartMillis = w.now := by
    simp only [updateAmbientTemp]; rw [hsync]
  refine ⟨e3.trans g3, e2.trans g2, e4.trans g4, ?_⟩
  simp only [getStatusSnapshot, internalUpdateShutdown, e2, g2, e4, g4, ENFORCE_MIN_ON_TIME,
    SAFETY_MIN_ON_TIME_MS]
  have h0 : sub32 w.now w.now = 0 := by unfold sub32; omega
  simp [h0]

theorem poll_leaving_off_witness :
    (begin ctor)._currentState = STOVE_OFF
      ∧ isOn (poll traceComm (begin ctor) ⟨1000, ⟨[[0x00, 0x01]], []⟩⟩).1 = true
      ∧ (poll traceComm (begin ctor) ⟨1000, ⟨[[0x00, 0x01]], []⟩⟩).1._onStartMillis = 1000 :=
  ⟨by decide,
    (poll_leaving_off traceComm (begin ctor) ⟨1000, ⟨[[0x00, 0x01]], []⟩⟩ Reachable.init
      (by decide) (by decide) (by decide)).2.1,
    (poll_leaving_off traceComm (begin ctor) ⟨1000, ⟨[[0x00, 0x01]], []⟩⟩ Reachable.init
      (by decide) (by decide) (by decide)).2.2.1⟩

/-- C9: `decodeState(data, len)` is Undefined when `len <= 0`; when `len = 1`
it is Off if `data[0]` is `STOVE_STATE_OFF_BYTE` (0x21) and Undefined otherwise;
when `len >= 2` it depends only on the last byte `data[len-1]`, which maps
0x00 to Off, 0x01 to Starting, 0x02 to LoadingFuel, 0x03 to FirePresent,
0x04 to Working, 0x06 to FinalClean and every other value to Undefined. -/
theorem decodeState_table (data : Nat → Nat) (len : Int) :
    (len ≤ 0 → decodeState data len = STOVE_UNDEFINED)
      ∧ (len = 1 →
          decodeState data len = if data 0 = 0x21 then STOVE_OFF else STOVE_UNDEFINED)
      ∧ (2 ≤ len →
          (∀ other : Nat → Nat, other (len - 1).toNat = data (len - 1).toNat →
              decodeState other len = decodeState data len)
            ∧ (data (len - 1).toNat = 0x00 → decodeState data len = STOVE_OFF)
            ∧ (data (len - 1).toNat = 0x01 → decodeState data len = STOVE_STARTING)
            ∧ (data (len - 1).toNat = 0x02 → decodeState data len = STOVE_LOADING_PELLET)
            ∧ (data (len - 1).toNat = 0x03 → decodeState data len = STOVE_FIRE_PRESENT)
            ∧ (data (len - 1).toNat = 0x04 → decodeState data len = STOVE_WORKING)
            ∧ (data (len - 1).toNat = 0x06 → decodeState data len = STOVE_FINAL_CLEAN)
            ∧ (data (len - 1).toNat ∉ [0x00, 0x01, 0x02, 0x03, 0x04, 0x06] →
                decodeState data len = STOVE_UNDEFINED)) := by
  refine ⟨?_, ?_, ?_⟩
  · intro h
    simp [decodeState, h]
  · intro h
    subst h
    simp [decodeState, STOVE_STATE_OFF_BYTE]
  · intro h
    have h0 : ¬ len ≤ 0 := by omega
    have h1 : ¬ len = 1 := by omega
    refine ⟨?_, ?_, ?_, ?_, ?_, ?_, ?_, ?_⟩
    · intro other ho
      simp only [decodeState, h0, h1, if_false, ho]
    all_goals
      intro hb
      simp only [decodeState, h0, h1, if_false]
      first
        | rw [hb]
        | (simp only [List.mem_cons, List.mem_singleton, List.not_mem_nil, or_false,
            not_or] at hb
           obtain ⟨b0, b1, b2, b3, b4, b6⟩ := hb
           split <;> first | rfl | contradiction)

/-- C10 as stated fails for the run-state: the controller that saw the device
Working, with no sequence in progress, polls a device that answers no read
(every read returns zero bytes); the snapshot's state was `STOVE_WORKING`
before the poll and is `STOVE_UNDEFINED` after it. -/
theorem poll_timeout_changes_state :
    (∀ address now : Nat, traceComm.readRAM address now ⟨[], []⟩ = ([], ⟨[], []⟩))
      ∧ workingAt0._comm = true
      ∧ workingAt0._powerAdjustInProgress = false
      ∧ workingAt0._shutdownInProgress = false
      ∧ (getStatusSnapshot workingAt0 1000).state = STOVE_WORKING
      ∧ (getStatusSnapshot (poll traceComm workingAt0 ⟨1000, ⟨[], []⟩⟩).1 1000).state
          = STOVE_UNDEFINED :=
  ⟨fun _ _ => rfl, by decide, by decide, by decide, by decide, by decide⟩

/-- C10 (amended): for a controller with no sequence in progress, a `poll()` in
which every device read (state, power feedback, ambient temperature) returns
zero bytes leaves the snapshot's `powerLevel` and ambient temperature equal to
their values before the poll, while the snapshot's state is `STOVE_UNDEFINED`
afterwards. -/
theorem poll_timeout_retains_power_and_temp {δ : Type} (comm : IStoveComm δ)
    (c : StoveController) (w : World δ) (t : Nat)
    (hcomm : c._comm = true) (hs : c._shutdownInProgress = false)
    (ha : c._powerAdjustInProgress = false)
    (h1 : (comm.readRAM RAM_ADDR_STATE w.now w.dev).1 = [])
    (h2 : (comm.readRAM RAM_ADDR_POWER_FEEDBACK w.now
      (comm.readRAM RAM_ADDR_STATE w.now w.dev).2).1 = [])
    (h3 : (comm.readRAM RAM_ADDR_AMBIENT_TEMP w.now
      (comm.readRAM RAM_ADDR_POWER_FEEDBACK w.now
        (comm.readRAM RAM_ADDR_STATE w.now w.dev).2).2).1 = []) :
    (getStatusSnapshot (poll comm c w).1 t).powerLevel = (getStatusSnapshot c t).powerLevel
      ∧ (getStatusSnapshot (poll comm c w).1 t).ambientTemp
          = (getStatusSnapshot c t).ambientTemp
      ∧ (getStatusSnapshot (poll comm c w).1 t).state = STOVE_UNDEFINED := by
  have hsnap : ∀ x : StoveController,
      (getStatusSnapshot x t).powerLevel = x._physicalPower
        ∧ (getStatusSnapshot x t).ambientTemp = x._ambientTemp
        ∧ (getStatusSnapshot x t).state = x._currentState := by
    intro x
    simp only [getStatusSnapshot, internalUpdateShutdown]
    split_ifs <;> simp
  rw [(hsnap _).1, (hsnap _).2.1, (hsnap _).2.2, (hsnap c).1, (hsnap c).2.1]
  rw [poll_run comm c w hcomm hs ha, h1]
  have hdec : decodeState (bufOf []) (([] : List Nat).length : Int) = STOVE_UNDEFINED := by
    decide
  rw [hdec]
  obtain ⟨p1, _, _, p4, p5, _⟩ := pollUpdateState_frame c STOVE_UNDEFINED w.now
  have p6 : (pollUpdateState c STOVE_UNDEFINED w.now)._currentState = STOVE_UNDEFINED := by
    simp only [pollUpdateState]
    split_ifs with hne <;> simp_all
  generalize pollUpdateState c STOVE_UNDEFINED w.now = c1 at p1 p4 p5 p6 ⊢
  have hc1 : c1._comm = true := p1.trans hcomm
  have hsync : syncPhysicalPower comm c1
      { w with dev := (comm.readRAM RAM_ADDR_STATE w.now w.dev).2 }
      = (c1, { w with dev := (comm.readRAM RAM_ADDR_POWER_FEEDBACK w.now
          (comm.readRAM RAM_ADDR_STATE w.now w.dev).2).2 }) := by
    simp [syncPhysicalPower, hc1, h2]
  rw [hsync]
  dsimp only
  have hread : (readAmbientTemperature comm c1
      { w with dev := (comm.readRAM RAM_ADDR_POWER_FEEDBACK w.now
          (comm.readRAM RAM_ADDR_STATE w.now w.dev).2).2 }).1 = c1._ambientTemp := by
    simp [readAmbientTemperature, hc1, h3]
  have hamb : (updateAmbientTemp comm c1
      { w with dev := (comm.readRAM RAM_ADDR_POWER_FEEDBACK w.now
          (comm.readRAM RAM_ADDR_STATE w.now w.dev).2).2 }).1 = c1 := by
    simp only [updateAmbientTemp]
    rw [hread]
  obtain ⟨_, _, e3, _, _, _, e7, e8⟩ := evaluateAutoShutdown_frame comm
    (updateAmbientTemp comm c1
      { w with dev := (comm.readRAM RAM_ADDR_POWER_FEEDBACK w.now
          (comm.readRAM RAM_ADDR_STATE w.now w.dev).2).2 }).1
    (updateAmbientTemp comm c1
      { w with dev := (comm.readRAM RAM_ADDR_POWER_FEEDBACK w.now
          (comm.readRAM RAM_ADDR_STATE w.now w.dev).2).2 }).2
  exact ⟨e7.trans ((congrArg StoveController._physicalPower hamb).trans p4),
    e8.trans ((congrArg StoveController._ambientTemp hamb).trans p5),
    e3.trans ((congrArg StoveController._currentState hamb).trans p6)⟩

theorem poll_timeout_retains_power_and_temp_witness :
    workingAt0._comm = true
      ∧ (getStatusSnapshot (poll traceComm workingAt0 ⟨1000, ⟨[], []⟩⟩).1 1000).powerLevel
          = (getStatusSnapshot workingAt0 1000).powerLevel
      ∧ (getStatusSnapshot (poll traceComm workingAt0 ⟨1000, ⟨[], []⟩⟩).1 1000).ambientTemp
          = (getStatusSnapshot workingAt0 1000).ambientTemp :=
  ⟨by decide,
    (poll_timeout_retains_power_and_temp traceComm workingAt0 ⟨1000, ⟨[], []⟩⟩ 1000
      (by decide) (by decide) (by decide) rfl rfl rfl).1,
    (poll_timeout_retains_power_and_temp traceComm workingAt0 ⟨1000, ⟨[], []⟩⟩ 1000
      (by decide) (by decide) (by decide) rfl rfl rfl).2.1⟩

/-! ## Power range and the auto-shutdown trigger -/

theorem syncPhysicalPower_range {δ : Type} (comm : IStoveComm δ) (c : StoveController)
    (w : World δ) (h : 1 ≤ c._physicalPower ∧ c._physicalPower ≤ 5) :
    1 ≤ (syncPhysicalPower comm c w).1._physicalPower
      ∧ (syncPhysicalPower comm c w).1._physicalPower ≤ 5 := by
  unfold syncPhysicalPower
  split
  · dsimp only
    split
    · dsimp only
      split_ifs <;> omega
    · exact h
  · exact h

theorem poll_eq_evaluate {δ : Type} (comm : IStoveComm δ) (c : StoveController)
    (w : World δ) (hcomm : c._comm = true) (hs : c._shutdownInProgress = false)
    (ha : c._powerAdjustInProgress = false) :
    poll comm c w
      = evaluateAutoShutdown comm (pollBeforeAutoShutdown comm c w).1
          (pollBeforeAutoShutdown comm c w).2 := by
  simp [poll, pollBeforeAutoShutdown, hcomm, hs, ha]

theorem pollBeforeAutoShutdown_power {δ : Type} (comm : IStoveComm δ)
    (c : StoveController) (w : World δ)
    (h : 1 ≤ c._physicalPower ∧ c._physicalPower ≤ 5) :
    1 ≤ (pollBeforeAutoShutdown comm c w).1._physicalPower
      ∧ (pollBeforeAutoShutdown comm c w).1._physicalPower ≤ 5 := by
  simp only [pollBeforeAutoShutdown, updateAmbientTemp]
  apply syncPhysicalPower_range
  rw [(pollUpdateState_frame c _ _).2.2.2.1]
  exact h

theorem poll_power_range {δ : Type} (comm : IStoveComm δ) (c : StoveController)
    (w : World δ) (h : 1 ≤ c._physicalPower ∧ c._physicalPower ≤ 5) :
    1 ≤ (poll comm c w).1._physicalPower ∧ (poll comm c w).1._physicalPower ≤ 5 := by
  by_cases hrun : c._comm = true ∧ c._shutdownInProgress = false
      ∧ c._powerAdjustInProgress = false
  · obtain ⟨h1, h2, h3⟩ := hrun
    rw [poll_eq_evaluate comm c w h1 h2 h3, (evaluateAutoShutdown_frame comm _ _).2.2.2.2.2.2.1]
    exact pollBeforeAutoShutdown_power comm c w h
  · have hsame : poll comm c w = (c, w) := by
      unfold poll
      cases hc : c._comm
      · simp
      · cases hs : c._shutdownInProgress
        · cases ha : c._powerAdjustInProgress
          · exact absurd ⟨hc, hs, ha⟩ hrun
          · simp
        · simp
    rw [hsame]
    exact h

theorem applyTargetPower_power_range {δ : Type} (comm : IStoveComm δ)
    (c : StoveController) (w : World δ) (target : Nat)
    (h : 1 ≤ c._physicalPower ∧ c._physicalPower ≤ 5) :
    1 ≤ (applyTargetPower comm c w target).1._physicalPower
      ∧ (applyTargetPower comm c w target).1._physicalPower ≤ 5 := by
  unfold applyTargetPower
  split
  · exact h
  split
  · exact h
  have h1 := syncPhysicalPower_range comm c w h
  dsimp only
  split
  · exact h1
  split
  · exact syncPhysicalPower_range comm _ _ h1
  · exact h1

theorem setPowerLevel_eq_applyTargetPower {δ : Type} (comm : IStoveComm δ)
    (c : StoveController) (w : World δ) (level : Nat) :
    setPowerLevel comm c w level = applyTargetPower comm c w (min (max level 1) 5) := by
  have hl : (if (if level < 1 then 1 else level) > 5 then 5
      else if level < 1 then 1 else level) = min (max level 1) 5 := by
    split_ifs <;> omega
  simp only [setPowerLevel, hl]

theorem reachableFromCtor_power {δ : Type} (comm : IStoveComm δ) (c : StoveController)
    (h : ReachableFromCtor comm c) : 1 ≤ c._physicalPower ∧ c._physicalPower ≤ 5 := by
  induction h with
  | ctor => simp [ctor]
  | begin c _ ih => simpa [begin] using ih
  | poll c w _ ih => exact poll_power_range comm c w ih
  | requestShutdown c w _ ih =>
    rw [(requestShutdown_frame comm c w).2.2.2.2.2.2.1]
    exact ih
  | setPowerLevel c w level _ ih =>
    rw [setPowerLevel_eq_applyTargetPower]
    exact applyTargetPower_power_range comm c w _ ih
  | setAutoShutdown c now minutes _ ih =>
    simp only [setAutoShutdown]
    split_ifs <;> exact ih
  | disableAutoShutdown c _ ih => simpa [disableAutoShutdown] using ih

theorem snapshot_powerLevel (c : StoveController) (now : Nat) :
    (getStatusSnapshot c now).powerLevel = c._physicalPower := by
  simp only [getStatusSnapshot, internalUpdateShutdown]
  split_ifs <;> rfl

/-- C11: in every controller state reachable from construction by any sequence
of `begin`, `poll`, `setPowerLevel`, `startStove`, `requestShutdown` and timer
operations, against any device, the power level given by `getPowerLevel()` and
by the status snapshot lies in [1,5]; and `setPowerLevel(level)` acts as
`applyTargetPower(min(max(level,1),5))` for every level. -/
theorem powerLevel_always_clamped {δ : Type} (comm : IStoveComm δ) (c : StoveController)
    (h : ReachableFromCtor comm c) :
    (1 ≤ getPowerLevel c ∧ getPowerLevel c ≤ 5)
      ∧ (∀ now : Nat, 1 ≤ (getStatusSnapshot c now).powerLevel
          ∧ (getStatusSnapshot c now).powerLevel ≤ 5)
      ∧ (∀ (w : World δ) (level : Nat),
          setPowerLevel comm c w level
            = applyTargetPower comm c w (min (max level 1) 5)) := by
  have hp := reachableFromCtor_power comm c h
  refine ⟨hp, ?_, ?_⟩
  · intro now
    rw [snapshot_powerLevel]
    exact hp
  · intro w level
    exact setPowerLevel_eq_applyTargetPower comm c w level

theorem powerLevel_always_clamped_witness :
    getPowerLevel (poll traceComm (begin ctor) ⟨0, ⟨[[0x00, 0x04], [0x00, 0x09]], []⟩⟩).1
        ≤ 5 :=
  (powerLevel_always_clamped traceComm
    (poll traceComm (begin ctor) ⟨0, ⟨[[0x00, 0x04], [0x00, 0x09]], []⟩⟩).1
    (ReachableFromCtor.poll _ _ (ReachableFromCtor.begin _ ReachableFromCtor.ctor))).1.2

theorem requestShutdown_writes (c : StoveController) (w : World TraceDev) :
    ((requestShutdown traceComm c w).1 = true →
        (requestShutdown traceComm c w).2.2.dev.writes
          = w.dev.writes ++ List.replicate 22 (0x58, 0x5A))
      ∧ ((requestShutdown traceComm c w).1 = false →
          (requestShutdown traceComm c w).2.2.dev.writes = w.dev.writes) := by
  cases hcan : (getStatusSnapshot c w.now).canShutdown
  · obtain ⟨h1, h2⟩ := requestShutdown_denied traceComm c w hcan
    simp [h1, h2]
  · rw [requestShutdown_allowed traceComm c w hcan]
    simp [pulseTrain_writes, RAM_ADDR_COMMAND, COMMAND_SHUTDOWN_STEP,
      REPEAT_TIMES_FOR_POWER_OFF]

theorem readAmbientTemperature_writes (c : StoveController) (w : World TraceDev) :
    (readAmbientTemperature traceComm c w).2.dev.writes = w.dev.writes := by
  unfold readAmbientTemperature
  cases c._comm
  · simp
  · simp only [if_true, traceComm]
    cases w.dev.pending with
    | nil => simp
    | cons r rs => by_cases hr : 1 ≤ r.length <;> simp [hr]

theorem pollBeforeAutoShutdown_writes (c : StoveController) (w : World TraceDev) :
    (pollBeforeAutoShutdown traceComm c w).2.dev.writes = w.dev.writes := by
  simp only [pollBeforeAutoShutdown, updateAmbientTemp]
  rw [readAmbientTemperature_writes, syncPhysicalPower_writes]
  simp only [traceComm]
  cases w.dev.pending <;> rfl

/-- C12: when `evaluateAutoShutdown()` runs inside a `poll()` with the timer
armed and the clock at or past the deadline, the poll is one call of
`requestShutdown()` followed by disarming the timer: the timer is disabled when
the poll returns whether the shutdown was allowed or denied, an allowed shutdown
sends its 22 pulses once, and a denied one sends nothing. -/
theorem poll_auto_shutdown_fires_once (c : StoveController) (w : World TraceDev)
    (hcomm : c._comm = true) (hs : c._shutdownInProgress = false)
    (ha : c._powerAdjustInProgress = false)
    (harmed : (pollBeforeAutoShutdown traceComm c w).1._autoShutdownEnabled = true)
    (hdue : (pollBeforeAutoShutdown traceComm c w).1._autoShutdownDeadlineMs
      ≤ (pollBeforeAutoShutdown traceComm c w).2.now) :
    poll traceComm c w
        = ({ (requestShutdown traceComm (pollBeforeAutoShutdown traceComm c w).1
                (pollBeforeAutoShutdown traceComm c w).2).2.1
              with _autoShutdownEnabled := false },
           (requestShutdown traceComm (pollBeforeAutoShutdown traceComm c w).1
              (pollBeforeAutoShutdown traceComm c w).2).2.2)
      ∧ isAutoShutdownEnabled (poll traceComm c w).1 = false
      ∧ ((requestShutdown traceComm (pollBeforeAutoShutdown traceComm c w).1
              (pollBeforeAutoShutdown traceComm c w).2).1 = true →
          (poll traceComm c w).2.dev.writes
            = w.dev.writes ++ List.replicate 22 (0x58, 0x5A))
      ∧ ((requestShutdown traceComm (pollBeforeAutoShutdown traceComm c w).1
              (pollBeforeAutoShutdown traceComm c w).2).1 = false →
          (poll traceComm c w).2.dev.writes = w.dev.writes) := by
  have hpoll : poll traceComm c w
      = ({ (requestShutdown traceComm (pollBeforeAutoShutdown traceComm c w).1
              (pollBeforeAutoShutdown traceComm c w).2).2.1
            with _autoShutdownEnabled := false },
         (requestShutdown traceComm (pollBeforeAutoShutdown traceComm c w).1
            (pollBeforeAutoShutdown traceComm c w).2).2.2) := by
    rw [poll_eq_evaluate traceComm c w hcomm hs ha]
    simp [evaluateAutoShutdown, harmed, hdue, millis]
  obtain ⟨hw1, hw2⟩ := requestShutdown_writes (pollBeforeAutoShutdown traceComm c w).1
    (pollBeforeAutoShutdown traceComm c w).2
  rw [pollBeforeAutoShutdown_writes] at hw1 hw2
  refine ⟨hpoll, ?_, ?_, ?_⟩
  · rw [hpoll]
    rfl
  · intro h
    rw [hpoll]
    exact hw1 h
  · intro h
    rw [hpoll]
    exact hw2 h

theorem poll_auto_shutdown_fires_once_witness :
    (pollBeforeAutoShutdown traceComm timerArmedAt0
        ⟨600000, ⟨[[0x00, 0x04]], []⟩⟩).1._autoShutdownEnabled = true
      ∧ isAutoShutdownEnabled
          (poll traceComm timerArmedAt0 ⟨600000, ⟨[[0x00, 0x04]], []⟩⟩).1 = false :=
  ⟨by decide,
    (poll_auto_shutdown_fires_once timerArmedAt0 ⟨600000, ⟨[[0x00, 0x04]], []⟩⟩
      (by decide) (by decide) (by decide) (by decide) (by decide)).2.1⟩

/-! ## Transport frames -/

theorem calculate_checksum_eq (dest addr val : Nat) :
    StoveComm.calculate_checksum dest addr val = (dest + addr + val) % 256 := by
  simp only [StoveComm.calculate_checksum]
  split_ifs <;> omega

theorem writeToStove_tx (s : StoveComm) (location command data : Nat)
    (hm : s._serialMutex = true) (hl : s.lockAvailable = true) :
    (StoveComm.writeToStove s location command data).tx
      = s.tx ++ [location, command, data, (location + command + data) % 256] := by
  simp [StoveComm.writeToStove, hm, hl, calculate_checksum_eq, StoveComm.serialWrite]

theorem receiveLoop_spec (l : List Nat) (n : Nat) (buffer : Nat → Nat) (hn : n ≤ 64) :
    (StoveComm.receiveLoop l n buffer).1 = min (n + l.length) 64
      ∧ ∀ i : Nat, (StoveComm.receiveLoop l n buffer).2 i
          = if n ≤ i ∧ i < min (n + l.length) 64 then l.getD (i - n) 0 else buffer i := by
  induction l generalizing n buffer with
  | nil =>
    simp only [StoveComm.receiveLoop, List.length_nil]
    refine ⟨by omega, ?_⟩
    intro i
    have hno : ¬ (n ≤ i ∧ i < min (n + 0) 64) := by omega
    rw [if_neg hno]
  | cons b rest ih =>
    by_cases hlt : n < 64
    · obtain ⟨ih1, ih2⟩ := ih (n + 1) (Function.update buffer n b) (by omega)
      simp only [StoveComm.receiveLoop, hlt, if_true, List.length_cons]
      refine ⟨by rw [ih1]; omega, ?_⟩
      intro i
      rw [ih2 i]
      by_cases hi : i = n
      · subst hi
        have h1 : ¬ (i + 1 ≤ i ∧ i < min (i + 1 + rest.length) 64) := by omega
        have h2 : i ≤ i ∧ i < min (i + (rest.length + 1)) 64 := by omega
        rw [if_neg h1, if_pos h2]
        simp
      · by_cases hgt : n + 1 ≤ i ∧ i < min (n + 1 + rest.length) 64
        · have h2 : n ≤ i ∧ i < min (n + (rest.length + 1)) 64 := by omega
          have h3 : i - n = (i - (n + 1)) + 1 := by omega
          rw [if_pos hgt, if_pos h2, h3, List.getD_cons_succ]
        · have h2 : ¬ (n ≤ i ∧ i < min (n + (rest.length + 1)) 64) := by omega
          rw [if_neg hgt, if_neg h2, Function.update_noteq hi]
    · obtain ⟨ih1, ih2⟩ := ih n buffer hn
      simp only [StoveComm.receiveLoop, hlt, if_false, List.length_cons]
      refine ⟨by rw [ih1]; omega, ?_⟩
      intro i
      rw [ih2 i]
      have h1 : ¬ (n ≤ i ∧ i < min (n + rest.length) 64) := by omega
      have h2 : ¬ (n ≤ i ∧ i < min (n + (rest.length + 1)) 64) := by omega
      rw [if_neg h1, if_neg h2]

theorem readFromStove_spec (s : StoveComm) (cmdBase addr : Nat) (buffer : Nat → Nat)
    (hm : s._serialMutex = true) (hl : s.lockAvailable = true) :
    (StoveComm.readFromStove s cmdBase addr buffer).2.2.tx = s.tx ++ [cmdBase, addr]
      ∧ (StoveComm.readFromStove s cmdBase addr buffer).1 = min s.rx.length 64
      ∧ (∀ i : Nat, i < min s.rx.length 64 →
          (StoveComm.readFromStove s cmdBase addr buffer).2.1 i = s.rx.getD i 0)
      ∧ (∀ i : Nat, min s.rx.length 64 ≤ i →
          (StoveComm.readFromStove s cmdBase addr buffer).2.1 i = buffer i)
      ∧ (StoveComm.readFromStove s cmdBase addr buffer).2.2.rx = [] := by
  obtain ⟨h1, h2⟩ := receiveLoop_spec s.rx 0 buffer (by omega)
  simp only [Nat.zero_add] at h1 h2
  have hrun : StoveComm.readFromStove s cmdBase addr buffer
      = ((StoveComm.receiveLoop s.rx 0 buffer).1, (StoveComm.receiveLoop s.rx 0 buffer).2,
          { s with tx := s.tx ++ [cmdBase] ++ [addr], rx := [], enPinHigh := true }) := by
    simp [StoveComm.readFromStove, hm, hl, StoveComm.serialWrite, StoveComm.enableRx,
      StoveComm.disableRx]
  rw [hrun]
  refine ⟨by simp, h1, ?_, ?_, rfl⟩
  · intro i hi
    have hc : 0 ≤ i ∧ i < min s.rx.length 64 := ⟨Nat.zero_le _, hi⟩
    show (StoveComm.receiveLoop s.rx 0 buffer).2 i = _
    rw [h2 i, if_pos hc, Nat.sub_zero]
  · intro i hi
    have hc : ¬ (0 ≤ i ∧ i < min s.rx.length 64) := by omega
    show (StoveComm.receiveLoop s.rx 0 buffer).2 i = _
    rw [h2 i, if_neg hc]

/-- C13: with the transport lock available, `writeRAM(a, v)` transmits exactly
the four bytes `[0x80, a, v, (0x80 + a + v) mod 256]` in that order,
`writeEEPROM(a, v)` transmits exactly `[0xA0, a, v, (0xA0 + a + v) mod 256]`, and
`calculate_checksum(d, a, v)` is `(d + a + v) mod 256`. -/
theorem write_frame_bytes (s : StoveComm) (a v : Nat)
    (hm : s._serialMutex = true) (hl : s.lockAvailable = true) :
    (StoveComm.writeRAM s a v).tx = s.tx ++ [0x80, a, v, (0x80 + a + v) % 256]
      ∧ (StoveComm.writeEEPROM s a v).tx = s.tx ++ [0xA0, a, v, (0xA0 + a + v) % 256]
      ∧ ∀ d x y : Nat, StoveComm.calculate_checksum d x y = (d + x + y) % 256 := by
  refine ⟨?_, ?_, calculate_checksum_eq⟩
  · simp [StoveComm.writeRAM, writeToStove_tx s _ a v hm hl, STOVE_OFFSET_RAM_WRITE]
  · simp [StoveComm.writeEEPROM, writeToStove_tx s _ a v hm hl, STOVE_OFFSET_EEPROM_WRITE]

theorem write_frame_bytes_witness :
    (StoveComm.writeRAM ⟨true, true, [], [], true⟩ 0x58 0x5A).tx
        = [] ++ [0x80, 0x58, 0x5A, (0x80 + 0x58 + 0x5A) % 256] :=
  (write_frame_bytes ⟨true, true, [], [], true⟩ 0x58 0x5A rfl rfl).1

/-- C14: with the transport lock available, `readRAM(a)` transmits exactly the
two request bytes `[0x00, a]` and `readEEPROM(a)` transmits `[0x20, a]`; if `k`
bytes arrive in the receive window the call returns `min(k, 64)`, the buffer
holds the first `min(k, 64)` received bytes in arrival order, the later bytes
are consumed and dropped, and the rest of the buffer is untouched; if no byte
arrives the call returns 0. -/
theorem read_request_and_result (s : StoveComm) (a : Nat) (buffer : Nat → Nat)
    (hm : s._serialMutex = true) (hl : s.lockAvailable = true) :
    ((StoveComm.readRAM s a buffer).2.2.tx = s.tx ++ [0x00, a]
        ∧ (StoveComm.readRAM s a buffer).1 = min s.rx.length 64
        ∧ (∀ i : Nat, i < min s.rx.length 64 →
            (StoveComm.readRAM s a buffer).2.1 i = s.rx.getD i 0)
        ∧ (∀ i : Nat, min s.rx.length 64 ≤ i →
            (StoveComm.readRAM s a buffer).2.1 i = buffer i)
        ∧ (StoveComm.readRAM s a buffer).2.2.rx = [])
      ∧ ((StoveComm.readEEPROM s a buffer).2.2.tx = s.tx ++ [0x20, a]
        ∧ (StoveComm.readEEPROM s a buffer).1 = min s.rx.length 64
        ∧ (∀ i : Nat, i < min s.rx.length 64 →
            (StoveComm.readEEPROM s a buffer).2.1 i = s.rx.getD i 0)
        ∧ (∀ i : Nat, min s.rx.length 64 ≤ i →
            (StoveComm.readEEPROM s a buffer).2.1 i = buffer i)
        ∧ (StoveComm.readEEPROM s a buffer).2.2.rx = [])
      ∧ (s.rx = [] →
          (StoveComm.readRAM s a buffer).1 = 0 ∧ (StoveComm.readEEPROM s a buffer).1 = 0) := by
  have h1 := readFromStove_spec s STOVE_OFFSET_RAM_READ a buffer hm hl
  have h2 := readFromStove_spec s STOVE_OFFSET_EEPROM_READ a buffer hm hl
  refine ⟨h1, h2, ?_⟩
  intro hrx
  simp only [StoveComm.readRAM, StoveComm.readEEPROM, h1.2.1, h2.2.1, hrx]
  simp

theorem read_request_and_result_witness :
    (StoveComm.readRAM ⟨true, true, [], [0x00, 0x04], true⟩ 0x21 (fun _ => 0)).1
        = min ([0x00, 0x04] : List Nat).length 64 :=
  (read_request_and_result ⟨true, true, [], [0x00, 0x04], true⟩ 0x21 (fun _ => 0)
    rfl rfl).1.2.1

/-! ## Scheduler -/

theorem updateEntry_rejected (s : Scheduler) (lockAvailable : Bool) (idx : Int)
    (active : Bool) (day hour minute power : Nat)
    (h : idx < 0 ∨ 8 ≤ idx ∨ day < 1 ∨ 7 < day ∨ 23 < hour ∨ 59 < minute) :
    Scheduler.updateEntry s lockAvailable idx active day hour minute power = (false, s) := by
  unfold Scheduler.updateEntry
  by_cases h1 : idx < 0 ∨ idx ≥ (MAX_SCHEDULE_ENTRIES : Int)
  · simp only [h1, dite_true]
  · simp only [h1, dite_false]
    by_cases h2 : day < 1 ∨ day > 7
    · simp only [h2, if_true]
    · simp only [h2, if_false]
      have h3 : hour > 23 ∨ minute > 59 := by
        simp only [MAX_SCHEDULE_ENTRIES, Nat.cast_ofNat] at h1
        omega
      simp only [h3, if_true]

theorem updateEntry_accepted (s : Scheduler) (idx : Int) (active : Bool)
    (day hour minute power : Nat) (hm : s._mutex = true)
    (h0 : 0 ≤ idx) (h8 : idx < 8) (hd1 : 1 ≤ day) (hd7 : day ≤ 7) (hh : hour ≤ 23)
    (hmin : minute ≤ 59) (hi : idx.toNat < MAX_SCHEDULE_ENTRIES) :
    Scheduler.updateEntry s true idx active day hour minute power
      = (true,
          { s with
            _entries :=
              Function.update s._entries ⟨idx.toNat, hi⟩
                (ScheduleEntry.mk active day hour minute (min (max power 1) 5)) }) := by
  unfold Scheduler.updateEntry
  have h1 : ¬ (idx < 0 ∨ idx ≥ (MAX_SCHEDULE_ENTRIES : Int)) := by
    simp only [MAX_SCHEDULE_ENTRIES, Nat.cast_ofNat]
    omega
  have h2 : ¬ (day < 1 ∨ day > 7) := by omega
  have h3 : ¬ (hour > 23 ∨ minute > 59) := by omega
  have hp : (if (if power < 1 then 1 else power) > 5 then 5
      else if power < 1 then 1 else power) = min (max power 1) 5 := by
    split_ifs <;> omega
  simp only [h1, h2, h3, dite_false, if_false, hm, Bool.not_true, Bool.false_eq_true, hp]

theorem getEntry_eq (s : Scheduler) (lockAvailable : Bool) (idx : Nat) (h : idx < 8) :
    Scheduler.getEntry s lockAvailable idx = s._entries ⟨idx, h⟩ := by
  have hlt : ¬ idx ≥ MAX_SCHEDULE_ENTRIES := by
    simp only [MAX_SCHEDULE_ENTRIES]
    omega
  simp only [Scheduler.getEntry, hlt, dite_false]
  split_ifs <;> rfl

/-- C15: after `begin()` and with the lock available, `updateEntry` returns
false and leaves the whole scheduler (all 8 entries and the global-enabled flag)
unchanged whenever `idx` is outside [0,7] or `day` is outside [1,7] or
`hour > 23` or `minute > 59`, and returns true in every other case. -/
theorem updateEntry_validation (s : Scheduler) (idx : Int) (active : Bool)
    (day hour minute power : Nat) (hm : s._mutex = true) :
    ((idx < 0 ∨ 8 ≤ idx ∨ day < 1 ∨ 7 < day ∨ 23 < hour ∨ 59 < minute) →
        Scheduler.updateEntry s true idx active day hour minute power = (false, s))
      ∧ (¬ (idx < 0 ∨ 8 ≤ idx ∨ day < 1 ∨ 7 < day ∨ 23 < hour ∨ 59 < minute) →
          (Scheduler.updateEntry s true idx active day hour minute power).1 = true) := by
  refine ⟨updateEntry_rejected s true idx active day hour minute power, ?_⟩
  intro h
  have hi : idx.toNat < MAX_SCHEDULE_ENTRIES := by
    simp only [MAX_SCHEDULE_ENTRIES]
    omega
  rw [updateEntry_accepted s idx active day hour minute power hm (by omega) (by omega)
    (by omega) (by omega) (by omega) (by omega) hi]

theorem updateEntry_validation_witness :
    (Scheduler.begin ⟨fun _ => ⟨true, 0, 0, 0, 0⟩, false, false⟩)._mutex = true
      ∧ Scheduler.updateEntry (Scheduler.begin ⟨fun _ => ⟨true, 0, 0, 0, 0⟩, false, false⟩)
          true 3 true 8 12 30 3
        = (false, Scheduler.begin ⟨fun _ => ⟨true, 0, 0, 0, 0⟩, false, false⟩) :=
  ⟨rfl,
    (updateEntry_validation (Scheduler.begin ⟨fun _ => ⟨true, 0, 0, 0, 0⟩, false, false⟩)
      3 true 8 12 30 3 rfl).1 (by decide)⟩

/-- C16: after `begin()` and with the lock available, for in-range `idx`, `day`,
`hour`, `minute` and any `power`, `updateEntry` returns true, after which
`getEntry(idx)` is `{active, day, hour, minute, min(max(power,1),5)}`, while
every other entry and the global-enabled flag are unchanged. -/
theorem updateEntry_stores (s : Scheduler) (idx : Int) (active : Bool)
    (day hour minute power : Nat) (hm : s._mutex = true)
    (h0 : 0 ≤ idx) (h8 : idx < 8) (hd1 : 1 ≤ day) (hd7 : day ≤ 7) (hh : hour ≤ 23)
    (hmin : minute ≤ 59) :
    (Scheduler.updateEntry s true idx active day hour minute power).1 = true
      ∧ Scheduler.getEntry (Scheduler.updateEntry s true idx active day hour minute power).2
          true idx.toNat
        = { active := active, day := day, hour := hour, minute := minute,
            targetPower := min (max power 1) 5 }
      ∧ (∀ j : Nat, j < 8 → j ≠ idx.toNat →
          Scheduler.getEntry (Scheduler.updateEntry s true idx active day hour minute power).2
              true j
            = Scheduler.getEntry s true j)
      ∧ Scheduler.isGlobalEnabled
            (Scheduler.updateEntry s true idx active day hour minute power).2
          = Scheduler.isGlobalEnabled s := by
  have hi : idx.toNat < 8 := by omega
  rw [updateEntry_accepted s idx active day hour minute power hm h0 h8 hd1 hd7 hh hmin hi]
  refine ⟨rfl, ?_, ?_, rfl⟩
  · rw [getEntry_eq _ _ _ hi]
    simp
  · intro j hj hne
    rw [getEntry_eq _ _ _ hj, getEntry_eq _ _ _ hj]
    have hfin : (⟨j, hj⟩ : Fin MAX_SCHEDULE_ENTRIES) ≠ ⟨idx.toNat, hi⟩ := by
      intro heq
      exact hne (Fin.mk.inj heq)
    simp [Function.update_noteq hfin]

theorem updateEntry_stores_witness :
    (Scheduler.updateEntry (Scheduler.begin ⟨fun _ => ⟨true, 0, 0, 0, 0⟩, false, false⟩)
        true 0 true 1 0 0 0).1 = true
      ∧ Scheduler.getEntry
          (Scheduler.updateEntry (Scheduler.begin ⟨fun _ => ⟨true, 0, 0, 0, 0⟩, false, false⟩)
            true 0 true 1 0 0 0).2 true (0 : Int).toNat
        = { active := true, day := 1, hour := 0, minute := 0, targetPower := min (max 0 1) 5 } :=
  ⟨(updateEntry_stores (Scheduler.begin ⟨fun _ => ⟨true, 0, 0, 0, 0⟩, false, false⟩)
      0 true 1 0 0 0 rfl (by decide) (by decide) (by decide) (by decide) (by decide)
      (by decide)).1,
    (updateEntry_stores (Scheduler.begin ⟨fun _ => ⟨true, 0, 0, 0, 0⟩, false, false⟩)
      0 true 1 0 0 0 rfl (by decide) (by decide) (by decide) (by decide) (by decide)
      (by decide)).2.1⟩

theorem updateEntry_inRange (s : Scheduler) (lockAvailable : Bool) (idx : Int)
    (active : Bool) (day hour minute power : Nat) (h : EntriesInRange s) :
    EntriesInRange
      (Scheduler.updateEntry s lockAvailable idx active day hour minute power).2 := by
  unfold Scheduler.updateEntry
  split
  · exact h
  split
  · exact h
  split
  · exact h
  dsimp only
  split
  · exact h
  split
  · exact h
  rename_i hidx hday htime _ _
  intro i
  dsimp only
  by_cases hi : i = ⟨idx.toNat, by omega⟩
  · rw [hi, Function.update_same]
    dsimp only
    refine ⟨by omega, by omega, by omega, ?_⟩
    split_ifs <;> omega
  · rw [Function.update_noteq hi]
    exact h i

theorem evaluate_scheduler {σ : Type} (s : Scheduler) (lockAvailable : Bool)
    (day hour minute : Nat) (stoveOn : Bool) (cb : Nat → σ → σ) (out : σ) :
    (Scheduler.evaluate s lockAvailable day hour minute stoveOn cb out).1 = s := by
  unfold Scheduler.evaluate
  split_ifs <;> rfl

theorem schedReachable_inRange (s : Scheduler) (h : SchedReachable s) : EntriesInRange s := by
  induction h with
  | begin s =>
    intro i
    simp [Scheduler.begin, WD_MON]
  | updateEntry s lockAvailable idx active day hour minute power _ ih =>
    exact updateEntry_inRange s lockAvailable idx active day hour minute power ih
  | setGlobalEnabled s en _ ih => exact ih
  | evaluate s lockAvailable day hour minute stoveOn log _ ih =>
    rw [evaluate_scheduler]
    exact ih

/-- C17: in every scheduler state reachable from `begin()` by `updateEntry`,
`setGlobalEnabled` and `evaluate` calls with any arguments (and any outcome of
taking the lock), every one of the 8 entries has `day` in [1,7], `hour` in
[0,23], `minute` in [0,59] and `targetPower` in [1,5]. -/
theorem reachable_entries_in_range (s : Scheduler) (h : SchedReachable s)
    (i : Fin MAX_SCHEDULE_ENTRIES) :
    (1 ≤ (s._entries i).day ∧ (s._entries i).day ≤ 7)
      ∧ (0 ≤ (s._entries i).hour ∧ (s._entries i).hour ≤ 23)
      ∧ (0 ≤ (s._entries i).minute ∧ (s._entries i).minute ≤ 59)
      ∧ (1 ≤ (s._entries i).targetPower ∧ (s._entries i).targetPower ≤ 5) := by
  obtain ⟨hd, hh, hm, hp⟩ := schedReachable_inRange s h i
  exact ⟨hd, ⟨Nat.zero_le _, hh⟩, ⟨Nat.zero_le _, hm⟩, hp⟩

theorem reachable_entries_in_range_witness :
    ((Scheduler.updateEntry (Scheduler.begin ⟨fun _ => ⟨true, 0, 0, 0, 0⟩, false, false⟩)
        true 2 true 7 23 59 200).2._entries 2).targetPower ≤ 5 :=
  (reachable_entries_in_range _
    (SchedReachable.updateEntry _ true 2 true 7 23 59 200 (SchedReachable.begin _)) 2).2.2.2.2

theorem evaluateLoop_eq {σ : Type} (s : Scheduler) (day hour minute : Nat)
    (cb : Nat → σ → σ) (l : List (Fin MAX_SCHEDULE_ENTRIES)) (out : σ) :
    Scheduler.evaluateLoop s day hour minute cb l out
      = ((l.filter fun i =>
            (s._entries i).active && decide ((s._entries i).day = day)
              && decide ((s._entries i).hour = hour)
              && decide ((s._entries i).minute = minute)).map
          fun i => (s._entries i).targetPower).foldl (fun acc p => cb p acc) out := by
  induction l generalizing out with
  | nil => rfl
  | cons i rest ih =>
    simp only [Scheduler.evaluateLoop, List.filter_cons]
    cases ha : (s._entries i).active
    · simp [ih]
    · by_cases hd : (s._entries i).day = day
      · by_cases ht : (s._entries i).hour = hour ∧ (s._entries i).minute = minute
        · simp [ih, hd, ht.1, ht.2]
        · have hf : (decide ((s._entries i).hour = hour)
              && decide ((s._entries i).minute = minute)) = false := by
            simpa using ht
          simp only [Bool.not_true, Bool.false_eq_true, if_false, hd, ne_eq, not_true_eq_false,
            ht, ih, Bool.true_and, decide_True, Bool.and_assoc, hf]
      · simp [ih, hd]

theorem foldl_recordTrigger (ps log : List Nat) :
    ps.foldl (fun acc p => Scheduler.recordTrigger p acc) log = log ++ ps := by
  induction ps generalizing log with
  | nil => simp
  | cons p rest ih =>
    rw [List.foldl_cons, ih]
    simp [Scheduler.recordTrigger]

theorem evaluate_enabled {σ : Type} (s : Scheduler) (day hour minute : Nat)
    (stoveOn : Bool) (cb : Nat → σ → σ) (out : σ) (hg : s._globalEnabled = true)
    (hm : s._mutex = true) :
    Scheduler.evaluate s true day hour minute stoveOn cb out
      = (s, (matchingPowers s day hour minute).foldl (fun acc p => cb p acc) out) := by
  simp [Scheduler.evaluate, hg, hm, evaluateLoop_eq, matchingPowers]

theorem evaluate_record_append (s : Scheduler) (lockAvailable : Bool)
    (day hour minute : Nat) (stoveOn : Bool) (log : List Nat) :
    (Scheduler.evaluate s lockAvailable day hour minute stoveOn Scheduler.recordTrigger log).2
      = log ++
        (Scheduler.evaluate s lockAvailable day hour minute stoveOn
          Scheduler.recordTrigger []).2 := by
  unfold Scheduler.evaluate
  split_ifs <;> simp [evaluateLoop_eq, foldl_recordTrigger]

theorem mem_matchingPowers (s : Scheduler) (day hour minute p : Nat) :
    p ∈ matchingPowers s day hour minute
      ↔ ∃ i : Fin MAX_SCHEDULE_ENTRIES, (s._entries i).active = true
          ∧ (s._entries i).day = day ∧ (s._entries i).hour = hour
          ∧ (s._entries i).minute = minute ∧ (s._entries i).targetPower = p := by
  simp only [matchingPowers, List.mem_map, List.mem_filter, List.mem_finRange, true_and,
    Bool.and_eq_true, decide_eq_true_eq]
  constructor
  · rintro ⟨i, ⟨⟨⟨ha, hd⟩, hh⟩, hm⟩, hp⟩
    exact ⟨i, ha, hd, hh, hm, hp⟩
  · rintro ⟨i, ha, hd, hh, hm, hp⟩
    exact ⟨i, ⟨⟨⟨ha, hd⟩, hh⟩, hm⟩, hp⟩

theorem evaluate_record_subset (s : Scheduler) (lockAvailable : Bool)
    (day hour minute : Nat) (stoveOn : Bool) :
    (Scheduler.evaluate s lockAvailable day hour minute stoveOn
        Scheduler.recordTrigger []).2 = []
      ∨ (s._globalEnabled = true
          ∧ (Scheduler.evaluate s lockAvailable day hour minute stoveOn
              Scheduler.recordTrigger []).2 = matchingPowers s day hour minute) := by
  unfold Scheduler.evaluate
  split_ifs with h1 h2 h3
  · exact Or.inl rfl
  · exact Or.inl rfl
  · exact Or.inl rfl
  · right
    refine ⟨by simpa using h1, ?_⟩
    simp [evaluateLoop_eq, foldl_recordTrigger, matchingPowers]

/-- C18: `evaluate(day, hour, minute, stoveOn, trigger)` invokes the trigger not
at all when the global-enabled flag is false; when it is true and the lock is
available, the trigger is invoked with exactly the `targetPower` values, in
increasing index order, of the entries that are active and whose day, hour and
minute all equal the arguments, so an entry fires only if both the global flag
and its own active flag are true; the result does not depend on `stoveOn`. -/
theorem evaluate_fires_matching {σ : Type} (s : Scheduler) (day hour minute : Nat)
    (stoveOn : Bool) (cb : Nat → σ → σ) (out : σ) :
    (∀ lockAvailable : Bool, s._globalEnabled = false →
        Scheduler.evaluate s lockAvailable day hour minute stoveOn cb out = (s, out))
      ∧ (s._globalEnabled = true → s._mutex = true →
          Scheduler.evaluate s true day hour minute stoveOn cb out
            = (s, (matchingPowers s day hour minute).foldl (fun acc p => cb p acc) out))
      ∧ (s._globalEnabled = true → s._mutex = true →
          (Scheduler.evaluate s true day hour minute stoveOn Scheduler.recordTrigger []).2
            = matchingPowers s day hour minute)
      ∧ (∀ (lockAvailable : Bool) (p : Nat),
          p ∈ (Scheduler.evaluate s lockAvailable day hour minute stoveOn
                Scheduler.recordTrigger []).2 →
            s._globalEnabled = true
              ∧ ∃ i : Fin MAX_SCHEDULE_ENTRIES, (s._entries i).active = true
                  ∧ (s._entries i).day = day ∧ (s._entries i).hour = hour
                  ∧ (s._entries i).minute = minute ∧ (s._entries i).targetPower = p)
      ∧ (∀ (lockAvailable other : Bool),
          Scheduler.evaluate s lockAvailable day hour minute stoveOn cb out
            = Scheduler.evaluate s lockAvailable day hour minute other cb out) := by
  refine ⟨?_, ?_, ?_, ?_, ?_⟩
  · intro lockAvailable hg
    simp [Scheduler.evaluate, hg]
  · intro hg hm
    exact evaluate_enabled s day hour minute stoveOn cb out hg hm
  · intro hg hm
    rw [evaluate_enabled s day hour minute stoveOn _ _ hg hm, foldl_recordTrigger]
    simp
  · intro lockAvailable p hp
    rcases evaluate_record_subset s lockAvailable day hour minute stoveOn with h | ⟨hg, h⟩
    · rw [h] at hp
      simp at hp
    · rw [h] at hp
      exact ⟨hg, (mem_matchingPowers s day hour minute p).mp hp⟩
  · intro lockAvailable other
    rfl

/-- C19: `evaluate` performs no de-duplication and does not modify the
scheduler: two consecutive calls with the same arguments leave the table and the
global flag unchanged and record the trigger sequence of a single call twice
over, so a matching active entry fires (at least) twice. -/
theorem evaluate_twice_refires (s : Scheduler) (lockAvailable : Bool)
    (day hour minute : Nat) (stoveOn : Bool) (log : List Nat) :
    (Scheduler.evaluate s lockAvailable day hour minute stoveOn
        Scheduler.recordTrigger log).1 = s
      ∧ (Scheduler.evaluate
          (Scheduler.evaluate s lockAvailable day hour minute stoveOn
            Scheduler.recordTrigger log).1
          lockAvailable day hour minute stoveOn Scheduler.recordTrigger
          (Scheduler.evaluate s lockAvailable day hour minute stoveOn
            Scheduler.recordTrigger log).2)
        = (s, log
            ++ (Scheduler.evaluate s lockAvailable day hour minute stoveOn
                Scheduler.recordTrigger []).2
            ++ (Scheduler.evaluate s lockAvailable day hour minute stoveOn
                Scheduler.recordTrigger []).2)
      ∧ (s._globalEnabled = true → s._mutex = true → lockAvailable = true →
          ∀ i : Fin MAX_SCHEDULE_ENTRIES, (s._entries i).active = true →
            (s._entries i).day = day → (s._entries i).hour = hour →
            (s._entries i).minute = minute →
              2 ≤ List.count (s._entries i).targetPower
                ((Scheduler.evaluate s lockAvailable day hour minute stoveOn
                    Scheduler.recordTrigger []).2
                  ++ (Scheduler.evaluate s lockAvailable day hour minute stoveOn
                    Scheduler.recordTrigger []).2)) := by
  have h1 := evaluate_scheduler s lockAvailable day hour minute stoveOn
    Scheduler.recordTrigger log
  refine ⟨h1, ?_, ?_⟩
  · rw [h1]
    apply Prod.ext
    · exact evaluate_scheduler s lockAvailable day hour minute stoveOn _ _
    · show (Scheduler.evaluate s lockAvailable day hour minute stoveOn
        Scheduler.recordTrigger _).2 = _
      rw [evaluate_record_append s lockAvailable day hour minute stoveOn
          (Scheduler.evaluate s lockAvailable day hour minute stoveOn
            Scheduler.recordTrigger log).2,
        evaluate_record_append s lockAvailable day hour minute stoveOn log]
  · intro hg hm hl i ha hd hh hmin
    subst hl
    rw [evaluate_enabled s day hour minute stoveOn _ _ hg hm, foldl_recordTrigger]
    simp only [List.nil_append, List.count_append]
    have hmem : (s._entries i).targetPower ∈ matchingPowers s day hour minute :=
      (mem_matchingPowers s day hour minute _).mpr ⟨i, ha, hd, hh, hmin, rfl⟩
    have hpos := List.count_pos_iff.mpr hmem
    omega

/-! ## The summary text and reading it back -/

theorem expectLit_append (lit rest : List Char) : expectLit lit (lit ++ rest) = some rest := by
  induction lit with
  | nil => cases rest <;> rfl
  | cons c lit ih => simp [expectLit, ih]

theorem takeWhile_digits_append (ds : List Char) (c : Char) (rest : List Char)
    (hall : ∀ d ∈ ds, isDigitChar d = true) (hc : isDigitChar c = false) :
    (ds ++ c :: rest).takeWhile isDigitChar = ds
      ∧ (ds ++ c :: rest).dropWhile isDigitChar = c :: rest := by
  induction ds with
  | nil => simp [List.takeWhile, List.dropWhile, hc]
  | cons d ds ih =>
    have hd : isDigitChar d = true := hall d (List.mem_cons_self _ _)
    have ih2 := ih (fun x hx => hall x (List.mem_cons_of_mem _ hx))
    simp [List.takeWhile, List.dropWhile, hd, ih2.1, ih2.2]

theorem parseNat_digits (ds lit rest : List Char) (hne : ds ≠ [])
    (hall : ∀ d ∈ ds, isDigitChar d = true)
    (hlit : (lit.head?.map isDigitChar) = some false) :
    parseNat (ds ++ (lit ++ rest)) = some (digitsValue ds, lit ++ rest) := by
  cases lit with
  | nil => simp at hlit
  | cons c tail =>
    have hc : isDigitChar c = false := by simpa using hlit
    obtain ⟨h1, h2⟩ := takeWhile_digits_append ds c (tail ++ rest) hall hc
    simp only [parseNat, List.cons_append, h1, h2]
    cases ds with
    | nil => exact absurd rfl hne
    | cons d ds => rfl

theorem digits_facts (n : Nat) (h : n < 60) :
    Nat.toDigits 10 n ≠ [] ∧ (∀ c ∈ Nat.toDigits 10 n, isDigitChar c = true)
      ∧ digitsValue (Nat.toDigits 10 n) = n := by
  interval_cases n <;> decide

theorem twoDigits_facts (n : Nat) (h : n < 60) :
    (if n < 10 then "0" else "").toList ++ Nat.toDigits 10 n ≠ []
      ∧ (∀ c ∈ (if n < 10 then "0" else "").toList ++ Nat.toDigits 10 n,
          isDigitChar c = true)
      ∧ digitsValue ((if n < 10 then "0" else "").toList ++ Nat.toDigits 10 n) = n := by
  interval_cases n <;> decide

theorem bit_facts (b : Bool) :
    (if b then "1" else "0").toList ≠ []
      ∧ (∀ c ∈ (if b then "1" else "0").toList, isDigitChar c = true)
      ∧ decide (digitsValue (if b then "1" else "0").toList = 1) = b := by
  cases b <;> decide

theorem summaryLine_toList (i : Nat) (e : ScheduleEntry) :
    (Scheduler.summaryLine i e).toList
      = "#".toList ++ (Nat.toDigits 10 i ++ (" act=".toList ++
          ((if e.active then "1" else "0").toList ++ (" day=".toList ++
          (Nat.toDigits 10 e.day ++ (" ".toList ++
          (((if e.hour < 10 then "0" else "").toList ++ Nat.toDigits 10 e.hour) ++
          (":".toList ++
          (((if e.minute < 10 then "0" else "").toList ++ Nat.toDigits 10 e.minute) ++
          (" power=".toList ++ (Nat.toDigits 10 e.targetPower ++ "\n".toList))))))))))) := by
  simp only [Scheduler.summaryLine, String.toList, String.data_append, List.append_assoc]
  rfl

theorem parseField_digits (lit : String) (ds next rest : List Char) (hne : ds ≠ [])
    (hall : ∀ d ∈ ds, isDigitChar d = true)
    (hnext : (next.head?.map isDigitChar) = some false) :
    parseField lit (lit.toList ++ (ds ++ (next ++ rest)))
      = some (digitsValue ds, next ++ rest) := by
  simp only [parseField, expectLit_append, Option.some_bind]
  exact parseNat_digits ds next rest hne hall hnext

theorem parseEntryLine_summaryLine (i : Nat) (e : ScheduleEntry) (rest : List Char)
    (hi : i < 60) (hd : e.day < 60) (hh : e.hour < 60) (hm : e.minute < 60)
    (hp : e.targetPower < 60) :
    parseEntryLine ((Scheduler.summaryLine i e).toList ++ rest) = some ((i, e), rest) := by
  obtain ⟨i1, i2, i3⟩ := digits_facts i hi
  obtain ⟨d1, d2, d3⟩ := digits_facts e.day hd
  obtain ⟨h1, h2, h3⟩ := twoDigits_facts e.hour hh
  obtain ⟨m1, m2, m3⟩ := twoDigits_facts e.minute hm
  obtain ⟨p1, p2, p3⟩ := digits_facts e.targetPower hp
  obtain ⟨a1, a2, a3⟩ := bit_facts e.active
  rw [summaryLine_toList]
  simp only [List.append_assoc]
  rw [← List.append_assoc (if e.hour < 10 then "0" else "").toList (Nat.toDigits 10 e.hour),
    ← List.append_assoc (if e.minute < 10 then "0" else "").toList
      (Nat.toDigits 10 e.minute)]
  unfold parseEntryLine
  rw [parseField_digits "#" _ " act=".toList _ i1 i2 rfl]
  dsimp only
  rw [parseField_digits " act=" _ " day=".toList _ a1 a2 rfl]
  dsimp only
  rw [parseField_digits " day=" _ " ".toList _ d1 d2 rfl]
  dsimp only
  rw [parseField_digits " " _ ":".toList _ h1 h2 rfl]
  dsimp only
  rw [parseField_digits ":" _ " power=".toList _ m1 m2 rfl]
  dsimp only
  rw [parseField_digits " power=" _ "\n".toList _ p1 p2 rfl]
  dsimp only
  rw [expectLit_append]
  dsimp only
  rw [i3, a3, d3, h3, m3, p3]

theorem buildSummary_toList (s : Scheduler) (hm : s._mutex = true) :
    (Scheduler.buildSummary s true).toList
      = "Global: ".toList ++
          ((if s._globalEnabled then "ENABLED\n" else "DISABLED\n").toList ++
          ((Scheduler.summaryLine 0 (s._entries 0)).toList ++
          ((Scheduler.summaryLine 1 (s._entries 1)).toList ++
          ((Scheduler.summaryLine 2 (s._entries 2)).toList ++
          ((Scheduler.summaryLine 3 (s._entries 3)).toList ++
          ((Scheduler.summaryLine 4 (s._entries 4)).toList ++
          ((Scheduler.summaryLine 5 (s._entries 5)).toList ++
          ((Scheduler.summaryLine 6 (s._entries 6)).toList ++
          ((Scheduler.summaryLine 7 (s._entries 7)).toList ++ []))))))))) := by
  have hfin : List.finRange MAX_SCHEDULE_ENTRIES = [0, 1, 2, 3, 4, 5, 6, 7] := by decide
  simp only [Scheduler.buildSummary, hm, hfin, Bool.not_true, Bool.false_eq_true, if_false,
    List.foldl]
  cases s._globalEnabled <;>
    simp only [String.toList, String.data_append, List.append_assoc, List.append_nil] <;> rfl

theorem parseHeader_header (g : Bool) (rest : List Char) :
    parseHeader ("Global: ".toList ++
        ((if g then "ENABLED\n" else "DISABLED\n").toList ++ rest))
      = some (g, rest) := by
  unfold parseHeader
  rw [expectLit_append]
  cases g
  · have hE : expectLit "ENABLED\n".toList ("DISABLED\n".toList ++ rest) = none := rfl
    simp only [Bool.false_eq_true, if_false, hE, expectLit_append]
  · simp only [if_true, expectLit_append]

theorem parseSummary_buildSummary (s : Scheduler) (hm : s._mutex = true)
    (hr : EntriesInRange s) :
    parseSummary (Scheduler.buildSummary s true)
      = some (s._globalEnabled,
          [(0, s._entries 0), (1, s._entries 1), (2, s._entries 2), (3, s._entries 3),
           (4, s._entries 4), (5, s._entries 5), (6, s._entries 6), (7, s._entries 7)]) := by
  have hline : ∀ (k : Nat) (i : Fin MAX_SCHEDULE_ENTRIES) (rest : List Char), k < 60 →
      parseEntryLine ((Scheduler.summaryLine k (s._entries i)).toList ++ rest)
        = some ((k, s._entries i), rest) := by
    intro k i rest hk
    obtain ⟨⟨_, hd⟩, hh, hmin, _, hp⟩ := hr i
    exact parseEntryLine_summaryLine k (s._entries i) rest hk (by omega) (by omega)
      (by omega) (by omega)
  unfold parseSummary
  rw [buildSummary_toList s hm, parseHeader_header]
  simp only [parseEntryLines, hline 0 0 _ (by omega), hline 1 1 _ (by omega),
    hline 2 2 _ (by omega), hline 3 3 _ (by omega), hline 4 4 _ (by omega),
    hline 5 5 _ (by omega), hline 6 6 _ (by omega), hline 7 7 _ (by omega)]
  rfl

theorem count_newline_digits (ds : List Char) (hall : ∀ d ∈ ds, isDigitChar d = true) :
    ds.count (Char.ofNat 10) = 0 := by
  rw [List.count_eq_zero]
  intro hmem
  have h := hall _ hmem
  revert h
  decide

theorem summaryLine_newlines (i : Nat) (e : ScheduleEntry)
    (hi : i < 60) (hd : e.day < 60) (hh : e.hour < 60) (hm : e.minute < 60)
    (hp : e.targetPower < 60) :
    (Scheduler.summaryLine i e).toList.count (Char.ofNat 10) = 1 := by
  have c1 := count_newline_digits _ (digits_facts i hi).2.1
  have c2 := count_newline_digits _ (digits_facts e.day hd).2.1
  have c3 := count_newline_digits _ (twoDigits_facts e.hour hh).2.1
  have c4 := count_newline_digits _ (twoDigits_facts e.minute hm).2.1
  have c5 := count_newline_digits _ (digits_facts e.targetPower hp).2.1
  have c6 := count_newline_digits _ (bit_facts e.active).2.1
  have l1 : "#".toList.count (Char.ofNat 10) = 0 := by decide
  have l2 : " act=".toList.count (Char.ofNat 10) = 0 := by decide
  have l3 : " day=".toList.count (Char.ofNat 10) = 0 := by decide
  have l4 : " ".toList.count (Char.ofNat 10) = 0 := by decide
  have l5 : ":".toList.count (Char.ofNat 10) = 0 := by decide
  have l6 : " power=".toList.count (Char.ofNat 10) = 0 := by decide
  have l7 : "\n".toList.count (Char.ofNat 10) = 1 := by decide
  rw [summaryLine_toList]
  simp only [List.count_append] at c3 c4 ⊢
  omega

/-- Counterexample to C20 as stated: two schedulers that satisfy the field-range
invariant and differ in entry 3 and in the global flag. When the 200 ms lock is
not obtained `buildSummary()` returns the empty text for both, with no header
line and no entry line, and nothing can be read back from it. -/
theorem buildSummary_empty_without_lock :
    EntriesInRange freshScheduler
      ∧ EntriesInRange editedScheduler
      ∧ freshScheduler._entries 3 ≠ editedScheduler._entries 3
      ∧ freshScheduler._globalEnabled ≠ editedScheduler._globalEnabled
      ∧ Scheduler.buildSummary freshScheduler false = ""
      ∧ Scheduler.buildSummary editedScheduler false = ""
      ∧ parseSummary (Scheduler.buildSummary editedScheduler false) = none :=
  ⟨schedReachable_inRange _ (SchedReachable.begin _),
    schedReachable_inRange _
      (SchedReachable.setGlobalEnabled _ false
        (SchedReachable.updateEntry _ true 3 true 5 7 5 4 (SchedReachable.begin _))),
    by decide, by decide, by decide, by decide, by decide⟩

/-- C20 (amended): for a scheduler after `begin()` whose table satisfies the
field-range invariant, when the lock is obtained, `buildSummary()` is one header
line for the global flag followed by exactly 8 entry lines (nine newline
characters in all, inactive entries included, in index order); reading the text
back in field order (index, act, day, HH:MM, power) gives the global flag and,
for every index, that entry's active, day, hour, minute and targetPower exactly;
hence two such states with the same summary have the same entries and global
flag. When the mutex was never created or the lock is not obtained, the summary
of every scheduler is the empty text. -/
theorem buildSummary_round_trip (s : Scheduler) (hm : s._mutex = true)
    (hr : EntriesInRange s) :
    parseSummary (Scheduler.buildSummary s true)
        = some (s._globalEnabled,
            List.ofFn fun i : Fin MAX_SCHEDULE_ENTRIES => (i.val, s._entries i))
      ∧ (Scheduler.buildSummary s true).toList.count (Char.ofNat 10) = 9
      ∧ (∀ t : Scheduler, t._mutex = true → EntriesInRange t →
          Scheduler.buildSummary s true = Scheduler.buildSummary t true →
            s._entries = t._entries ∧ s._globalEnabled = t._globalEnabled)
      ∧ (∀ (t : Scheduler) (lockAvailable : Bool),
          t._mutex = false ∨ lockAvailable = false →
            Scheduler.buildSummary t lockAvailable = "") := by
  refine ⟨?_, ?_, ?_, ?_⟩
  rotate_left 3
  · intro t lockAvailable h
    unfold Scheduler.buildSummary
    rcases h with h | h
    · simp [h]
    · cases t._mutex <;> simp [h]
  · rw [parseSummary_buildSummary s hm hr]
    rfl
  · have hline : ∀ (k : Nat) (i : Fin MAX_SCHEDULE_ENTRIES), k < 60 →
        (Scheduler.summaryLine k (s._entries i)).toList.count (Char.ofNat 10) = 1 := by
      intro k i hk
      obtain ⟨⟨_, hd⟩, hh, hmin, _, hp⟩ := hr i
      exact summaryLine_newlines k (s._entries i) hk (by omega) (by omega) (by omega)
        (by omega)
    have hg : (if s._globalEnabled then "ENABLED\n" else "DISABLED\n").toList.count
        (Char.ofNat 10) = 1 := by
      cases s._globalEnabled <;> decide
    have h0 : "Global: ".toList.count (Char.ofNat 10) = 0 := by decide
    rw [buildSummary_toList s hm]
    simp only [List.count_append, hg, h0, hline 0 0 (by omega), hline 1 1 (by omega),
      hline 2 2 (by omega), hline 3 3 (by omega), hline 4 4 (by omega),
      hline 5 5 (by omega), hline 6 6 (by omega), hline 7 7 (by omega), List.count_nil]
  · intro t htm htr heq
    have hs := parseSummary_buildSummary s hm hr
    have ht := parseSummary_buildSummary t htm htr
    rw [heq, ht] at hs
    simp only [Option.some.injEq, Prod.mk.injEq, List.cons.injEq, true_and, and_true] at hs
    obtain ⟨hg, e0, e1, e2, e3, e4, e5, e6, e7⟩ := hs
    refine ⟨?_, hg.symm⟩
    funext i
    fin_cases i
    · exact e0.symm
    · exact e1.symm
    · exact e2.symm
    · exact e3.symm
    · exact e4.symm
    · exact e5.symm
    · exact e6.symm
    · exact e7.symm

theorem buildSummary_round_trip_witness :
    editedScheduler._mutex = true
      ∧ EntriesInRange editedScheduler
      ∧ editedScheduler._entries 3 = ⟨true, 5, 7, 5, 4⟩
      ∧ editedScheduler._globalEnabled = false
      ∧ parseSummary (Scheduler.buildSummary editedScheduler true)
        = some (editedScheduler._globalEnabled,
            List.ofFn fun i : Fin MAX_SCHEDULE_ENTRIES => (i.val, editedScheduler._entries i)) :=
  ⟨by decide,
    schedReachable_inRange _
      (SchedReachable.setGlobalEnabled _ false
        (SchedReachable.updateEntry _ true 3 true 5 7 5 4 (SchedReachable.begin _))),
    by decide, by decide,
    (buildSummary_round_trip editedScheduler (by decide)
      (schedReachable_inRange _
        (SchedReachable.setGlobalEnabled _ false
          (SchedReachable.updateEntry _ true 3 true 5 7 5 4 (SchedReachable.begin _))))).1⟩

/-! ## getEntry and the caller buffers -/

/-- C21: for every index `idx >= MAX_SCHEDULE_ENTRIES` (8), `getEntry(idx)` is the
last valid slot, equal to `getEntry(7)`; for `idx` in [0,7] it is entry `idx`;
this holds for either outcome of taking the lock, and `getEntry` only reads the
table (the model returns the copy and no new scheduler). -/
theorem getEntry_clamps (s : Scheduler) (lockAvailable : Bool) (idx : Nat) :
    (8 ≤ idx → Scheduler.getEntry s lockAvailable idx = Scheduler.getEntry s lockAvailable 7)
      ∧ (8 ≤ idx → Scheduler.getEntry s lockAvailable idx = s._entries 7)
      ∧ (∀ h : idx < 8, Scheduler.getEntry s lockAvailable idx = s._entries ⟨idx, h⟩) := by
  have hge : 8 ≤ idx → Scheduler.getEntry s lockAvailable idx = s._entries 7 := by
    intro h
    have h8 : idx ≥ MAX_SCHEDULE_ENTRIES := h
    simp only [Scheduler.getEntry, h8, dite_true]
    split_ifs <;> rfl
  refine ⟨?_, hge, ?_⟩
  · intro h
    rw [hge h, getEntry_eq s lockAvailable 7 (by omega)]
    rfl
  · intro h
    exact getEntry_eq s lockAvailable idx h

/-- C30 (the code at the failing input): when nine bytes arrive in the receive
window of the state read, `readRAM` returns 9 and stores a byte at buffer index
8, beyond the 8-byte `buf` of `poll()`; when five bytes arrive it returns 5 and
stores a byte at index 4, beyond the 4-byte `buf` of `syncPhysicalPower()` and
`readAmbientTemperature()`. The transport bounds the count by 64 only. -/
theorem readRAM_exceeds_caller_buffer :
    (StoveComm.readRAM ⟨true, true, [], [1, 2, 3, 4, 5, 6, 7, 8, 9], true⟩ RAM_ADDR_STATE
        (fun _ => 0)).1 = 9
      ∧ (StoveComm.readRAM ⟨true, true, [], [1, 2, 3, 4, 5, 6, 7, 8, 9], true⟩ RAM_ADDR_STATE
          (fun _ => 0)).2.1 8 = 9
      ∧ (StoveComm.readRAM ⟨true, true, [], [1, 2, 3, 4, 5], true⟩ RAM_ADDR_POWER_FEEDBACK
          (fun _ => 0)).1 = 5
      ∧ (StoveComm.readRAM ⟨true, true, [], [1, 2, 3, 4, 5], true⟩ RAM_ADDR_POWER_FEEDBACK
          (fun _ => 0)).2.1 4 = 5
      ∧ (StoveComm.readRAM ⟨true, true, [], [1, 2, 3, 4, 5], true⟩ RAM_ADDR_AMBIENT_TEMP
          (fun _ => 0)).1 = 5 := by
  decide

/-! ## The auto-shutdown timer while the clock does not wrap -/

theorem timerInv_of_fields (c d : StoveController) (t : Nat) (h : TimerInv c t)
    (h1 : d._isOn = c._isOn) (h2 : d._onStartMillis = c._onStartMillis)
    (h3 : d._autoShutdownEnabled = c._autoShutdownEnabled)
    (h4 : d._autoShutdownDeadlineMs = c._autoShutdownDeadlineMs) : TimerInv d t := by
  unfold TimerInv at *
  rw [h1, h2, h3, h4]
  exact h

theorem timerInv_mono (c : StoveController) (t u : Nat) (h : TimerInv c t) (htu : t ≤ u) :
    TimerInv c u := by
  unfold TimerInv at *
  exact ⟨fun hon => le_trans (h.1 hon) htu, h.2⟩

theorem pollUpdateState_timerInv (c : StoveController) (s : StoveRunState) (now t : Nat)
    (h : TimerInv c t) (ht : t ≤ now) : TimerInv (pollUpdateState c s now) now := by
  have hc := timerInv_mono c t now h ht
  unfold TimerInv at hc h ⊢
  simp only [pollUpdateState]
  split_ifs with h1 h2 h3
  · simp
  · simp only [Bool.and_eq_true, Bool.not_eq_true', decide_eq_true_eq] at h3
    refine ⟨fun _ => le_refl _, ?_⟩
    intro hen
    have := (h.2 hen).1
    simp [h3.1.1] at this
  · exact hc
  · exact hc

theorem syncPhysicalPower_timerInv {δ : Type} (comm : IStoveComm δ) (c : StoveController)
    (w : World δ) (t : Nat) (h : TimerInv c t) :
    TimerInv (syncPhysicalPower comm c w).1 t := by
  rw [syncPhysicalPower_eq]
  exact timerInv_of_fields c _ t h rfl rfl rfl rfl

theorem pollBeforeAutoShutdown_timerInv {δ : Type} (comm : IStoveComm δ)
    (c : StoveController) (w : World δ) (t : Nat) (h : TimerInv c t) (ht : t ≤ w.now) :
    TimerInv (pollBeforeAutoShutdown comm c w).1 w.now := by
  simp only [pollBeforeAutoShutdown, updateAmbientTemp, millis]
  have h1 := pollUpdateState_timerInv c
    (decodeState (bufOf (comm.readRAM RAM_ADDR_STATE w.now w.dev).1)
      (comm.readRAM RAM_ADDR_STATE w.now w.dev).1.length) w.now t h ht
  have h2 := syncPhysicalPower_timerInv comm _
    { w with dev := (comm.readRAM RAM_ADDR_STATE w.now w.dev).2 } w.now h1
  exact timerInv_of_fields _ _ w.now h2 rfl rfl rfl rfl

theorem pollBeforeAutoShutdown_now {δ : Type} (comm : IStoveComm δ) (c : StoveController)
    (w : World δ) : (pollBeforeAutoShutdown comm c w).2.now = w.now := by
  simp only [pollBeforeAutoShutdown, updateAmbientTemp, readAmbientTemperature,
    syncPhysicalPower]
  split_ifs <;> rfl

theorem scheduleEarliestSafeShutdown_timerInv (c : StoveController) (now : Nat)
    (h : TimerInv c now) (hnw : NoWrapAt now)
    (hlt : sub32 now c._onStartMillis < 600000) :
    TimerInv (scheduleEarliestSafeShutdown c now (600000 - sub32 now c._onStartMillis)).2
      now := by
  unfold TimerInv NoWrapAt at *
  simp only [scheduleEarliestSafeShutdown, SAFETY_MIN_ON_TIME_MS] at h ⊢
  split_ifs with h1 h2 h3 h4
  · exact h
  · exact h
  · exact h
  · have h1 : c._isOn = true := by simpa using h1
    have hon := h.1 h1
    refine ⟨fun _ => hon, fun _ => ⟨h1, ?_⟩⟩
    show c._onStartMillis + 10 * 60 * 1000 ≤ add32 now (600000 - sub32 now c._onStartMillis)
    unfold add32 sub32 at *
    omega
  · have h1 : c._isOn = true := by simpa using h1
    have hon := h.1 h1
    refine ⟨fun _ => hon, fun _ => ⟨h1, ?_⟩⟩
    show c._onStartMillis + 10 * 60 * 1000 ≤ add32 now (600000 - sub32 now c._onStartMillis)
    unfold add32 sub32 at *
    omega

theorem requestShutdown_timerInv {δ : Type} (comm : IStoveComm δ) (c : StoveController)
    (w : World δ) (h : TimerInv c w.now) (hnw : NoWrapAt w.now) :
    TimerInv (requestShutdown comm c w).2.1 w.now := by
  cases hcan : (getStatusSnapshot c w.now).canShutdown
  · simp only [requestShutdown, millis, hcan]
    by_cases hr : (getStatusSnapshot c w.now).msRemainingToAllowShutdown > 0
    · simp only [Bool.not_false, if_true, hr]
      rw [snapshot_remaining] at hr ⊢
      by_cases hcond : c._isOn = true ∧ sub32 w.now c._onStartMillis < 600000
      · rw [if_pos hcond]
        exact scheduleEarliestSafeShutdown_timerInv c w.now h hnw hcond.2
      · rw [if_neg hcond] at hr
        omega
    · simp only [Bool.not_false, if_true, hr, if_false]
      exact h
  · rw [requestShutdown_allowed comm c w hcan]
    exact timerInv_of_fields c _ w.now h rfl rfl rfl rfl

theorem evaluateAutoShutdown_timerInv {δ : Type} (comm : IStoveComm δ)
    (c : StoveController) (w : World δ) (h : TimerInv c w.now) :
    TimerInv (evaluateAutoShutdown comm c w).1 w.now := by
  unfold evaluateAutoShutdown
  split_ifs
  · exact h
  · obtain ⟨_, e2, _, e4, _⟩ := requestShutdown_frame comm c w
    unfold TimerInv at h ⊢
    dsimp only
    rw [e2, e4]
    exact ⟨h.1, by simp⟩
  · exact h

theorem applyTargetPower_timer_frame {δ : Type} (comm : IStoveComm δ)
    (c : StoveController) (w : World δ) (target : Nat) :
    (applyTargetPower comm c w target).1._autoShutdownEnabled = c._autoShutdownEnabled
      ∧ (applyTargetPower comm c w target).1._autoShutdownDeadlineMs
          = c._autoShutdownDeadlineMs := by
  unfold applyTargetPower
  cases hs : c._shutdownInProgress
  swap
  · simp
  cases ha : c._powerAdjustInProgress
  swap
  · simp
  simp only [Bool.false_eq_true, if_false]
  have e1 := syncPhysicalPower_eq comm c w
  generalize syncPhysicalPower comm c w = s1 at *
  have f1 : s1.1._autoShutdownEnabled = c._autoShutdownEnabled := by rw [e1]
  have f2 : s1.1._autoShutdownDeadlineMs = c._autoShutdownDeadlineMs := by rw [e1]
  by_cases ht : target = s1.1._physicalPower
  · simp only [ht, if_true]
    exact ⟨f1, f2⟩
  · simp only [ht, if_false]
    cases hc : s1.1._comm
    · simp only [Bool.false_eq_true, if_false]
      exact ⟨f1, f2⟩
    · simp only [if_true]
      generalize vTaskDelay 4000 _ = w2
      rw [syncPhysicalPower_eq]
      exact ⟨f1, f2⟩

theorem setPowerLevel_timerInv {δ : Type} (comm : IStoveComm δ) (c : StoveController)
    (w : World δ) (level t : Nat) (h : TimerInv c t) :
    TimerInv (setPowerLevel comm c w level).1 t := by
  unfold setPowerLevel
  dsimp only
  generalize (if (if level < 1 then 1 else level) > 5 then 5
    else if level < 1 then 1 else level) = target
  obtain ⟨_, e2, _, e4, _⟩ := applyTargetPower_frame comm c w target
  obtain ⟨e5, e6⟩ := applyTargetPower_timer_frame comm c w target
  exact timerInv_of_fields c _ t h e2 e4 e5 e6

theorem sub32_of_le (a b : Nat) (hb : b ≤ a) (ha : a < 4294967296) : sub32 a b = a - b := by
  unfold sub32
  rw [Nat.mod_eq_of_lt ha, Nat.mod_eq_of_lt (lt_of_le_of_lt hb ha)]
  have e : a + (4294967296 - b) = (a - b) + 4294967296 := by omega
  rw [e, Nat.add_mod_right]
  exact Nat.mod_eq_of_lt (by omega)

theorem add32_of_lt (a b : Nat) (h : a + b < 4294967296) : add32 a b = a + b :=
  Nat.mod_eq_of_lt h

theorem setAutoShutdown_timerInv (c : StoveController) (now minutes : Nat)
    (h : TimerInv c now) (hnw : NoWrapAt now) :
    TimerInv (setAutoShutdown c now minutes).2 now := by
  unfold TimerInv NoWrapAt at *
  cases hon : c._isOn
  · have e : setAutoShutdown c now minutes = (0, c) := by simp [setAutoShutdown, hon]
    rw [e]
    simpa [hon] using h
  have hst := h.1 hon
  by_cases hm : minutes = 0
  · have e : setAutoShutdown c now minutes = (0, c) := by simp [setAutoShutdown, hm]
    rw [e]
    simpa [hon] using h
  simp only [setAutoShutdown, SAFETY_MIN_ON_TIME_MS, AUTO_SHUTDOWN_MAX_MIN, hon, hm,
    Bool.not_true, Bool.false_eq_true, if_false]
  refine ⟨fun _ => hst, fun _ => ⟨trivial, ?_⟩⟩
  rw [sub32_of_le now c._onStartMillis hst (by omega)]
  have hmul : mul32 480 60000 = 28800000 := by decide
  rw [hmul]
  split_ifs <;> dsimp only at *
  all_goals first
    | (rw [add32_of_lt _ _ (by omega)]; omega)
    | (exfalso; omega)
    | (have e : mul32 minutes 60000 = minutes * 60000 := Nat.mod_eq_of_lt (by omega)
       simp only [e] at *
       rw [add32_of_lt _ _ (by omega)]
       omega)

theorem poll_timerInv {δ : Type} (comm : IStoveComm δ) (c : StoveController)
    (w : World δ) (t : Nat) (h : TimerInv c t) (ht : t ≤ w.now) :
    TimerInv (poll comm c w).1 w.now := by
  cases hcomm : c._comm
  · have : poll comm c w = (c, w) := by simp [poll, hcomm]
    rw [this]
    exact timerInv_mono c t w.now h ht
  cases hs : c._shutdownInProgress
  swap
  · have : poll comm c w = (c, w) := by simp [poll, hcomm, hs]
    rw [this]
    exact timerInv_mono c t w.now h ht
  cases ha : c._powerAdjustInProgress
  swap
  · have : poll comm c w = (c, w) := by simp [poll, hcomm, ha]
    rw [this]
    exact timerInv_mono c t w.now h ht
  rw [poll_eq_evaluate comm c w hcomm hs ha]
  have h1 := pollBeforeAutoShutdown_timerInv comm c w t h ht
  have h2 := pollBeforeAutoShutdown_now comm c w
  have h3 := evaluateAutoShutdown_timerInv comm (pollBeforeAutoShutdown comm c w).1
    (pollBeforeAutoShutdown comm c w).2 (by rw [h2]; exact h1)
  rw [h2] at h3
  exact h3

/-- While the clock does not wrap, every reachable controller state satisfies the
timer invariant at the time of its last operation. -/
theorem reachableNoWrap_timerInv {δ : Type} (comm : IStoveComm δ) (c : StoveController)
    (t : Nat) (h : ReachableNoWrap comm c t) : TimerInv c t := by
  induction h with
  | ctor => simp [TimerInv, ctor]
  | «begin» c t _ ih => exact timerInv_of_fields c _ t ih rfl rfl rfl rfl
  | poll c t w _ ht _ ih => exact poll_timerInv comm c w t ih ht
  | requestShutdown c t w _ ht hnw ih =>
    exact requestShutdown_timerInv comm c w (timerInv_mono c t w.now ih ht) hnw
  | setPowerLevel c t w level _ ht _ ih =>
    exact setPowerLevel_timerInv comm c w level w.now (timerInv_mono c t w.now ih ht)
  | setAutoShutdown c t now minutes _ ht hnw ih =>
    exact setAutoShutdown_timerInv c now minutes (timerInv_mono c t now ih ht) hnw
  | disableAutoShutdown c t _ ih =>
    unfold TimerInv at ih ⊢
    exact ⟨ih.1, by simp [disableAutoShutdown]⟩

theorem timerInv_grants (c : StoveController) (now : Nat) (h : TimerInv c now)
    (hnw : NoWrapAt now) (hen : c._autoShutdownEnabled = true)
    (hdl : c._autoShutdownDeadlineMs ≤ now) :
    (getStatusSnapshot c now).canShutdown = true := by
  unfold TimerInv NoWrapAt at *
  obtain ⟨hon, hge⟩ := h.2 hen
  have hst := h.1 hon
  rw [snapshot_canShutdown_iff]
  refine ⟨hon, ?_⟩
  rw [sub32_of_le now c._onStartMillis hst (by omega)]
  omega

theorem pollUpdateState_deadline (c : StoveController) (s : StoveRunState) (now : Nat)
    (hen : (pollUpdateState c s now)._autoShutdownEnabled = true) :
    c._autoShutdownEnabled = true
      ∧ (pollUpdateState c s now)._autoShutdownDeadlineMs = c._autoShutdownDeadlineMs := by
  simp only [pollUpdateState] at hen ⊢
  split_ifs at hen ⊢ with h1 h2 h3
  all_goals exact ⟨hen, rfl⟩

theorem pollBeforeAutoShutdown_deadline {δ : Type} (comm : IStoveComm δ)
    (c : StoveController) (w : World δ)
    (hen : (pollBeforeAutoShutdown comm c w).1._autoShutdownEnabled = true) :
    c._autoShutdownEnabled = true
      ∧ (pollBeforeAutoShutdown comm c w).1._autoShutdownDeadlineMs
          = c._autoShutdownDeadlineMs := by
  simp only [pollBeforeAutoShutdown, updateAmbientTemp, millis] at hen ⊢
  rw [syncPhysicalPower_eq] at hen ⊢
  exact pollUpdateState_deadline c _ w.now hen

/-- The example state `timerArmedAt0` is reached from construction by `begin`, a
poll at clock value 0 and `setAutoShutdown(10)` at clock value 0. -/
theorem timerArmedAt0_reachableNoWrap : ReachableNoWrap traceComm timerArmedAt0 0 := by
  have h0 : ReachableNoWrap traceComm (begin ctor) 0 :=
    ReachableNoWrap.begin ctor 0 ReachableNoWrap.ctor
  have hn : NoWrapAt 0 := by unfold NoWrapAt; decide
  have h1 := ReachableNoWrap.poll (begin ctor) 0 ⟨0, ⟨[[0x00, 0x04]], []⟩⟩ h0 (le_refl 0) hn
  have h2 := ReachableNoWrap.setAutoShutdown _ 0 0 10 h1 (le_refl 0) hn
  unfold timerArmedAt0 workingAt0
  exact h2

/-- C28 (the code at the failing input), on a clock that never wraps (4294965296
< 4294966296 < 4294966796 < 2^32). The device is switched on by a poll at
4294965296 and `setAutoShutdown(10)` runs at 4294966296: the sum `now +
requestedMs` overflows 32 bits and the timer is armed with the deadline 599000,
below `_onStartMillis + SAFETY_MIN_ON_TIME_MS`. The poll at 4294966796 finds the
deadline passed with the device on for 1500 ms, the `requestShutdown()` the
timer triggers is denied, and the poll leaves the timer disarmed. -/
theorem armed_deadline_wraps_before_clock :
    timerArmedLate._autoShutdownEnabled = true
      ∧ timerArmedLate._isOn = true
      ∧ timerArmedLate._onStartMillis = 4294965296
      ∧ timerArmedLate._autoShutdownDeadlineMs = 599000
      ∧ ¬ (timerArmedLate._onStartMillis + SAFETY_MIN_ON_TIME_MS
            ≤ timerArmedLate._autoShutdownDeadlineMs)
      ∧ (pollBeforeAutoShutdown traceComm timerArmedLate
          ⟨4294966796, ⟨[[0x00, 0x04]], []⟩⟩).1._autoShutdownEnabled = true
      ∧ (pollBeforeAutoShutdown traceComm timerArmedLate
          ⟨4294966796, ⟨[[0x00, 0x04]], []⟩⟩).1._isOn = true
      ∧ (requestShutdown traceComm
          (pollBeforeAutoShutdown traceComm timerArmedLate
            ⟨4294966796, ⟨[[0x00, 0x04]], []⟩⟩).1
          (pollBeforeAutoShutdown traceComm timerArmedLate
            ⟨4294966796, ⟨[[0x00, 0x04]], []⟩⟩).2).1 = false
      ∧ isAutoShutdownEnabled
          (poll traceComm timerArmedLate ⟨4294966796, ⟨[[0x00, 0x04]], []⟩⟩).1 = false := by
  decide

/-- Where the sum does not overflow the invariant holds: while every clock value
read is more than `AUTO_SHUTDOWN_MAX_MIN` minutes (28800000 ms) short of the
32-bit wrap, so that neither the clock nor an armed deadline wraps, in every
controller state
reachable from construction by `begin`, `poll`, `startStove` (which changes no
controller field), `requestShutdown`, `setPowerLevel`, `setAutoShutdown` with any
minutes and `disableAutoShutdown`, an armed auto-shutdown timer implies that the
device is on and that the deadline is at least `_onStartMillis +
SAFETY_MIN_ON_TIME_MS`; and when a later `poll()` reaches `evaluateAutoShutdown()`
with the timer armed and the deadline passed, the device is on and the
`requestShutdown()` the timer triggers returns true. -/
theorem armed_timer_never_denied {δ : Type} (comm : IStoveComm δ) (c : StoveController)
    (t : Nat) (h : ReachableNoWrap comm c t) :
    (c._autoShutdownEnabled = true →
        c._isOn = true
          ∧ c._onStartMillis + SAFETY_MIN_ON_TIME_MS ≤ c._autoShutdownDeadlineMs)
      ∧ (∀ w : World δ, t ≤ w.now → NoWrapAt w.now →
          (pollBeforeAutoShutdown comm c w).1._autoShutdownEnabled = true →
          (pollBeforeAutoShutdown comm c w).1._autoShutdownDeadlineMs ≤ w.now →
            (pollBeforeAutoShutdown comm c w).1._isOn = true
              ∧ (requestShutdown comm (pollBeforeAutoShutdown comm c w).1
                  (pollBeforeAutoShutdown comm c w).2).1 = true) := by
  have hinv := reachableNoWrap_timerInv comm c t h
  refine ⟨hinv.2, ?_⟩
  intro w ht hnw hen hdl
  have hpre := pollBeforeAutoShutdown_timerInv comm c w t hinv ht
  have hnow := pollBeforeAutoShutdown_now comm c w
  refine ⟨(hpre.2 hen).1, ?_⟩
  have hcan := timerInv_grants _ w.now hpre hnw hen hdl
  rw [← hnow] at hcan
  rw [requestShutdown_allowed comm _ _ hcan]

theorem armed_timer_never_denied_witness :
    ReachableNoWrap traceComm timerArmedAt0 0
      ∧ timerArmedAt0._autoShutdownEnabled = true
      ∧ (timerArmedAt0._isOn = true
          ∧ timerArmedAt0._onStartMillis + SAFETY_MIN_ON_TIME_MS
              ≤ timerArmedAt0._autoShutdownDeadlineMs)
      ∧ (requestShutdown traceComm
          (pollBeforeAutoShutdown traceComm timerArmedAt0 ⟨600000, ⟨[[0x00, 0x04]], []⟩⟩).1
          (pollBeforeAutoShutdown traceComm timerArmedAt0
            ⟨600000, ⟨[[0x00, 0x04]], []⟩⟩).2).1 = true :=
  ⟨timerArmedAt0_reachableNoWrap, by decide,
    (armed_timer_never_denied traceComm timerArmedAt0 0 timerArmedAt0_reachableNoWrap).1
      (by decide),
    ((armed_timer_never_denied traceComm timerArmedAt0 0 timerArmedAt0_reachableNoWrap).2
      ⟨600000, ⟨[[0x00, 0x04]], []⟩⟩ (Nat.zero_le _) (by unfold NoWrapAt; decide)
      (by decide) (by decide)).2⟩

/-- C29 (the code at the failing input): with the device on since clock value 0
and `setAutoShutdown(10)` called at clock value 4294966296, the armed duration is
600000 ms but the sum `now + requestedMs` overflows 32 bits and the stored
deadline is 599000; ten milliseconds later (clock 4294966306, elapsed 10 <
600000) `getAutoShutdownRemainingMs()` returns 0 and a `poll()` triggers
`requestShutdown()`, which sends its 22 shutdown pulses. -/
theorem autoShutdown_fires_early_when_deadline_wraps :
    workingAt0._isOn = true
      ∧ (setAutoShutdown workingAt0 4294966296 10).2._autoShutdownEnabled = true
      ∧ (setAutoShutdown workingAt0 4294966296 10).2._autoShutdownDeadlineMs = 599000
      ∧ sub32 (setAutoShutdown workingAt0 4294966296 10).2._autoShutdownDeadlineMs
          4294966296 = 600000
      ∧ sub32 4294966306 4294966296 = 10
      ∧ getAutoShutdownRemainingMs (setAutoShutdown workingAt0 4294966296 10).2
          4294966306 = 0
      ∧ (poll traceComm (setAutoShutdown workingAt0 4294966296 10).2
          ⟨4294966306, ⟨[[0x00, 0x04]], []⟩⟩).2.dev.writes
          = List.replicate 22 (RAM_ADDR_COMMAND, COMMAND_SHUTDOWN_STEP) := by
  decide

/-- Where the sum does not overflow the timer keeps its time: when `now + D <
2^32` for the armed duration `D`, the timer never fires early: for the device on at
`now` and minutes in [1,480], `setAutoShutdown(minutes)` arms the timer with
deadline `now + D`, where `D` is the larger of `minutes * 60000` and the safety
time still to run; at every clock value from `now` up to but not including
`now + D`, `getAutoShutdownRemainingMs()` returns `D` less the time elapsed since
`now`, and a `poll()` either returns at once or is exactly the state read,
bookkeeping, power re-sync and temperature read, with no `requestShutdown()`. -/
theorem setAutoShutdown_no_early_fire {δ : Type} (comm : IStoveComm δ)
    (c : StoveController) (now minutes D : Nat) (w : World δ)
    (hon : c._isOn = true) (hmin : 1 ≤ minutes) (hmax : minutes ≤ 480)
    (hD : D = max (minutes * 60000) (SAFETY_MIN_ON_TIME_MS - sub32 now c._onStartMillis))
    (hnw : now + D < 4294967296) (hle : now ≤ w.now) (hlt : w.now < now + D) :
    (setAutoShutdown c now minutes).2._autoShutdownEnabled = true
      ∧ (setAutoShutdown c now minutes).2._autoShutdownDeadlineMs = now + D
      ∧ getAutoShutdownRemainingMs (setAutoShutdown c now minutes).2 w.now
          = D - (w.now - now)
      ∧ (poll comm (setAutoShutdown c now minutes).2 w
            = ((setAutoShutdown c now minutes).2, w)
          ∨ poll comm (setAutoShutdown c now minutes).2 w
            = pollBeforeAutoShutdown comm (setAutoShutdown c now minutes).2 w) := by
  have hm : minutes ≠ 0 := by omega
  have hmul : mul32 minutes 60000 = minutes * 60000 := Nat.mod_eq_of_lt (by omega)
  have hen : (setAutoShutdown c now minutes).2._autoShutdownEnabled = true := by
    simp [setAutoShutdown, hon, hm]
  have hdl : (setAutoShutdown c now minutes).2._autoShutdownDeadlineMs = now + D := by
    simp only [setAutoShutdown, SAFETY_MIN_ON_TIME_MS, AUTO_SHUTDOWN_MAX_MIN, hon, hm,
      Bool.not_true, Bool.false_eq_true, if_false, hmul] at hD ⊢
    generalize sub32 now c._onStartMillis = e at hD ⊢
    split_ifs <;> dsimp only at *
    all_goals first
      | (rw [add32_of_lt _ _ (by omega)]; omega)
      | (exfalso; unfold add32 at *; omega)
  refine ⟨hen, hdl, ?_, ?_⟩
  · simp only [getAutoShutdownRemainingMs, hen, hdl, Bool.not_true, Bool.false_eq_true,
      if_false]
    rw [if_neg (by omega)]
    omega
  · generalize setAutoShutdown c now minutes = r at hen hdl ⊢
    cases hcomm : r.2._comm
    · left; simp [poll, hcomm]
    cases hs : r.2._shutdownInProgress
    swap
    · left; simp [poll, hcomm, hs]
    cases ha : r.2._powerAdjustInProgress
    swap
    · left; simp [poll, hcomm, ha]
    right
    rw [poll_eq_evaluate comm r.2 w hcomm hs ha]
    cases hpe : (pollBeforeAutoShutdown comm r.2 w).1._autoShutdownEnabled
    · exact evaluateAutoShutdown_disabled comm _ _ hpe
    · obtain ⟨_, hpd⟩ := pollBeforeAutoShutdown_deadline comm r.2 w hpe
      have hnow := pollBeforeAutoShutdown_now comm r.2 w
      unfold evaluateAutoShutdown
      rw [if_neg (by simp [hpe]), if_neg (by rw [millis, hnow, hpd, hdl]; omega)]

theorem setAutoShutdown_no_early_fire_witness :
    workingAt0._isOn = true
      ∧ getAutoShutdownRemainingMs (setAutoShutdown workingAt0 0 10).2 599999 = 1
      ∧ (poll traceComm (setAutoShutdown workingAt0 0 10).2
            ⟨599999, ⟨[[0x00, 0x04]], []⟩⟩
            = ((setAutoShutdown workingAt0 0 10).2, ⟨599999, ⟨[[0x00, 0x04]], []⟩⟩)
          ∨ poll traceComm (setAutoShutdown workingAt0 0 10).2
              ⟨599999, ⟨[[0x00, 0x04]], []⟩⟩
            = pollBeforeAutoShutdown traceComm (setAutoShutdown workingAt0 0 10).2
                ⟨599999, ⟨[[0x00, 0x04]], []⟩⟩) :=
  ⟨by decide,
    (setAutoShutdown_no_early_fire traceComm workingAt0 0 10 600000
      ⟨599999, ⟨[[0x00, 0x04]], []⟩⟩ (by decide) (by decide) (by decide) (by decide)
      (by decide) (by decide) (by decide)).2.2.1,
    (setAutoShutdown_no_early_fire traceComm workingAt0 0 10 600000
      ⟨599999, ⟨[[0x00, 0x04]], []⟩⟩ (by decide) (by decide) (by decide) (by decide)
      (by decide) (by decide) (by decide)).2.2.2⟩

/-! ## The simulated device -/

theorem sim_writeRAM_power (s : SimStoveComm) (address data now : Nat)
    (h : 1 ≤ s._power ∧ s._power ≤ 5) :
    1 ≤ (SimStoveComm.writeRAM s address data now)._power
      ∧ (SimStoveComm.writeRAM s address data now)._power ≤ 5 := by
  unfold SimStoveComm.writeRAM
  split_ifs <;> (try dsimp only) <;> omega

theorem sim_simulateLoop_power (s : SimStoveComm) (now : Nat) :
    (SimStoveComm.simulateLoop s now)._power = s._power := by
  simp only [SimStoveComm.simulateLoop, SimStoveComm.advance]
  split_ifs <;> rfl

theorem sim_forceState_power (s : SimStoveComm) (st now : Nat) :
    (SimStoveComm.forceState s st now)._power = s._power := by
  unfold SimStoveComm.forceState
  dsimp only
  split <;> rfl

theorem sim_forcePower_range (s : SimStoveComm) (p : Nat) :
    1 ≤ (SimStoveComm.forcePower s p)._power ∧ (SimStoveComm.forcePower s p)._power ≤ 5 := by
  unfold SimStoveComm.forcePower
  dsimp only
  split_ifs <;> omega

theorem simReachable_power (s : SimStoveComm) (h : SimReachable s) :
    1 ≤ s._power ∧ s._power ≤ 5 := by
  induction h with
  | ctor => decide
  | simulateLoop s now _ ih => rw [sim_simulateLoop_power]; exact ih
  | writeRAM s address data now _ ih => exact sim_writeRAM_power s address data now ih
  | writeEEPROM s address data _ ih => exact ih
  | forceState s st now _ ih => rw [sim_forceState_power]; exact ih
  | forcePower s p _ _ => exact sim_forcePower_range s p
  | forceTempBase s t _ ih => exact ih
  | enableFailureMode s en _ ih => exact ih

/-- C25 (the code): `readEEPROM` answers `[address, 0xEE]` in every simulator
state, failure mode included, which is not the sentinel `[0xFF, 0xFF]`; the rest
of the claim holds: with failure mode enabled `readRAM` answers `[0xFF, 0xFF]`
for every address and draws nothing, and `writeRAM` and `writeEEPROM` leave the
simulator unchanged. -/
theorem sim_failure_mode_readEEPROM_not_sentinel (s : SimStoveComm) (env : SimEnv)
    (address data now : Nat) :
    SimStoveComm.readEEPROM (SimStoveComm.enableFailureMode s true) address
        = [address, 0xEE]
      ∧ SimStoveComm.readEEPROM (SimStoveComm.enableFailureMode s true) address
        ≠ [0xFF, 0xFF]
      ∧ SimStoveComm.readRAM (SimStoveComm.enableFailureMode s true) address now env
        = ([0xFF, 0xFF], env)
      ∧ SimStoveComm.writeRAM (SimStoveComm.enableFailureMode s true) address data now
        = SimStoveComm.enableFailureMode s true
      ∧ SimStoveComm.writeEEPROM (SimStoveComm.enableFailureMode s true) address data
        = SimStoveComm.enableFailureMode s true := by
  refine ⟨rfl, ?_, ?_, ?_, rfl⟩
  · simp [SimStoveComm.readEEPROM]
  · simp [SimStoveComm.readRAM, SimStoveComm.enableFailureMode]
  · simp [SimStoveComm.writeRAM, SimStoveComm.enableFailureMode]

/-- C26: with failure mode off and the power counter `p` in [1,5],
`writeRAM(RAM_ADDR_COMMAND, COMMAND_POWER_PLUS)` sets the counter to
`min(p + 1, 5)` and `writeRAM(RAM_ADDR_COMMAND, COMMAND_POWER_MINUS)` sets it to
`max(p - 1, 1)`, every other field unchanged; and in every simulator state
reachable from construction by writes, `simulateLoop`, `forcePower`,
`forceState`, `forceTempBase` and `enableFailureMode` the counter lies in [1,5],
so the two equations hold in every state the simulator can be in. -/
theorem sim_power_commands_clamped (s : SimStoveComm) (now : Nat)
    (hf : s._failureMode = false) :
    (1 ≤ s._power ∧ s._power ≤ 5 →
        SimStoveComm.writeRAM s RAM_ADDR_COMMAND COMMAND_POWER_PLUS now
            = { s with _power := min (s._power + 1) 5 }
          ∧ SimStoveComm.writeRAM s RAM_ADDR_COMMAND COMMAND_POWER_MINUS now
            = { s with _power := max (s._power - 1) 1 })
      ∧ (∀ r : SimStoveComm, SimReachable r → 1 ≤ r._power ∧ r._power ≤ 5)
      ∧ (SimReachable s →
          (SimStoveComm.writeRAM s RAM_ADDR_COMMAND COMMAND_POWER_PLUS now)._power
              = min (s._power + 1) 5
            ∧ (SimStoveComm.writeRAM s RAM_ADDR_COMMAND COMMAND_POWER_MINUS now)._power
              = max (s._power - 1) 1) := by
  have key : 1 ≤ s._power ∧ s._power ≤ 5 →
      SimStoveComm.writeRAM s RAM_ADDR_COMMAND COMMAND_POWER_PLUS now
          = { s with _power := min (s._power + 1) 5 }
        ∧ SimStoveComm.writeRAM s RAM_ADDR_COMMAND COMMAND_POWER_MINUS now
          = { s with _power := max (s._power - 1) 1 } := by
    intro hp
    obtain ⟨l, st, state, p, ab, ish, fm, t1, t2, t3⟩ := s
    dsimp only at hf hp ⊢
    subst hf
    simp only [SimStoveComm.writeRAM, RAM_ADDR_COMMAND, RAM_ADDR_STATE,
      COMMAND_POWER_PLUS, COMMAND_POWER_MINUS, COMMAND_SHUTDOWN_STEP]
    constructor
    · by_cases h5 : p < 5
      · have e : (p + 1) % 256 = min (p + 1) 5 := by omega
        simp [h5, e]
      · have e : min (p + 1) 5 = p := by omega
        simp [h5, e]
    · by_cases h1 : p > 1
      · have e : (p - 1) % 256 = max (p - 1) 1 := by omega
        simp [h1, e]
      · have e : max (p - 1) 1 = p := by omega
        simp [h1, e]
  refine ⟨key, simReachable_power, ?_⟩
  intro hr
  obtain ⟨k1, k2⟩ := key (simReachable_power s hr)
  rw [k1, k2]
  exact ⟨rfl, rfl⟩

theorem sim_power_commands_clamped_witness :
    (SimStoveComm.forcePower SimStoveComm.ctor 5)._failureMode = false
      ∧ SimReachable (SimStoveComm.forcePower SimStoveComm.ctor 5)
      ∧ (SimStoveComm.writeRAM (SimStoveComm.forcePower SimStoveComm.ctor 5)
          RAM_ADDR_COMMAND COMMAND_POWER_PLUS 0)._power = 5
      ∧ (SimStoveComm.writeRAM (SimStoveComm.forcePower SimStoveComm.ctor 5)
          RAM_ADDR_COMMAND COMMAND_POWER_MINUS 0)._power = 4 :=
  ⟨by decide, SimReachable.forcePower _ 5 SimReachable.ctor,
    ((sim_power_commands_clamped (SimStoveComm.forcePower SimStoveComm.ctor 5) 0
      (by decide)).2.2 (SimReachable.forcePower _ 5 SimReachable.ctor)).1,
    ((sim_power_commands_clamped (SimStoveComm.forcePower SimStoveComm.ctor 5) 0
      (by decide)).2.2 (SimReachable.forcePower _ 5 SimReachable.ctor)).2⟩

/-- C27 (the code): on the simulated device, failure mode off and no sequence in
progress, `setPowerLevel(t)` from simulator power `p` (both in [1,5]) ends with
the simulator's counter at `t`, and with `getPowerLevel()` returning `t`, only
when `p` already equals `t`; from power 1, `setPowerLevel(5)` leaves the
simulator's counter and `getPowerLevel()` at 1. -/
theorem setPowerLevel_on_simulator_misses_target :
    (∀ p ∈ [1, 2, 3, 4, 5], ∀ t ∈ [1, 2, 3, 4, 5],
        ((setPowerLevel simComm (begin StoveController.ctor)
            ⟨0, ⟨SimStoveComm.forcePower SimStoveComm.ctor p, quietEnv⟩⟩ t).2.dev.sim._power = t
          ↔ p = t)
        ∧ (getPowerLevel (setPowerLevel simComm (begin StoveController.ctor)
            ⟨0, ⟨SimStoveComm.forcePower SimStoveComm.ctor p, quietEnv⟩⟩ t).1 = t
          ↔ p = t))
      ∧ (setPowerLevel simComm (begin StoveController.ctor)
          ⟨0, ⟨SimStoveComm.ctor, quietEnv⟩⟩ 5).2.dev.sim._power = 1
      ∧ getPowerLevel (setPowerLevel simComm (begin StoveController.ctor)
          ⟨0, ⟨SimStoveComm.ctor, quietEnv⟩⟩ 5).1 = 1 := by
  decide

/-! ## The status tick and the UI locks -/

theorem tickRequests_eq (g : UIGating) :
    tickRequests g
      = { g with reqOnOffDisable := false, reqPowerDisable := false
                 reqTimerDisable := false, reqSchedDisable := false } := by
  obtain ⟨a1, a2, a3, b1, b2, b3, c1, c2, c3, d1, d2, d3⟩ := g
  cases a3 <;> cases b3 <;> cases c3 <;> cases d3 <;> rfl

theorem tickOnOff_eq (c : StoveController) (s : StoveStatus) (now : Nat) (g : UIGating) :
    tickOnOff c s now g = { g with onOffLocked := (tickOnOff c s now g).onOffLocked } := by
  obtain ⟨a1, a2, a3, b1, b2, b3, c1, c2, c3, d1, d2, d3⟩ := g
  simp only [tickOnOff]
  split_ifs <;> simp_all

theorem tickPower_eq (c : StoveController) (now : Nat) (g : UIGating) :
    tickPower c now g = { g with powerLocked := (tickPower c now g).powerLocked } := by
  obtain ⟨a1, a2, a3, b1, b2, b3, c1, c2, c3, d1, d2, d3⟩ := g
  simp only [tickPower]
  split_ifs <;> simp_all

theorem tickTimer_eq (now : Nat) (g : UIGating) :
    tickTimer now g = { g with timerLocked := (tickTimer now g).timerLocked } := by
  obtain ⟨a1, a2, a3, b1, b2, b3, c1, c2, c3, d1, d2, d3⟩ := g
  simp only [tickTimer]
  split_ifs <;> simp_all

theorem tickSched_eq (now : Nat) (g : UIGating) :
    tickSched now g = { g with schedLocked := (tickSched now g).schedLocked } := by
  obtain ⟨a1, a2, a3, b1, b2, b3, c1, c2, c3, d1, d2, d3⟩ := g
  simp only [tickSched]
  split_ifs <;> simp_all

theorem tickOnOff_locked_iff (c : StoveController) (s : StoveStatus) (now : Nat)
    (g : UIGating) :
    (tickOnOff c s now g).onOffLocked = true
      ↔ g.onOffLocked = true
        ∧ ((isOn c = true ∧ s.canShutdown = false
              ∧ sub32 now g.onOffLockStart ≤ STOVE_START_CONFIRM_TIMEOUT_MS)
          ∨ (isOn c = false ∧ s.state ≠ STOVE_OFF
              ∧ sub32 now g.onOffLockStart ≤ STOVE_SHUTDOWN_CONFIRM_TIMEOUT_MS)) := by
  obtain ⟨a1, a2, a3, b1, b2, b3, c1, c2, c3, d1, d2, d3⟩ := g
  simp only [tickOnOff, STOVE_START_CONFIRM_TIMEOUT_MS, STOVE_SHUTDOWN_CONFIRM_TIMEOUT_MS,
    UI_REENABLE_FAILSAFE_MS]
  split_ifs <;> simp_all
  all_goals first
    | omega
    | (intro hx; rcases ‹_ ∨ _› with hy | hy
       · simp_all
       · exact hy)

theorem tickPower_locked (c : StoveController) (now : Nat) (g : UIGating)
    (h : (tickPower c now g).powerLocked = true) :
    g.powerLocked = true ∧ sub32 now g.powerLockStart ≤ POWER_ADJUST_TIMEOUT_MS := by
  obtain ⟨a1, a2, a3, b1, b2, b3, c1, c2, c3, d1, d2, d3⟩ := g
  simp only [tickPower, POWER_ADJUST_TIMEOUT_MS, UI_REENABLE_FAILSAFE_MS] at h ⊢
  split_ifs at h <;> simp_all

theorem tickTimer_locked (now : Nat) (g : UIGating)
    (h : (tickTimer now g).timerLocked = true) :
    g.timerLocked = true ∧ sub32 now g.timerLockStart ≤ 1500 := by
  obtain ⟨a1, a2, a3, b1, b2, b3, c1, c2, c3, d1, d2, d3⟩ := g
  simp only [tickTimer, UI_REENABLE_FAILSAFE_MS] at h ⊢
  split_ifs at h <;> simp_all

theorem tickSched_locked (now : Nat) (g : UIGating)
    (h : (tickSched now g).schedLocked = true) :
    g.schedLocked = true ∧ sub32 now g.schedLockStart ≤ 1000 := by
  obtain ⟨a1, a2, a3, b1, b2, b3, c1, c2, c3, d1, d2, d3⟩ := g
  simp only [tickSched, UI_REENABLE_FAILSAFE_MS] at h ⊢
  split_ifs at h <;> simp_all

/-- The four lock bits after a tick that is not skipped, in terms of the gating
state before it. -/
theorem pushStatus_locks (term : Terminal) (c : StoveController) (now : Nat)
    (u : UiGlobals) (h : term.isUserTyping now = false) :
    ((pushStatus term c now u).uiGate.onOffLocked = true
        ↔ u.uiGate.onOffLocked = true
          ∧ ((isOn c = true ∧ (getStatusSnapshot c now).canShutdown = false
                ∧ sub32 now u.uiGate.onOffLockStart ≤ STOVE_START_CONFIRM_TIMEOUT_MS)
            ∨ (isOn c = false ∧ (getStatusSnapshot c now).state ≠ STOVE_OFF
                ∧ sub32 now u.uiGate.onOffLockStart ≤ STOVE_SHUTDOWN_CONFIRM_TIMEOUT_MS)))
      ∧ ((pushStatus term c now u).uiGate.powerLocked = true →
          u.uiGate.powerLocked = true
            ∧ sub32 now u.uiGate.powerLockStart ≤ POWER_ADJUST_TIMEOUT_MS)
      ∧ ((pushStatus term c now u).uiGate.timerLocked = true →
          u.uiGate.timerLocked = true ∧ sub32 now u.uiGate.timerLockStart ≤ 1500)
      ∧ ((pushStatus term c now u).uiGate.schedLocked = true →
          u.uiGate.schedLocked = true ∧ sub32 now u.uiGate.schedLockStart ≤ 1000) := by
  simp only [pushStatus, h, Bool.false_eq_true, if_false]
  generalize getStatusSnapshot c now = s
  have e0 := tickRequests_eq u.uiGate
  generalize tickRequests u.uiGate = g0 at e0 ⊢
  have e1 := tickOnOff_eq c s now g0
  have l1 := tickOnOff_locked_iff c s now g0
  generalize tickOnOff c s now g0 = g1 at e1 l1 ⊢
  have e2 := tickPower_eq c now g1
  have l2 := tickPower_locked c now g1
  generalize tickPower c now g1 = g2 at e2 l2 ⊢
  have e3 := tickTimer_eq now g2
  have l3 := tickTimer_locked now g2
  generalize tickTimer now g2 = g3 at e3 l3 ⊢
  have e4 := tickSched_eq now g3
  have l4 := tickSched_locked now g3
  generalize tickSched now g3 = g4 at e4 l4 ⊢
  have f1 : g4.onOffLocked = g1.onOffLocked := by rw [e4, e3, e2]
  have f2 : g4.powerLocked = g2.powerLocked := by rw [e4, e3]
  have f3 : g4.timerLocked = g3.timerLocked := by rw [e4]
  have s0 : g0.onOffLocked = u.uiGate.onOffLocked ∧ g0.onOffLockStart = u.uiGate.onOffLockStart
      ∧ g0.powerLocked = u.uiGate.powerLocked ∧ g0.powerLockStart = u.uiGate.powerLockStart
      ∧ g0.timerLocked = u.uiGate.timerLocked ∧ g0.timerLockStart = u.uiGate.timerLockStart
      ∧ g0.schedLocked = u.uiGate.schedLocked
      ∧ g0.schedLockStart = u.uiGate.schedLockStart := by
    rw [e0]; exact ⟨rfl, rfl, rfl, rfl, rfl, rfl, rfl, rfl⟩
  have s1 : g1.powerLocked = g0.powerLocked ∧ g1.powerLockStart = g0.powerLockStart
      ∧ g1.timerLocked = g0.timerLocked ∧ g1.timerLockStart = g0.timerLockStart
      ∧ g1.schedLocked = g0.schedLocked ∧ g1.schedLockStart = g0.schedLockStart := by
    rw [e1]; exact ⟨rfl, rfl, rfl, rfl, rfl, rfl⟩
  have s2 : g2.timerLocked = g1.timerLocked ∧ g2.timerLockStart = g1.timerLockStart
      ∧ g2.schedLocked = g1.schedLocked ∧ g2.schedLockStart = g1.schedLockStart := by
    rw [e2]; exact ⟨rfl, rfl, rfl, rfl⟩
  have s3 : g3.schedLocked = g2.schedLocked ∧ g3.schedLockStart = g2.schedLockStart := by
    rw [e3]; exact ⟨rfl, rfl⟩
  obtain ⟨a1, a2, a3, a4, a5, a6, a7, a8⟩ := s0
  obtain ⟨b3, b4, b5, b6, b7, b8⟩ := s1
  obtain ⟨c5, c6, c7, c8⟩ := s2
  obtain ⟨d7, d8⟩ := s3
  refine ⟨?_, ?_, ?_, ?_⟩
  · rw [f1, l1, a1, a2]
  · intro hl
    rw [f2] at hl
    have := l2 hl
    rw [b3, b4, a3, a4] at this
    exact this
  · intro hl
    rw [f3] at hl
    have := l3 hl
    rw [c5, c6, b5, b6, a5, a6] at this
    exact this
  · intro hl
    have := l4 hl
    rw [d7, d8, c7, c8, b7, b8, a7, a8] at this
    exact this

/-- Counterexample to C22 as stated, on an idle terminal. A start request at
clock value 0 with the device off is unlocked by the tick at 1000, the device
still not on and 1000 ≤ 15000; with the device on since 0, the tick at 1000
leaves the control locked although the device is on; a shutdown request at
700000 with the device on is unlocked by the tick at 700001 although the state
is Working, not Off, and 1 ≤ 20000. -/
theorem onOff_unlock_ignores_request_type :
    isOn (begin StoveController.ctor) = false
      ∧ (pushStatus idleTerminal (begin StoveController.ctor) 1000
          (onOffCallback initUIGating (some []) 0 true).1).uiGate.onOffLocked = false
      ∧ isOn workingAt0 = true
      ∧ (pushStatus idleTerminal workingAt0 1000
          (onOffCallback initUIGating (some []) 0 true).1).uiGate.onOffLocked = true
      ∧ (getStatusSnapshot workingAt0 700001).state = STOVE_WORKING
      ∧ (pushStatus idleTerminal workingAt0 700001
          (onOffCallback initUIGating (some []) 700000 false).1).uiGate.onOffLocked = false := by
  decide

/-- C22 (amended): after the on/off callback locks the control at `t0`, for a
start and for a shutdown request alike, a tick at `now` that is not skipped
(the console user is not typing) leaves it locked exactly when the controller is
on, shutdown is not yet allowed and `now - t0 ≤ 15000`, or the controller is not
on, its state is not Off and `now - t0 ≤ 20000`; the branch is chosen by
`isOn()` at the tick, not by the request. -/
theorem onOff_lock_follows_device_state (u : UiGlobals) (q : Option (List Command))
    (t0 : Nat) (turnOn : Bool) (term : Terminal) (c : StoveController) (now : Nat)
    (h : term.isUserTyping now = false) :
    (onOffCallback u q t0 turnOn).1.uiGate.onOffLocked = true
      ∧ (onOffCallback u q t0 turnOn).1.uiGate.onOffLockStart = t0
      ∧ ((pushStatus term c now (onOffCallback u q t0 turnOn).1).uiGate.onOffLocked = true
          ↔ (isOn c = true ∧ (getStatusSnapshot c now).canShutdown = false
                ∧ sub32 now t0 ≤ STOVE_START_CONFIRM_TIMEOUT_MS)
            ∨ (isOn c = false ∧ (getStatusSnapshot c now).state ≠ STOVE_OFF
                ∧ sub32 now t0 ≤ STOVE_SHUTDOWN_CONFIRM_TIMEOUT_MS)) := by
  refine ⟨rfl, rfl, ?_⟩
  rw [(pushStatus_locks term c now (onOffCallback u q t0 turnOn).1 h).1]
  have e1 : (onOffCallback u q t0 turnOn).1.uiGate.onOffLocked = true := rfl
  have e2 : (onOffCallback u q t0 turnOn).1.uiGate.onOffLockStart = t0 := rfl
  rw [e1, e2]
  simp

theorem onOff_lock_follows_device_state_witness :
    idleTerminal.isUserTyping 1000 = false
      ∧ ((pushStatus idleTerminal workingAt0 1000
            (onOffCallback initUIGating (some []) 0 false).1).uiGate.onOffLocked = true
          ↔ (isOn workingAt0 = true ∧ (getStatusSnapshot workingAt0 1000).canShutdown = false
                ∧ sub32 1000 0 ≤ STOVE_START_CONFIRM_TIMEOUT_MS)
            ∨ (isOn workingAt0 = false ∧ (getStatusSnapshot workingAt0 1000).state ≠ STOVE_OFF
                ∧ sub32 1000 0 ≤ STOVE_SHUTDOWN_CONFIRM_TIMEOUT_MS)) :=
  ⟨by decide,
    (onOff_lock_follows_device_state initUIGating (some []) 0 false idleTerminal workingAt0
      1000 (by decide)).2.2⟩

/-- Counterexample to C23 as stated: with the terminal in quiet mode, or with the
console user typing (a key 1000 ms ago on a non-empty line), the tick at 40000
leaves the on/off control locked since 0 locked, although 40000 - 0 > 30000. -/
theorem failsafe_skipped_while_typing :
    sub32 40000 0 > UI_REENABLE_FAILSAFE_MS
      ∧ (onOffCallback initUIGating (some []) 0 true).1.uiGate.onOffLocked = true
      ∧ (pushStatus quietTerminal (begin StoveController.ctor) 40000
          (onOffCallback initUIGating (some []) 0 true).1).uiGate.onOffLocked = true
      ∧ (pushStatus ⟨false, "o", 39000⟩ (begin StoveController.ctor) 40000
          (onOffCallback initUIGating (some []) 0 true).1).uiGate.onOffLocked = true := by
  decide

/-- C23 (amended): a status tick at `now` that is not skipped (the terminal is not
in quiet mode and the console user is not typing) leaves unlocked each of the
four controls whose lock is older than `UI_REENABLE_FAILSAFE_MS` in 32-bit
unsigned arithmetic, whatever the controller reports; and for every terminal
state a tick never turns an unlocked control into a locked one. -/
theorem pushStatus_failsafe_unless_typing (term : Terminal) (c : StoveController)
    (now : Nat) (u : UiGlobals) (h : term.isUserTyping now = false) :
    (sub32 now u.uiGate.onOffLockStart > UI_REENABLE_FAILSAFE_MS →
        (pushStatus term c now u).uiGate.onOffLocked = false)
      ∧ (sub32 now u.uiGate.powerLockStart > UI_REENABLE_FAILSAFE_MS →
          (pushStatus term c now u).uiGate.powerLocked = false)
      ∧ (sub32 now u.uiGate.timerLockStart > UI_REENABLE_FAILSAFE_MS →
          (pushStatus term c now u).uiGate.timerLocked = false)
      ∧ (sub32 now u.uiGate.schedLockStart > UI_REENABLE_FAILSAFE_MS →
          (pushStatus term c now u).uiGate.schedLocked = false)
      ∧ (∀ term2 : Terminal,
          (u.uiGate.onOffLocked = false →
              (pushStatus term2 c now u).uiGate.onOffLocked = false)
            ∧ (u.uiGate.powerLocked = false →
                (pushStatus term2 c now u).uiGate.powerLocked = false)
            ∧ (u.uiGate.timerLocked = false →
                (pushStatus term2 c now u).uiGate.timerLocked = false)
            ∧ (u.uiGate.schedLocked = false →
                (pushStatus term2 c now u).uiGate.schedLocked = false)) := by
  obtain ⟨l1, l2, l3, l4⟩ := pushStatus_locks term c now u h
  simp only [UI_REENABLE_FAILSAFE_MS, STOVE_START_CONFIRM_TIMEOUT_MS,
    STOVE_SHUTDOWN_CONFIRM_TIMEOUT_MS, POWER_ADJUST_TIMEOUT_MS] at *
  refine ⟨?_, ?_, ?_, ?_, ?_⟩
  · intro hgt
    cases hb : (pushStatus term c now u).uiGate.onOffLocked
    · rfl
    · rcases (l1.mp hb).2 with hx | hx <;> omega
  · intro hgt
    cases hb : (pushStatus term c now u).uiGate.powerLocked
    · rfl
    · have := (l2 hb).2; omega
  · intro hgt
    cases hb : (pushStatus term c now u).uiGate.timerLocked
    · rfl
    · have := (l3 hb).2; omega
  · intro hgt
    cases hb : (pushStatus term c now u).uiGate.schedLocked
    · rfl
    · have := (l4 hb).2; omega
  · intro term2
    cases ht : term2.isUserTyping now
    · obtain ⟨m1, m2, m3, m4⟩ := pushStatus_locks term2 c now u ht
      refine ⟨?_, ?_, ?_, ?_⟩
      · intro hu
        cases hb : (pushStatus term2 c now u).uiGate.onOffLocked
        · rfl
        · have := (m1.mp hb).1; rw [hu] at this; cases this
      · intro hu
        cases hb : (pushStatus term2 c now u).uiGate.powerLocked
        · rfl
        · have := (m2 hb).1; rw [hu] at this; cases this
      · intro hu
        cases hb : (pushStatus term2 c now u).uiGate.timerLocked
        · rfl
        · have := (m3 hb).1; rw [hu] at this; cases this
      · intro hu
        cases hb : (pushStatus term2 c now u).uiGate.schedLocked
        · rfl
        · have := (m4 hb).1; rw [hu] at this; cases this
    · have e : pushStatus term2 c now u = u := by simp [pushStatus, ht]
      rw [e]
      exact ⟨id, id, id, id⟩

theorem pushStatus_failsafe_unless_typing_witness :
    idleTerminal.isUserTyping 40000 = false
      ∧ sub32 40000 (onOffCallback initUIGating (some []) 0 true).1.uiGate.onOffLockStart
          > UI_REENABLE_FAILSAFE_MS
      ∧ (pushStatus idleTerminal workingAt0 40000
          (onOffCallback initUIGating (some []) 0 true).1).uiGate.onOffLocked = false :=
  ⟨by decide, by decide,
    (pushStatus_failsafe_unless_typing idleTerminal workingAt0 40000
      (onOffCallback initUIGating (some []) 0 true).1 (by decide)).1 (by decide)⟩

/-! ## The console and the command queue -/

theorem trim_length_le (cs : List Char) : (trim cs).length ≤ cs.length := by
  unfold trim
  rw [List.length_reverse]
  refine le_trans (List.dropWhile_sublist _).length_le ?_
  rw [List.length_reverse]
  exact (List.dropWhile_sublist _).length_le

theorem afterSpace_length_lt (cs : List Char) (h : cs.length ≠ 0) :
    (afterSpace cs).length < cs.length := by
  unfold afterSpace
  rw [List.length_drop]
  have := (List.dropWhile_sublist (fun c => decide (c ≠ ' ')) (l := cs)).length_le
  omega

/-- More fuel than the length of the text changes nothing: the loop of
`parseSixInts` ends within `tmp.length + 1` turns. -/
theorem parseSixIntsLoop_fuel (f1 : Nat) :
    ∀ (f2 : Nat) (tmp : List Char) (out : List Int), tmp.length < f1 → tmp.length < f2 →
      Terminal.parseSixIntsLoop f1 tmp out = Terminal.parseSixIntsLoop f2 tmp out := by
  induction f1 with
  | zero => intro f2 tmp out h1; omega
  | succ n ih =>
    intro f2 tmp out h1 h2
    cases f2 with
    | zero => omega
    | succ m =>
      simp only [Terminal.parseSixIntsLoop]
      by_cases hc : tmp.length ≠ 0 ∧ out.length < 6
      · rw [if_pos hc, if_pos hc]
        by_cases hs : ¬ ' ' ∈ tmp
        · rw [if_pos hs, if_pos hs]
        · rw [if_neg hs, if_neg hs]
          have hl := afterSpace_length_lt tmp hc.1
          have ht := trim_length_le (afterSpace tmp)
          exact ih m _ _ (by omega) (by omega)
      · rw [if_neg hc, if_neg hc]

end Micronova
